import Mathlib

/-!
# melonDS DS libretro core: task queue contract and host driver

A shallow embedding of the libretro glue of melonDS DS.

* `retro.task`: the cooperative task queue (`retro/task_queue.hpp`), whose
  implementation is not among the sources; it is modelled from the
  specification.
* `melonds`: the host driver of `libretro.cpp` and the deferred flush task of
  `platform/file.cpp`, translated from the sources.

The host driver is embedded as state-passing functions over `melonds.Core`
that record, in order, every call they make into the task queue and into the
emulator engine. The recorded calls are given a meaning on the task queue by
`melonds.interp`.
-/

namespace retro.task

/-- Modelled from the spec: `TaskHandle` (section 4.2), the per-task flags.
`cancelled` is set from outside (`reset`) and read through `IsCancelled()`;
`finished` is set by the task body through `Finish()`. -/
structure TaskHandle where
  cancelled : Bool
  finished : Bool
deriving DecidableEq, Repr

/-- What one invocation of a task action did: the world it left, whether it
called `Finish()`, whether it raised an error, and the specs it pushed onto
the queue while it ran. -/
structure Ran (W T : Type) where
  world : W
  finish : Bool
  raised : Bool
  pushed : List T

/-- Modelled from the spec: `TaskSpec` (section 4.3), an immutable descriptor
binding an action, which receives the task's handle, and an optional cleanup
action. A cleanup returns the world it left and whether it raised. -/
inductive TaskSpec (W : Type) : Type where
  | mk (action : TaskHandle → W → Ran W (TaskSpec W)) (cleanup : Option (W → W × Bool))

/-- The action of a spec. -/
def TaskSpec.action {W : Type} : TaskSpec W → TaskHandle → W → Ran W (TaskSpec W)
  | .mk a _ => a

/-- The optional cleanup action of a spec. -/
def TaskSpec.cleanup {W : Type} : TaskSpec W → Option (W → W × Bool)
  | .mk _ c => c

/-- Modelled from the spec: one entry of the queue (section 3), a spec with
its handle. The `id` is the position of the task in the order of all pushes;
it only serves to tell tasks apart in the log. -/
structure Task (W : Type) where
  id : Nat
  spec : TaskSpec W
  handle : TaskHandle

/-- Modelled from the spec: `TaskQueue` (section 3), the ordered collection of
live tasks in insertion order, with the process-wide initialised flag. -/
structure TaskQueue (W : Type) where
  initialised : Bool
  tasks : List (Task W)
  nextId : Nat

/-- Observable invocations: an action of task `id` that found
`IsCancelled()` equal to `sawCancelled`, or the cleanup of task `id`. -/
inductive Event where
  | action (id : Nat) (sawCancelled : Bool)
  | cleanup (id : Nat)
deriving DecidableEq, Repr

/-- The queue together with the world its tasks act on and the log of every
action and cleanup invoked so far, oldest first. -/
structure Sys (W : Type) where
  queue : TaskQueue W
  world : W
  log : List Event

/-- A task as `push` creates it: neither cancelled nor finished. -/
def fresh {W : Type} (id : Nat) (s : TaskSpec W) : Task W :=
  { id := id, spec := s, handle := { cancelled := false, finished := false } }

/-- Appends a task at the back of the queue. -/
def enqueue {W : Type} (q : TaskQueue W) (s : TaskSpec W) : TaskQueue W :=
  { q with tasks := q.tasks ++ [fresh q.nextId s], nextId := q.nextId + 1 }

/-- Modelled from the spec: `init` (section 4.1) establishes the queue state
and fails fast when the queue is already initialised. The host passes
`threaded = false`; only that mode is modelled. -/
def init {W : Type} (s : Sys W) : Option (Sys W) :=
  if s.queue.initialised then none
  else some { s with queue := { s.queue with initialised := true } }

/-- Modelled from the spec: `push` (section 4.1) appends a task at the back and
runs no code; pushing onto a queue that is not initialised is a fatal
assertion (section 7). -/
def push {W : Type} (spec : TaskSpec W) (s : Sys W) : Option (Sys W) :=
  if s.queue.initialised then some { s with queue := enqueue s.queue spec } else none

/-- Modelled from the spec: the cleanup step of a task that leaves the queue
(section 4.1). The cleanup action is invoked if the task has one; a cleanup
that raises is caught, and the task is dropped either way. -/
def runCleanup {W : Type} (t : Task W) (w : W) : W × List Event :=
  match t.spec.cleanup with
  | none => (w, [])
  | some c => ((c w).1, [Event.cleanup t.id])

/-- Result of ticking one task. -/
structure Ticked (W : Type) where
  kept : Option (Task W)
  world : W
  pushed : List (TaskSpec W)
  log : List Event

/-- Modelled from the spec: one tick of one task (section 4.1, `check`). The
action is invoked with the handle; an action that raises is treated as
finished; if afterwards the handle reports finished or cancelled, the cleanup
is invoked and the task is removed. -/
def tickTask {W : Type} (t : Task W) (w : W) : Ticked W :=
  let r := t.spec.action t.handle w
  let h : TaskHandle :=
    { cancelled := t.handle.cancelled, finished := t.handle.finished || r.finish || r.raised }
  if h.finished || h.cancelled then
    let c := runCleanup t r.world
    { kept := none, world := c.1, pushed := r.pushed,
      log := Event.action t.id t.handle.cancelled :: c.2 }
  else
    { kept := some { t with handle := h }, world := r.world, pushed := r.pushed,
      log := [Event.action t.id t.handle.cancelled] }

/-- Result of ticking a list of tasks. -/
structure Swept (W : Type) where
  kept : List (Task W)
  world : W
  pushed : List (TaskSpec W)
  log : List Event

/-- Modelled from the spec: the iteration of `check` (section 4.1) over the
tasks that were live at the start of the tick, in insertion order. -/
def tickAll {W : Type} : List (Task W) → W → Swept W
  | [], w => { kept := [], world := w, pushed := [], log := [] }
  | t :: ts, w =>
    let a := tickTask t w
    let r := tickAll ts a.world
    { kept := a.kept.toList ++ r.kept, world := r.world,
      pushed := a.pushed ++ r.pushed, log := a.log ++ r.log }

/-- Modelled from the spec: `check` (section 4.1) runs one tick over the tasks
live at its start; tasks pushed by actions during the tick are appended
behind the survivors and are first run by the next `check`. -/
def check {W : Type} (s : Sys W) : Sys W :=
  let r := tickAll s.queue.tasks s.world
  { queue := r.pushed.foldl enqueue { s.queue with tasks := r.kept },
    world := r.world,
    log := s.log ++ r.log }

/-- Sets the cancelled flag of a task. -/
def cancel {W : Type} (t : Task W) : Task W :=
  { t with handle := { t.handle with cancelled := true } }

/-- Modelled from the spec: `reset` (section 4.1) sets `cancelled` on the
handle of every live task and invokes nothing. -/
def reset {W : Type} (s : Sys W) : Sys W :=
  { s with queue := { s.queue with tasks := s.queue.tasks.map cancel } }

/-- Modelled from the spec: `wait` (section 4.1) repeats `check` until the
queue is empty. It has no timeout; `fuel` bounds the number of ticks the
model follows, and `none` means the loop was still running after that many
ticks. -/
def wait {W : Type} : Nat → Sys W → Option (Sys W)
  | fuel, s =>
    if s.queue.tasks.isEmpty then some s
    else
      match fuel with
      | 0 => none
      | n + 1 => wait n (check s)

/-- Modelled from the spec: the teardown of `deinit` (section 4.1), which
invokes the cleanup of each remaining task, in order. -/
def cleanupAll {W : Type} : List (Task W) → W → W × List Event
  | [], w => (w, [])
  | t :: ts, w =>
    let c := runCleanup t w
    let r := cleanupAll ts c.1
    (r.1, c.2 ++ r.2)

/-- Modelled from the spec: `deinit` (section 4.1) invokes the cleanup of the
tasks that remain, clears the queue and releases the queue state so that
`init` may be called again. -/
def deinit {W : Type} (s : Sys W) : Sys W :=
  let r := cleanupAll s.queue.tasks s.world
  { queue := { s.queue with initialised := false, tasks := [] },
    world := r.1,
    log := s.log ++ r.2 }

/-- The operations a driver can apply to the queue. -/
inductive Op (W : Type) where
  | init
  | push (spec : TaskSpec W)
  | check
  | reset
  | wait (fuel : Nat)
  | deinit

/-- Applies one operation; `none` is a fatal assertion or a `wait` that did
not come back within its fuel. -/
def step {W : Type} : Op W → Sys W → Option (Sys W)
  | .init, s => init s
  | .push spec, s => push spec s
  | .check, s => some (check s)
  | .reset, s => some (reset s)
  | .wait fuel, s => wait fuel s
  | .deinit, s => some (deinit s)

/-- Applies a sequence of operations, left to right. -/
def steps {W : Type} : List (Op W) → Sys W → Option (Sys W)
  | [], s => some s
  | o :: os, s => (step o s).bind (steps os)

/-- The state before the first `init`: no tasks, not initialised. -/
def start {W : Type} (w : W) : Sys W :=
  { queue := { initialised := false, tasks := [], nextId := 0 }, world := w, log := [] }

/-- The ids whose action a log shows invoked, oldest first. -/
def actionIds : List Event → List Nat
  | [] => []
  | Event.action id _ :: es => id :: actionIds es
  | Event.cleanup _ :: es => actionIds es

/-- The ids whose cleanup a log shows invoked, oldest first. -/
def cleanupIds : List Event → List Nat
  | [] => []
  | Event.action _ _ :: es => cleanupIds es
  | Event.cleanup id :: es => id :: cleanupIds es

/-- A task that never pushes a task from its action. -/
def NoPush {W : Type} (spec : TaskSpec W) : Prop :=
  ∀ h w, (spec.action h w).pushed = []

/-- The tasks `push` creates for a list of specs, the first with id `n`. -/
def freshTasks {W : Type} : Nat → List (TaskSpec W) → List (Task W)
  | _, [] => []
  | n, s :: ss => fresh n s :: freshTasks (n + 1) ss

/-- The ids a log mentions, in an action or in a cleanup, oldest first. -/
def idsOf : List Event → List Nat
  | [] => []
  | Event.action id _ :: es => id :: idsOf es
  | Event.cleanup id :: es => id :: idsOf es

/-- The actions a log shows invoked, each with the value `IsCancelled()` had
for it, oldest first. -/
def actionsOf : List Event → List (Nat × Bool)
  | [] => []
  | Event.action id c :: es => (id, c) :: actionsOf es
  | Event.cleanup _ :: es => actionsOf es

/-- Whether a task has a cleanup action. -/
def hasCleanup {W : Type} (t : Task W) : Bool :=
  t.spec.cleanup.isSome

/-- The ids of the live tasks, in queue order. -/
def liveIds {W : Type} (q : TaskQueue W) : List Nat :=
  q.tasks.map Task.id

/-- What holds of every state the operations can reach: the ids of the live
tasks and the ids in the log are below the next id, and no two live tasks
share an id. -/
def Good {W : Type} (s : Sys W) : Prop :=
  (∀ t ∈ s.queue.tasks, t.id < s.queue.nextId) ∧
    (liveIds s.queue).Nodup ∧
    (∀ i ∈ idsOf s.log, i < s.queue.nextId)

/-- No live task has been cleaned up. -/
def Uncleaned {W : Type} (s : Sys W) : Prop :=
  ∀ i ∈ liveIds s.queue, i ∉ cleanupIds s.log

/-- The task with id `i` has left the queue, and since the log was `base`
nothing of it has been invoked. -/
def GoneSince {W : Type} (i : Nat) (base : List Event) (s : Sys W) : Prop :=
  i < s.queue.nextId ∧ i ∉ liveIds s.queue ∧ ∃ d, s.log = base ++ d ∧ i ∉ idsOf d

/-- The task with id `i` has a cleanup, and it is either live and not yet
cleaned up, or gone and cleaned up once. -/
def CleanedOnce {W : Type} (i : Nat) (s : Sys W) : Prop :=
  i < s.queue.nextId ∧
    (∀ t ∈ s.queue.tasks, t.id = i → hasCleanup t = true) ∧
    (liveIds s.queue).count i + (cleanupIds s.log).count i = 1

/-- The tasks with an id in `ids` are cancelled while they live, and every
action of such a task invoked since the log was `base` found `IsCancelled()`
true. -/
def CancelledSince {W : Type} (ids : List Nat) (base : List Event) (s : Sys W) : Prop :=
  (∀ i ∈ ids, i < s.queue.nextId) ∧
    (∀ t ∈ s.queue.tasks, t.id ∈ ids → t.handle.cancelled = true) ∧
    ∃ d, s.log = base ++ d ∧ ∀ p ∈ actionsOf d, p.1 ∈ ids → p.2 = true

/-- The task with id `i` has no cleanup, and no cleanup of it has been
invoked. -/
def NeverCleaned {W : Type} (i : Nat) (s : Sys W) : Prop :=
  i < s.queue.nextId ∧
    (∀ t ∈ s.queue.tasks, t.id = i → hasCleanup t = false) ∧
    (cleanupIds s.log).count i = 0

end retro.task

namespace melonds

open retro.task

/-- The address of a `Platform::FileHandle`. -/
abbrev FileHandle := Nat

/-- What `OnScreenDisplayTask` reads: the `config::osd` switches, the input
state, the microphone state, the frame counter, the layout and the lid. -/
structure OsdState where
  showPointerCoordinates : Bool
  pointerInput : Int × Int
  touch : Int × Int
  showMicState : Bool
  micState : Option Bool
  numFrames : Nat
  showCurrentLayout : Bool
  layoutIndex : Nat
  numberOfLayouts : Nat
  showLidState : Bool
  lidClosed : Bool

/-- The state the host's tasks act on: the `flushTimers` map of `file.cpp`
(keys are unique), the files handed to `fsync`, oldest first, the inputs of
the on-screen display and the messages it has sent to the frontend. -/
structure World where
  flushTimers : List (FileHandle × Int)
  fsyncs : List FileHandle
  osd : OsdState
  messages : List String

/-- The statement `flushTimers->erase(file)`. -/
def eraseTimer (timers : List (FileHandle × Int)) (file : FileHandle) : List (FileHandle × Int) :=
  timers.filter fun p => p.1 != file

/-- The body of `FlushTask` when the task is not cancelled: every timer is
decremented; a file whose timer has reached 0 is synced to the host disk and
collected in `filesToRemove`, and the collected files are then erased from the
map. The count is an `int`; the model follows it as an integer. -/
def flushTick (w : World) : World :=
  let ticked := w.flushTimers.map fun p => (p.1, p.2 - 1)
  let filesToRemove := (ticked.filter fun p => p.2 == 0).map Prod.fst
  { w with
    flushTimers := filesToRemove.foldl eraseTimer ticked,
    fsyncs := w.fsyncs ++ filesToRemove }

/-- The action of `melonds::file::FlushTask` (file.cpp, lines 280 to 335). -/
def file.FlushTask.action (task : TaskHandle) (w : World) : Ran World (TaskSpec World) :=
  if task.cancelled then
    { world := w, finish := true, raised := false, pushed := [] }
  else
    { world := flushTick w, finish := false, raised := false, pushed := [] }

/-- The task `melonds::file::FlushTask`: its spec is built from the action
alone, there is no cleanup handler. -/
def file.FlushTask : TaskSpec World :=
  .mk file.FlushTask.action none

/-- Appends the delimiter of the on-screen display to a text that is not
empty. -/
def osdDelimit (text : String) : String :=
  if text.isEmpty then text else text ++ " || "

/-- The text `OnScreenDisplayTask` builds (libretro.cpp, lines 792 to 833). -/
def osdText (o : OsdState) : String :=
  let text := ""
  let text :=
    if o.showPointerCoordinates then
      text ++ "Pointer: (" ++ toString o.pointerInput.1 ++ ", " ++ toString o.pointerInput.2
        ++ ") → (" ++ toString o.touch.1 ++ ", " ++ toString o.touch.2 ++ ")"
    else text
  let text :=
    if o.showMicState then
      match o.micState with
      | some true => osdDelimit text ++ (if o.numFrames % 120 > 60 then "●" else "○")
      | _ => text
    else text
  let text :=
    if o.showCurrentLayout then
      osdDelimit text ++ "Layout " ++ toString ((o.layoutIndex + 1) % 4294967296) ++ "/"
        ++ toString o.numberOfLayouts
    else text
  let text :=
    if o.showLidState && o.lidClosed then osdDelimit text ++ "Closed" else text
  text

/-- The action of `melonds::OnScreenDisplayTask` (libretro.cpp, lines 785 to
848): it sends the text to the frontend when the text is not empty, and never
touches its handle. -/
def OnScreenDisplayTask.action (_task : TaskHandle) (w : World) : Ran World (TaskSpec World) :=
  let text := osdText w.osd
  { world := if text.isEmpty then w else { w with messages := w.messages ++ [text] },
    finish := false, raised := false, pushed := [] }

/-- The task `melonds::OnScreenDisplayTask`; it has no cleanup handler. -/
def OnScreenDisplayTask : TaskSpec World :=
  .mk OnScreenDisplayTask.action none

/-! ## The host driver (libretro.cpp) -/

/-- The tasks the host pushes. -/
inductive TaskKind where
  | PowerStatusUpdate
  | OnScreenDisplay
  | FileFlush
  | FlushFirmware
deriving DecidableEq, Repr

/-- The calls the host driver makes into the task queue, the emulator engine,
the frontend and its own helpers, as far as the model follows them. -/
inductive Call where
  | task_init
  | task_push (k : TaskKind)
  | task_check
  | task_reset
  | task_wait
  | task_deinit
  | sram_init
  | sram_deinit
  | sram_InitNdsSave
  | sram_InitGbaSram
  | file_init
  | file_deinit
  | clear_memory_config
  | clear_environment
  | content_clear
  | InitConfig
  | UpdateConfig
  | Platform_Init
  | Platform_DeInit
  | set_error_message
  | set_warn_message
  | shutdown
  | render_Initialize
  | GPU_InitRenderer
  | GPU_SetRenderSettings
  | NDS_Init
  | NDS_Reset
  | NDS_Start
  | NDS_Stop
  | NDS_DeInit
  | NDS_RunFrame
  | NDS_LoadSave
  | GBACart_LoadSave
  | NDS_SetupDirectBoot
  | NDSCart_InsertROM
  | GBACart_InsertROM
  | DSi_LoadNAND
  | install_dsiware
  | uninstall_dsiware
  | reset_loaded_nds_cart
  | reset_loaded_gba_cart
  | HandleInput
  | microphone_set_state (state : Bool)
  | microphone_read
  | NDS_MicInputFrame
  | Mic_FeedNoise
  | Mic_FeedSilence
  | screenLayout_Update
  | set_geometry
  | RequestOpenGlRefresh
  | Render
  | render_audio
deriving Repr

/-- A number for each call; distinct calls have distinct numbers. -/
def Call.code : Call → Nat
  | .task_init => 0
  | .task_push .PowerStatusUpdate => 1
  | .task_push .OnScreenDisplay => 2
  | .task_push .FileFlush => 3
  | .task_push .FlushFirmware => 4
  | .task_check => 5
  | .task_reset => 6
  | .task_wait => 7
  | .task_deinit => 8
  | .sram_init => 9
  | .sram_deinit => 10
  | .sram_InitNdsSave => 11
  | .sram_InitGbaSram => 12
  | .file_init => 13
  | .file_deinit => 14
  | .clear_memory_config => 15
  | .clear_environment => 16
  | .content_clear => 17
  | .InitConfig => 18
  | .UpdateConfig => 19
  | .Platform_Init => 20
  | .Platform_DeInit => 21
  | .set_error_message => 22
  | .set_warn_message => 23
  | .shutdown => 24
  | .render_Initialize => 25
  | .GPU_InitRenderer => 26
  | .GPU_SetRenderSettings => 27
  | .NDS_Init => 28
  | .NDS_Reset => 29
  | .NDS_Start => 30
  | .NDS_Stop => 31
  | .NDS_DeInit => 32
  | .NDS_RunFrame => 33
  | .NDS_LoadSave => 34
  | .GBACart_LoadSave => 35
  | .NDS_SetupDirectBoot => 36
  | .NDSCart_InsertROM => 37
  | .GBACart_InsertROM => 38
  | .DSi_LoadNAND => 39
  | .install_dsiware => 40
  | .uninstall_dsiware => 41
  | .reset_loaded_nds_cart => 42
  | .reset_loaded_gba_cart => 43
  | .HandleInput => 44
  | .microphone_set_state false => 45
  | .microphone_set_state true => 46
  | .microphone_read => 47
  | .NDS_MicInputFrame => 48
  | .Mic_FeedNoise => 49
  | .Mic_FeedSilence => 50
  | .screenLayout_Update => 51
  | .set_geometry => 52
  | .RequestOpenGlRefresh => 53
  | .Render => 54
  | .render_audio => 55

/-- The call with a given number. -/
def Call.decode : Nat → Option Call
  | 0 => some .task_init
  | 1 => some (.task_push .PowerStatusUpdate)
  | 2 => some (.task_push .OnScreenDisplay)
  | 3 => some (.task_push .FileFlush)
  | 4 => some (.task_push .FlushFirmware)
  | 5 => some .task_check
  | 6 => some .task_reset
  | 7 => some .task_wait
  | 8 => some .task_deinit
  | 9 => some .sram_init
  | 10 => some .sram_deinit
  | 11 => some .sram_InitNdsSave
  | 12 => some .sram_InitGbaSram
  | 13 => some .file_init
  | 14 => some .file_deinit
  | 15 => some .clear_memory_config
  | 16 => some .clear_environment
  | 17 => some .content_clear
  | 18 => some .InitConfig
  | 19 => some .UpdateConfig
  | 20 => some .Platform_Init
  | 21 => some .Platform_DeInit
  | 22 => some .set_error_message
  | 23 => some .set_warn_message
  | 24 => some .shutdown
  | 25 => some .render_Initialize
  | 26 => some .GPU_InitRenderer
  | 27 => some .GPU_SetRenderSettings
  | 28 => some .NDS_Init
  | 29 => some .NDS_Reset
  | 30 => some .NDS_Start
  | 31 => some .NDS_Stop
  | 32 => some .NDS_DeInit
  | 33 => some .NDS_RunFrame
  | 34 => some .NDS_LoadSave
  | 35 => some .GBACart_LoadSave
  | 36 => some .NDS_SetupDirectBoot
  | 37 => some .NDSCart_InsertROM
  | 38 => some .GBACart_InsertROM
  | 39 => some .DSi_LoadNAND
  | 40 => some .install_dsiware
  | 41 => some .uninstall_dsiware
  | 42 => some .reset_loaded_nds_cart
  | 43 => some .reset_loaded_gba_cart
  | 44 => some .HandleInput
  | 45 => some (.microphone_set_state false)
  | 46 => some (.microphone_set_state true)
  | 47 => some .microphone_read
  | 48 => some .NDS_MicInputFrame
  | 49 => some .Mic_FeedNoise
  | 50 => some .Mic_FeedSilence
  | 51 => some .screenLayout_Update
  | 52 => some .set_geometry
  | 53 => some .RequestOpenGlRefresh
  | 54 => some .Render
  | 55 => some .render_audio
  | _ => none

/-- Calls are compared through their numbers. -/
instance : DecidableEq Call := fun a b =>
  if h : a.code = b.code then
    isTrue (by
      have hd : ∀ c : Call, Call.decode c.code = some c := by
        intro c
        cases c <;> first | rfl | (rename_i k; cases k <;> rfl)
      have h2 : some a = some b := by rw [← hd a, ← hd b, h]
      exact Option.some.inj h2)
  else isFalse (fun hab => h (by rw [hab]))


/-- The renderer in use. -/
inductive Renderer where
  | None
  | Software
  | OpenGl
deriving DecidableEq, Repr

/-- The emulated console. -/
inductive ConsoleType where
  | DS
  | DSi
deriving DecidableEq, Repr

/-- Where the microphone samples come from. -/
inductive MicInputMode where
  | None
  | HostMic
  | WhiteNoise
  | BlowNoise
deriving DecidableEq, Repr

/-- How the microphone button works. -/
inductive MicButtonMode where
  | Hold
  | Toggle
  | Always
deriving DecidableEq, Repr

/-- The game type the frontend names in `retro_load_game_special`: one of the
two types the core declares, or any other number. -/
inductive GameType where
  | NDS
  | SLOT_1_2_BOOT
  | unknown (type : Nat)
deriving DecidableEq, Repr

/-- What the host asks of a cartridge header. -/
structure NDSHeader where
  IsDSiWare : Bool
  IsHomebrew : Bool
deriving DecidableEq, Repr

/-- One entry of the frontend's content array. -/
structure retro_game_info where
  path : String
  size : Nat
deriving DecidableEq, Repr

/-- Everything a libretro call reads from outside `libretro.cpp` while it
runs: the frontend, the configuration, the engine, the renderer, the save
managers and the input state. -/
structure Env where
  supports_power_status : Bool
  pixelFormatOk : Bool
  setGeometryOk : Bool
  variableUpdated : Bool
  initConfigOk : Bool
  consoleType : ConsoleType
  dldiEnable : Bool
  dldiReadOnly : Bool
  externalBiosEnable : Bool
  directBoot : Bool
  micInputMode : MicInputMode
  micButtonMode : MicButtonMode
  ndsParse : Option NDSHeader
  gbaParse : Bool
  ndsInitOk : Bool
  insertNdsOk : Bool
  loadNandOk : Bool
  insertGbaOk : Bool
  needsDirectBoot : Bool
  frameStops : Bool
  currentRenderer : Renderer
  readyToRender : Bool
  layoutDirty : Bool
  ndsSaveSramLength : Option Nat
  gbaSaveSramLength : Option Nat
  micButtonDown : Bool
  micButtonPressed : Bool
  micOpen : Bool
  micState : Option Bool

/-- The static state of `libretro.cpp`, the content store, the engine state
the host reads (`NDS::Running`, `NDSCart::Cart`, `GBACart::Cart`), whether a
`retro_assert` has failed, and the calls made so far, oldest first. A cart
pointer is `none` when it is null. Of the engine the model assumes that
`NDS::Start` sets `NDS::Running`, that `NDS::Stop` clears it, that a
successful `InsertROM` sets the cart pointer and that `NDS::DeInit` clears
both cart pointers. -/
structure Core where
  mic_state_toggled : Bool
  isInDeinit : Bool
  isUnloading : Bool
  deferred_initialization_pending : Bool
  first_frame_run : Bool
  loaded_nds_cart : Option NDSHeader
  loaded_gba_cart : Bool
  nds_info : Option retro_game_info
  gba_info : Option retro_game_info
  gba_save_info : Option retro_game_info
  NDS_Running : Bool
  NDSCart_Cart : Option NDSHeader
  GBACart_Cart : Bool
  assertFailed : Bool
  calls : List Call

/-- Records a call. -/
def emit (c : Call) (s : Core) : Core :=
  { s with calls := s.calls ++ [c] }

/-- The macro `retro_assert`: execution goes on; a failed condition is
remembered. -/
def retro_assert (cond : Bool) (s : Core) : Core :=
  if cond then s else { s with assertFailed := true }

/-- Runs `f` unless an exception is already propagating. The flag of a result
is `true` when an exception left the function. -/
def andThen (r : Core × Bool) (f : Core → Core × Bool) : Core × Bool :=
  if r.2 then r else f r.1

/-- The function `retro_init` (libretro.cpp, lines 120 to 143). -/
def retro_init (s : Core) : Core :=
  let s := retro_assert s.loaded_nds_cart.isNone s
  let s := retro_assert (!s.loaded_gba_cart) s
  let s := retro_assert s.nds_info.isNone s
  let s := retro_assert s.gba_info.isNone s
  let s := retro_assert s.gba_save_info.isNone s
  let s := retro_assert (!s.first_frame_run) s
  let s := retro_assert (!s.deferred_initialization_pending) s
  let s := retro_assert (!s.isInDeinit) s
  let s := retro_assert (!s.isUnloading) s
  let s := retro_assert (!s.mic_state_toggled) s
  let s := emit .sram_init s
  let s := emit .file_init s
  let s := { s with first_frame_run := false }
  emit .task_init s

/-- The function `melonds::set_up_direct_boot` (lines 766 to 782). -/
def set_up_direct_boot (e : Env) (s : Core) : Core :=
  if e.directBoot || e.needsDirectBoot then emit .NDS_SetupDirectBoot s else s

/-- The cartridge part of `load_games_deferred` (lines 689 to 722). -/
def insert_nds_cart (e : Env) (s : Core) : Core × Bool :=
  match s.loaded_nds_cart with
  | none => (s, false)
  | some header =>
    if !header.IsDSiWare then
      let s := emit .NDSCart_InsertROM s
      let s := { s with loaded_nds_cart := none }
      if !e.insertNdsOk then (s, true)
      else
        let s := { s with NDSCart_Cart := some header }
        let s := retro_assert s.loaded_nds_cart.isNone s
        let s := retro_assert s.NDSCart_Cart.isSome s
        (s, false)
    else
      let s := emit .DSi_LoadNAND s
      if !e.loadNandOk then (s, true)
      else (emit .install_dsiware s, false)

/-- The Game Boy Advance part of `load_games_deferred` (lines 724 to 740). -/
def insert_gba_cart (e : Env) (gba_info : Option retro_game_info) (s : Core) : Core × Bool :=
  let s := retro_assert (!s.GBACart_Cart) s
  if gba_info.isSome && s.loaded_gba_cart then
    let s := emit .GBACart_InsertROM s
    let s := { s with loaded_gba_cart := false }
    if !e.insertGbaOk then (s, true)
    else
      let s := { s with GBACart_Cart := true }
      (retro_assert (!s.loaded_gba_cart) s, false)
  else (s, false)

/-- The end of `load_games_deferred` (lines 742 to 748). -/
def boot_and_start (e : Env) (nds_info : Option retro_game_info) (s : Core) : Core × Bool :=
  let s :=
    match s.NDSCart_Cart with
    | some header =>
      if nds_info.isSome && !header.IsDSiWare then set_up_direct_boot e s else s
    | none => s
  let s := emit .NDS_Start s
  ({ s with NDS_Running := true }, false)

/-- The function `melonds::load_games_deferred` (lines 658 to 749). -/
def load_games_deferred (e : Env) (nds_info gba_info : Option retro_game_info) (s : Core) :
    Core × Bool :=
  let s := emit .GPU_InitRenderer s
  let s := emit .GPU_SetRenderSettings s
  let s := emit .NDS_Reset s
  let s := retro_assert s.NDSCart_Cart.isNone s
  andThen (andThen (insert_nds_cart e s) (insert_gba_cart e gba_info)) (boot_and_start e nds_info)

/-- The function `melonds::parse_nds_rom` (lines 529 to 538) with the lines
of `load_games` that follow it (lines 585 to 597). -/
def parse_nds_stage (e : Env) (nds_info : Option retro_game_info) (s : Core) : Core × Bool :=
  if nds_info.isSome then
    let s := { s with loaded_nds_cart := e.ndsParse }
    match e.ndsParse with
    | none => (s, true)
    | some header =>
      let s := retro_assert s.loaded_nds_cart.isSome s
      if !header.IsDSiWare then (emit .sram_InitNdsSave s, false) else (s, false)
  else (s, false)

/-- The function `melonds::parse_gba_rom` (lines 540 to 549) with the lines of
`load_games` around it (lines 599 to 613). -/
def parse_gba_stage (e : Env) (gba_info gba_save_info : Option retro_game_info) (s : Core) :
    Core × Bool :=
  if gba_info.isSome then
    if e.consoleType = ConsoleType.DSi then (emit .set_warn_message s, false)
    else
      let s := { s with loaded_gba_cart := e.gbaParse }
      if !e.gbaParse then (s, true)
      else if gba_save_info.isSome then (emit .sram_InitGbaSram s, false)
      else (s, false)
  else (s, false)

/-- The condition under which `load_games` pushes the file flush task
(line 615). -/
def usesFatFilesystem (e : Env) (s : Core) : Bool :=
  e.consoleType = ConsoleType.DSi ||
    (match s.loaded_nds_cart with
     | some header => header.IsHomebrew && e.dldiEnable && !e.dldiReadOnly
     | none => false)

/-- Lines 615 to 645 of `load_games`: the last two pushes, the rendering and
the engine initialisation. -/
def init_stage (e : Env) (s : Core) : Core × Bool :=
  let s := if usesFatFilesystem e s then emit (.task_push .FileFlush) s else s
  let s := emit (.task_push .FlushFirmware) s
  let s := if !e.externalBiosEnable && s.loaded_gba_cart then emit .set_warn_message s else s
  if !e.pixelFormatOk then (s, true)
  else
    let s := emit .render_Initialize s
    let s := emit .NDS_Init s
    if !e.ndsInitOk then (s, true) else (s, false)

/-- Lines 647 to 653 of `load_games`: defer the rest to the first `retro_run`
when OpenGL is in use, else do it now. -/
def deferred_stage (e : Env) (nds_info gba_info : Option retro_game_info) (s : Core) :
    Core × Bool :=
  if e.currentRenderer = Renderer.OpenGl then
    ({ s with deferred_initialization_pending := true }, false)
  else load_games_deferred e nds_info gba_info s

/-- The function `melonds::load_games` (lines 552 to 654). -/
def load_games (e : Env) (nds_info gba_info gba_save_info : Option retro_game_info) (s : Core) :
    Core × Bool :=
  let s := emit .clear_memory_config s
  let s := emit .InitConfig s
  if !e.initConfigOk then (s, true)
  else
    let s := emit .Platform_Init s
    let s := if e.supports_power_status then emit (.task_push .PowerStatusUpdate) s else s
    let s := emit (.task_push .OnScreenDisplay) s
    let s := retro_assert s.loaded_nds_cart.isNone s
    let s := retro_assert (!s.loaded_gba_cart) s
    andThen
      (andThen
        (andThen (parse_nds_stage e nds_info s) (parse_gba_stage e gba_info gba_save_info))
        (init_stage e))
      (deferred_stage e nds_info gba_info)

/-- The switch at the head of `handle_load_game` (lines 154 to 177): the
content store after it, and whether the function returns `false` from inside
the switch. The array `info` is empty when the frontend passes no content. -/
def select_content (type : GameType) (info : List retro_game_info) (num : Nat) (s : Core) :
    Core × Bool :=
  match type with
  | .NDS => ({ s with nds_info := info[0]?, gba_info := none, gba_save_info := none }, false)
  | .SLOT_1_2_BOOT =>
    if num = 2 then
      ({ s with nds_info := info[0]?, gba_info := info[1]?, gba_save_info := none }, false)
    else if num = 3 then
      ({ s with nds_info := info[0]?, gba_info := info[1]?, gba_save_info := info[2]? }, false)
    else (emit .set_error_message s, false)
  | .unknown _ => (emit .set_error_message s, true)

/-- The function `melonds::handle_load_game` (lines 145 to 208); the flag of
the result is the value it returns. -/
def handle_load_game (e : Env) (type : GameType) (info : List retro_game_info) (num : Nat)
    (s : Core) : Core × Bool :=
  let s := retro_assert s.loaded_nds_cart.isNone s
  let s := retro_assert (!s.loaded_gba_cart) s
  let s := retro_assert s.nds_info.isNone s
  let s := retro_assert s.gba_info.isNone s
  let s := retro_assert s.gba_save_info.isNone s
  let c := select_content type info num s
  if c.2 then (c.1, false)
  else
    let r := load_games e c.1.nds_info c.1.gba_info c.1.gba_save_info c.1
    if r.2 then
      let s := emit .set_error_message r.1
      let s := emit .reset_loaded_nds_cart s
      let s := emit .reset_loaded_gba_cart s
      ({ s with loaded_nds_cart := none, loaded_gba_cart := false }, false)
    else (r.1, true)

/-- The function `retro_load_game` (lines 210 to 220). -/
def retro_load_game (e : Env) (info : Option retro_game_info) (s : Core) : Core × Bool :=
  handle_load_game e GameType.NDS info.toList 1 s

/-- The function `retro_load_game_special` (lines 470 to 475). -/
def retro_load_game_special (e : Env) (type : GameType) (info : List retro_game_info)
    (num : Nat) (s : Core) : Core × Bool :=
  handle_load_game e type info num s

/-- The function `melonds::read_microphone` (lines 345 to 418). -/
def read_microphone (e : Env) (s : Core) : Core :=
  let r : Core × MicInputMode × Bool :=
    match e.micButtonMode with
    | .Hold =>
      let s := { s with mic_state_toggled := false }
      (s, if !e.micButtonDown then MicInputMode.None else e.micInputMode, e.micButtonDown)
    | .Toggle =>
      if e.micButtonPressed then
        let s := { s with mic_state_toggled := !s.mic_state_toggled }
        (s, if !s.mic_state_toggled then MicInputMode.None else e.micInputMode,
          s.mic_state_toggled)
      else (s, e.micInputMode, s.mic_state_toggled)
    | .Always => (s, e.micInputMode, true)
  let s := r.1
  let mic_input_mode := r.2.1
  let should_mic_be_on := r.2.2
  let s := if e.micOpen then emit (.microphone_set_state should_mic_be_on) s else s
  match mic_input_mode with
  | .WhiteNoise => emit .NDS_MicInputFrame s
  | .BlowNoise => emit .Mic_FeedNoise s
  | .HostMic =>
    if e.micState = some true then emit .NDS_MicInputFrame (emit .microphone_read s)
    else emit .Mic_FeedSilence s
  | .None => emit .Mic_FeedSilence s

/-- The first-frame block of `retro_run` (lines 271 to 300). -/
def first_frame (e : Env) (s : Core) : Core :=
  let hasSram (m : Option Nat) : Bool :=
    match m with
    | some length => decide (length > 0)
    | none => false
  let s := if s.nds_info.isSome && hasSram e.ndsSaveSramLength then emit .NDS_LoadSave s else s
  let s :=
    if s.nds_info.isSome && hasSram e.gbaSaveSramLength then emit .GBACart_LoadSave s else s
  { s with first_frame_run := true }

/-- The deferred initialisation at the head of `retro_run` (lines 239 to
269); the flag of the result is `true` when `retro_run` returns from one of
the catch blocks. -/
def run_deferred_init (e : Env) (s : Core) : Core × Bool :=
  if s.deferred_initialization_pending then
    let d := load_games_deferred e s.nds_info s.gba_info s
    if d.2 then (emit .shutdown (emit .set_error_message d.1), true)
    else ({ d.1 with deferred_initialization_pending := false }, false)
  else (s, false)

/-- The frame block of `retro_run` (lines 309 to 339). -/
def run_frame (e : Env) (s : Core) : Core :=
  let s := emit .HandleInput s
  let s := read_microphone e s
  let s :=
    if e.layoutDirty then
      let s := retro_assert (e.currentRenderer != Renderer.None) s
      let s := emit .screenLayout_Update s
      let s := emit .set_geometry s
      emit .RequestOpenGlRefresh s
    else s
  let s := emit .NDS_RunFrame s
  let s := if e.frameStops then { s with NDS_Running := false } else s
  let s := emit .Render s
  let s := emit .render_audio s
  emit .task_check s

/-- The function `retro_run` (lines 233 to 343). -/
def retro_run (e : Env) (s : Core) : Core :=
  let d := run_deferred_init e s
  if d.2 then d.1
  else
    let s := d.1
    let s := if !s.first_frame_run then first_frame e s else s
    let s := if e.variableUpdated then emit .UpdateConfig s else s
    if e.readyToRender then run_frame e s else s

/-- The function `retro_unload_game` (lines 434 to 464). -/
def retro_unload_game (s : Core) : Core :=
  let s := { s with isUnloading := true }
  let s := emit .task_reset s
  let s := emit .task_wait s
  let s := emit .task_deinit s
  let s := if s.NDS_Running then { emit .NDS_Stop s with NDS_Running := false } else s
  let s := emit .NDS_DeInit s
  let s := { s with NDSCart_Cart := none, GBACart_Cart := false }
  let s :=
    match s.loaded_nds_cart with
    | some header => if s.nds_info.isSome && header.IsDSiWare then emit .uninstall_dsiware s else s
    | none => s
  let s := emit .reset_loaded_nds_cart s
  let s := { s with loaded_nds_cart := none }
  let s := emit .reset_loaded_gba_cart s
  let s := { s with loaded_gba_cart := false }
  { s with isUnloading := false }

/-- The function `retro_deinit` (lines 480 to 498). -/
def retro_deinit (s : Core) : Core :=
  let s := { s with isInDeinit := true }
  let s := emit .task_deinit s
  let s := emit .file_deinit s
  let s := emit .clear_environment s
  let s := emit .content_clear s
  let s := { s with nds_info := none, gba_info := none, gba_save_info := none }
  let s := emit .clear_memory_config s
  let s := emit .reset_loaded_nds_cart s
  let s := { s with loaded_nds_cart := none }
  let s := emit .reset_loaded_gba_cart s
  let s := { s with loaded_gba_cart := false }
  let s := emit .Platform_DeInit s
  let s := emit .sram_deinit s
  { s with
    mic_state_toggled := false,
    isUnloading := false,
    deferred_initialization_pending := false,
    first_frame_run := false,
    isInDeinit := false }

/-- The function `retro_reset` (lines 512 to 527). -/
def retro_reset (e : Env) (s : Core) : Core :=
  let s := emit .NDS_Reset s
  let s := { s with first_frame_run := false }
  match s.loaded_nds_cart with
  | some header =>
    if s.nds_info.isSome && !header.IsDSiWare then set_up_direct_boot e s else s
  | none => s

/-! ## Call sequences of the frontend -/

/-- The state of the core when the library has just been loaded. -/
def Core.boot : Core :=
  { mic_state_toggled := false, isInDeinit := false, isUnloading := false,
    deferred_initialization_pending := false, first_frame_run := false,
    loaded_nds_cart := none, loaded_gba_cart := false,
    nds_info := none, gba_info := none, gba_save_info := none,
    NDS_Running := false, NDSCart_Cart := none, GBACart_Cart := false,
    assertFailed := false, calls := [] }

/-- The entry points of the core the frontend calls. -/
inductive Api where
  | retro_init
  | retro_load_game (e : Env) (info : Option retro_game_info)
  | retro_load_game_special (e : Env) (type : GameType) (info : List retro_game_info) (num : Nat)
  | retro_run (e : Env)
  | retro_reset (e : Env)
  | retro_unload_game
  | retro_deinit

/-- The state after one call of the frontend. -/
def Api.apply : Api → Core → Core
  | .retro_init, s => melonds.retro_init s
  | .retro_load_game e info, s => (melonds.retro_load_game e info s).1
  | .retro_load_game_special e type info num, s =>
    (melonds.retro_load_game_special e type info num s).1
  | .retro_run e, s => melonds.retro_run e s
  | .retro_reset e, s => melonds.retro_reset e s
  | .retro_unload_game, s => melonds.retro_unload_game s
  | .retro_deinit, s => melonds.retro_deinit s

/-- The state after a sequence of calls of the frontend. -/
def runApi : List Api → Core → Core
  | [], s => s
  | a :: as, s => runApi as (a.apply s)

/-- Whether every load of a sequence, made in its turn, returns `true`. -/
def loadsSucceed : List Api → Core → Bool
  | [], _ => true
  | .retro_load_game e info :: as, s =>
    (melonds.retro_load_game e info s).2 && loadsSucceed as (melonds.retro_load_game e info s).1
  | .retro_load_game_special e type info num :: as, s =>
    (melonds.retro_load_game_special e type info num s).2 &&
      loadsSucceed as (melonds.retro_load_game_special e type info num s).1
  | a :: as, s => loadsSucceed as (a.apply s)

/-- One round of play: a load, some frames, the unload. -/
structure Round where
  load : Env
  info : Option retro_game_info
  frames : List Env

/-- The calls of one round. -/
def Round.calls (r : Round) : List Api :=
  Api.retro_load_game r.load r.info :: (r.frames.map Api.retro_run ++ [Api.retro_unload_game])

/-- The calls of all rounds, in order. -/
def roundCalls : List Round → List Api
  | [] => []
  | r :: rs => r.calls ++ roundCalls rs

/-- A host lifecycle: `retro_init`, the rounds, `retro_deinit`. -/
def lifecycle (rounds : List Round) : List Api :=
  Api.retro_init :: (roundCalls rounds ++ [Api.retro_deinit])

/-- Whether a call is one into the task queue. -/
def isTaskCall : Call → Bool
  | .task_init => true
  | .task_push _ => true
  | .task_check => true
  | .task_reset => true
  | .task_wait => true
  | .task_deinit => true
  | _ => false

/-- The calls into the task queue among a record of calls, in order. -/
def taskCalls (calls : List Call) : List Call :=
  calls.filter isTaskCall

/-- Whether every `task::push` of a record of calls finds the queue
initialised: it comes after a `task::init` with no `task::deinit` in between.
The flag says whether the queue is initialised before the first call. -/
def pushesGuarded : Bool → List Call → Bool
  | _, [] => true
  | _, .task_init :: cs => pushesGuarded true cs
  | _, .task_deinit :: cs => pushesGuarded false cs
  | initialised, .task_push _ :: cs => initialised && pushesGuarded initialised cs
  | initialised, _ :: cs => pushesGuarded initialised cs

/-- The task each kind stands for. `PowerStatusUpdateTask` (power.cpp) and
`FlushFirmwareTask` (sram.cpp) are not among the sources and are taken as
parameters. -/
def taskSpecOf (power firmware : TaskSpec World) : TaskKind → TaskSpec World
  | .PowerStatusUpdate => power
  | .OnScreenDisplay => OnScreenDisplayTask
  | .FileFlush => file.FlushTask
  | .FlushFirmware => firmware

/-- The queue operation a recorded call stands for; calls that do not go into
the task queue stand for none. The loop of `task::wait` is followed for `fuel`
ticks. -/
def taskOp (power firmware : TaskSpec World) (fuel : Nat) : Call → Option (Op World)
  | .task_init => some Op.init
  | .task_push k => some (Op.push (taskSpecOf power firmware k))
  | .task_check => some Op.check
  | .task_reset => some Op.reset
  | .task_wait => some (Op.wait fuel)
  | .task_deinit => some Op.deinit
  | _ => none

/-- The effect of a record of calls on the task queue and on the world of the
tasks. Calls into the engine are not followed into the world. -/
def interp (power firmware : TaskSpec World) (fuel : Nat) (calls : List Call)
    (s : Sys World) : Option (Sys World) :=
  steps (calls.filterMap (taskOp power firmware fuel)) s

/-- A task without cleanup whose action does nothing; it stands in for the
tasks taken as parameters where an example needs a concrete one. -/
def idleTask : TaskSpec World :=
  .mk (fun _ w => { world := w, finish := false, raised := false, pushed := [] }) none

/-- An example environment: software rendering, a DS without any FAT
filesystem, every engine call succeeds. -/
def Env.plain : Env :=
  { supports_power_status := true, pixelFormatOk := true, setGeometryOk := true,
    variableUpdated := false, initConfigOk := true, consoleType := ConsoleType.DS,
    dldiEnable := false, dldiReadOnly := false, externalBiosEnable := false,
    directBoot := true, micInputMode := MicInputMode.None,
    micButtonMode := MicButtonMode.Hold, ndsParse := none, gbaParse := false,
    ndsInitOk := true, insertNdsOk := true, loadNandOk := true, insertGbaOk := true,
    needsDirectBoot := false, frameStops := false, currentRenderer := Renderer.Software,
    readyToRender := true, layoutDirty := false, ndsSaveSramLength := none,
    gbaSaveSramLength := none, micButtonDown := false, micButtonPressed := false,
    micOpen := false, micState := none }

/-- An example round: boot without content, run one frame, unload. -/
def Round.withoutContent : Round :=
  { load := Env.plain, info := none, frames := [Env.plain] }

/-- An example lifecycle with one round. -/
def oneRound : List Api :=
  lifecycle [Round.withoutContent]

/-- An example lifecycle with two rounds. -/
def twoRounds : List Api :=
  lifecycle [Round.withoutContent, Round.withoutContent]

/-- An example task with a cleanup handler: its action calls `Finish` at once,
its cleanup sends a message. -/
def farewellTask : TaskSpec World :=
  .mk (fun _ w => { world := w, finish := true, raised := false, pushed := [] })
    (some fun w => ({ w with messages := w.messages ++ ["done"] }, false))

/-- An example state of the on-screen display: every switch is off. -/
def OsdState.quiet : OsdState :=
  { showPointerCoordinates := false, pointerInput := (0, 0), touch := (0, 0),
    showMicState := false, micState := none, numFrames := 0, showCurrentLayout := false,
    layoutIndex := 0, numberOfLayouts := 1, showLidState := false, lidClosed := false }

/-- An example world: the file with handle 7 has been written and is due to
be flushed in 3 frames. -/
def World.pending : World :=
  { flushTimers := [(7, 3)], fsyncs := [], osd := OsdState.quiet, messages := [] }

/-- An example environment: as `Env.plain`, with a DSi as the console, so that
`load_games` pushes the file flush task. -/
def Env.dsi : Env :=
  { Env.plain with consoleType := ConsoleType.DSi }

/-- An example sequence: the core starts, boots a DSi without content, and
unloads. -/
def unloadOnDsi : List Api :=
  [Api.retro_init, Api.retro_load_game Env.dsi none, Api.retro_unload_game]

/-- An example environment: as `Env.plain`, but the frontend does not report
the power status; the ROM image does not parse. -/
def Env.withoutPower : Env :=
  { Env.plain with supports_power_status := false }

/-- An example sequence: the core starts and a load fails on an invalid ROM
after the on-screen display task has been pushed. -/
def failedLoad : List Api :=
  [Api.retro_init, Api.retro_load_game Env.withoutPower (some ⟨"game.nds", 0⟩)]

/-- An example sequence: `failedLoad`, after which the frontend shuts the core
down. -/
def failedLoadThenDeinit : List Api :=
  failedLoad ++ [Api.retro_deinit]

/-- An example queue: initialised, holding the farewell task alone. -/
def Sys.farewell : Sys World :=
  { queue := { initialised := true, tasks := [fresh 0 farewellTask], nextId := 1 },
    world := World.pending,
    log := [] }

/-- An example queue: initialised and empty. -/
def Sys.ready : Sys World :=
  { queue := { initialised := true, tasks := [], nextId := 0 },
    world := World.pending,
    log := [] }

/-- An example queue as `load_games` builds it on a DSi, with idle tasks in
place of the two tasks taken as parameters. -/
def Sys.loaded : Sys World :=
  { queue :=
      { initialised := true,
        tasks := [fresh 0 idleTask, fresh 1 OnScreenDisplayTask, fresh 2 file.FlushTask,
          fresh 3 idleTask],
        nextId := 4 },
    world := World.pending,
    log := [] }


/-- An example task: its action pushes an idle task at every tick. -/
def spawningTask : TaskSpec World :=
  .mk (fun _ w => { world := w, finish := false, raised := false, pushed := [idleTask] }) none

/-- An example task: its action raises an error, and so does its cleanup. -/
def faultyTask : TaskSpec World :=
  .mk (fun _ w => { world := w, finish := false, raised := true, pushed := [] })
    (some fun w => (w, true))

/-- An example queue: initialised, holding the spawning task alone. -/
def Sys.spawning : Sys World :=
  { queue := { initialised := true, tasks := [fresh 0 spawningTask], nextId := 1 },
    world := World.pending,
    log := [] }

/-- An example queue: initialised, holding the faulty task and an idle
task. -/
def Sys.faulty : Sys World :=
  { queue :=
      { initialised := true, tasks := [fresh 0 faultyTask, fresh 1 idleTask], nextId := 2 },
    world := World.pending,
    log := [] }

/-- An example content entry. -/
def exampleRom : retro_game_info :=
  { path := "game.nds", size := 0 }

/-- An example environment: as `Env.plain` (direct boot enabled), and the ROM
image parses as a cartridge that is neither DSiWare nor homebrew. -/
def Env.cartridge : Env :=
  { Env.plain with ndsParse := some { IsDSiWare := false, IsHomebrew := false } }

/-- An example sequence: the core starts, loads a cartridge and runs one
frame. -/
def cartridgeLoaded : List Api :=
  [Api.retro_init, Api.retro_load_game Env.cartridge (some exampleRom),
    Api.retro_run Env.cartridge]

/-- An example state: a DSiWare title is loaded and nothing is inserted in
slot 1. -/
def Core.withDsiWare : Core :=
  { Core.boot with
    nds_info := some exampleRom,
    loaded_nds_cart := some { IsDSiWare := true, IsHomebrew := false } }

/-! ## Input (input.cpp) -/

/-- The joypad button ids of libretro.h. -/
def RETRO_DEVICE_ID_JOYPAD_B : Nat := 0

/-- See `RETRO_DEVICE_ID_JOYPAD_B`. -/
def RETRO_DEVICE_ID_JOYPAD_Y : Nat := 1

/-- See `RETRO_DEVICE_ID_JOYPAD_B`. -/
def RETRO_DEVICE_ID_JOYPAD_SELECT : Nat := 2

/-- See `RETRO_DEVICE_ID_JOYPAD_B`. -/
def RETRO_DEVICE_ID_JOYPAD_START : Nat := 3

/-- See `RETRO_DEVICE_ID_JOYPAD_B`. -/
def RETRO_DEVICE_ID_JOYPAD_UP : Nat := 4

/-- See `RETRO_DEVICE_ID_JOYPAD_B`. -/
def RETRO_DEVICE_ID_JOYPAD_DOWN : Nat := 5

/-- See `RETRO_DEVICE_ID_JOYPAD_B`. -/
def RETRO_DEVICE_ID_JOYPAD_LEFT : Nat := 6

/-- See `RETRO_DEVICE_ID_JOYPAD_B`. -/
def RETRO_DEVICE_ID_JOYPAD_RIGHT : Nat := 7

/-- See `RETRO_DEVICE_ID_JOYPAD_B`. -/
def RETRO_DEVICE_ID_JOYPAD_A : Nat := 8

/-- See `RETRO_DEVICE_ID_JOYPAD_B`. -/
def RETRO_DEVICE_ID_JOYPAD_X : Nat := 9

/-- See `RETRO_DEVICE_ID_JOYPAD_B`. -/
def RETRO_DEVICE_ID_JOYPAD_L : Nat := 10

/-- See `RETRO_DEVICE_ID_JOYPAD_B`. -/
def RETRO_DEVICE_ID_JOYPAD_R : Nat := 11

/-- See `RETRO_DEVICE_ID_JOYPAD_B`. -/
def RETRO_DEVICE_ID_JOYPAD_L2 : Nat := 12

/-- See `RETRO_DEVICE_ID_JOYPAD_B`. -/
def RETRO_DEVICE_ID_JOYPAD_R2 : Nat := 13

/-- See `RETRO_DEVICE_ID_JOYPAD_B`. -/
def RETRO_DEVICE_ID_JOYPAD_L3 : Nat := 14

/-- See `RETRO_DEVICE_ID_JOYPAD_B`. -/
def RETRO_DEVICE_ID_JOYPAD_R3 : Nat := 15

/-- The macro `ADD_KEY_TO_MASK` (input.cpp, lines 139 to 147) on `uint32_t`
values: the result is the new value of `ndsInputBits`. -/
def ADD_KEY_TO_MASK (key i bits ndsInputBits : Nat) : Nat :=
  if bits &&& (1 <<< key) != 0 then ndsInputBits &&& (4294967295 ^^^ (1 <<< i))
  else ndsInputBits ||| (1 <<< i)

/-- The value `InputState::Update` passes to `NDS::SetKeyMask` (input.cpp,
lines 152 and 169 to 182), from the input bits of libretro. -/
def ndsKeyMask (retroInputBits : Nat) : Nat :=
  let ndsInputBits := 0xFFF
  let ndsInputBits := ADD_KEY_TO_MASK RETRO_DEVICE_ID_JOYPAD_A 0 retroInputBits ndsInputBits
  let ndsInputBits := ADD_KEY_TO_MASK RETRO_DEVICE_ID_JOYPAD_B 1 retroInputBits ndsInputBits
  let ndsInputBits :=
    ADD_KEY_TO_MASK RETRO_DEVICE_ID_JOYPAD_SELECT 2 retroInputBits ndsInputBits
  let ndsInputBits :=
    ADD_KEY_TO_MASK RETRO_DEVICE_ID_JOYPAD_START 3 retroInputBits ndsInputBits
  let ndsInputBits :=
    ADD_KEY_TO_MASK RETRO_DEVICE_ID_JOYPAD_RIGHT 4 retroInputBits ndsInputBits
  let ndsInputBits := ADD_KEY_TO_MASK RETRO_DEVICE_ID_JOYPAD_LEFT 5 retroInputBits ndsInputBits
  let ndsInputBits := ADD_KEY_TO_MASK RETRO_DEVICE_ID_JOYPAD_UP 6 retroInputBits ndsInputBits
  let ndsInputBits := ADD_KEY_TO_MASK RETRO_DEVICE_ID_JOYPAD_DOWN 7 retroInputBits ndsInputBits
  let ndsInputBits := ADD_KEY_TO_MASK RETRO_DEVICE_ID_JOYPAD_R 8 retroInputBits ndsInputBits
  let ndsInputBits := ADD_KEY_TO_MASK RETRO_DEVICE_ID_JOYPAD_L 9 retroInputBits ndsInputBits
  let ndsInputBits := ADD_KEY_TO_MASK RETRO_DEVICE_ID_JOYPAD_X 10 retroInputBits ndsInputBits
  let ndsInputBits := ADD_KEY_TO_MASK RETRO_DEVICE_ID_JOYPAD_Y 11 retroInputBits ndsInputBits
  ndsInputBits

/-- The libretro button whose state bit `i` of the key mask carries, as the
calls of `ADD_KEY_TO_MASK` pair them. -/
def buttonOfMaskBit : Nat → Nat
  | 0 => RETRO_DEVICE_ID_JOYPAD_A
  | 1 => RETRO_DEVICE_ID_JOYPAD_B
  | 2 => RETRO_DEVICE_ID_JOYPAD_SELECT
  | 3 => RETRO_DEVICE_ID_JOYPAD_START
  | 4 => RETRO_DEVICE_ID_JOYPAD_RIGHT
  | 5 => RETRO_DEVICE_ID_JOYPAD_LEFT
  | 6 => RETRO_DEVICE_ID_JOYPAD_UP
  | 7 => RETRO_DEVICE_ID_JOYPAD_DOWN
  | 8 => RETRO_DEVICE_ID_JOYPAD_R
  | 9 => RETRO_DEVICE_ID_JOYPAD_L
  | 10 => RETRO_DEVICE_ID_JOYPAD_X
  | _ => RETRO_DEVICE_ID_JOYPAD_Y

/-- The screen layouts. -/
inductive ScreenLayout where
  | TopBottom
  | BottomTop
  | LeftRight
  | RightLeft
  | TopOnly
  | BottomOnly
  | HybridTop
  | HybridBottom
  | TurnLeft
  | TurnRight
  | UpsideDown
deriving DecidableEq, Repr

/-- Where the hybrid layouts show the small screen: only the screen that is
not the large one, or both screens. -/
inductive HybridSideScreenDisplay where
  | One
  | Both
deriving DecidableEq, Repr

/-- When the cursor is drawn. -/
inductive CursorMode where
  | Never
  | Touching
  | Timeout
  | Always
deriving DecidableEq, Repr

/-- The width of a Nintendo DS screen, `NDS_SCREEN_WIDTH` of screenlayout.hpp,
which is not among the sources. -/
def NDS_SCREEN_WIDTH : Int := 256

/-- The height of a Nintendo DS screen, `NDS_SCREEN_HEIGHT` of
screenlayout.hpp, which is not among the sources. -/
def NDS_SCREEN_HEIGHT : Int := 192

/-- The part of `ScreenLayoutData` that `HandleInput` reads. -/
structure ScreenLayoutData where
  layout : ScreenLayout
  hybridSmallScreenLayout : HybridSideScreenDisplay

/-- The fields of `InputState` that `InputState::Update` reads and writes.
Positions are pairs `(x, y)`. -/
structure InputState where
  dirty : Bool
  cursorMode : CursorMode
  maxCursorTimeout : Nat
  cursorTimeout : Nat
  toggleLidButton : Bool
  previousToggleLidButton : Bool
  micButton : Bool
  previousMicButton : Bool
  cycleLayoutButton : Bool
  previousCycleLayoutButton : Bool
  touching : Bool
  previousTouching : Bool
  pointerInput : Int × Int
  touch : Int × Int
  previousTouch : Int × Int
  hybridTouch : Int × Int

/-- What one call of `HandleInput` reads from outside: the joypad and the
pointer of the frontend (`joypadMask` is the value of the bitmask query as a
`uint32_t`, `joypadButton i` whether the query for button `i` is not zero),
the two pointer transformations of the screen layout, the layout that
`NextLayout` selects, and the lid of the console. -/
structure InputEnv where
  supportsBitmasks : Bool
  joypadMask : Nat
  joypadButton : Nat → Bool
  pointerPressed : Bool
  pointerX : Int
  pointerY : Int
  TransformPointerInput : Int × Int → Int × Int
  TransformPointerInputToHybridScreen : Int × Int → Int × Int
  nextLayout : ScreenLayout
  lidClosed : Bool

/-- The calls `HandleInput` makes into the emulator. -/
inductive InputCall where
  | SetKeyMask (mask : Nat)
  | SetLidClosed (closed : Bool)
  | TouchScreen (x y : Nat)
  | ReleaseScreen
deriving DecidableEq, Repr

/-- The input bits `InputState::Update` reads from libretro (lines 160 to
166). -/
def pollJoypad (env : InputEnv) : Nat :=
  if env.supportsBitmasks then env.joypadMask % 4294967296
  else
    (List.range (RETRO_DEVICE_ID_JOYPAD_R3 + 1)).foldl
      (fun bits i => bits ||| (if env.joypadButton i then 1 <<< i else 0)) 0

/-- Whether the frontend reports the joypad button with the given id as
pressed: its bit of the bitmask where the frontend supports bitmasks, else the
answer to the query for that button. -/
def InputEnv.pressed (env : InputEnv) (button : Nat) : Bool :=
  if env.supportsBitmasks then env.joypadMask.testBit button else env.joypadButton button

/-- The function `InputState::Update` (input.cpp, lines 149 to 218), with the
mask it passes to `NDS::SetKeyMask`. -/
def InputState.Update (env : InputEnv) (screen_layout_data : ScreenLayoutData)
    (st : InputState) : InputState × Nat :=
  let st1 : InputState :=
    if st.dirty then { st with cursorTimeout := st.maxCursorTimeout * 60 } else st
  let retroInputBits := pollJoypad env
  let ndsInputBits := ndsKeyMask retroInputBits
  let st2 : InputState :=
    { st1 with
      previousToggleLidButton := st1.toggleLidButton,
      toggleLidButton := retroInputBits &&& (1 <<< RETRO_DEVICE_ID_JOYPAD_L3) != 0 }
  let st3 : InputState :=
    { st2 with
      previousMicButton := st2.micButton,
      micButton := retroInputBits &&& (1 <<< RETRO_DEVICE_ID_JOYPAD_L2) != 0 }
  let st4 : InputState :=
    { st3 with
      previousCycleLayoutButton := st3.cycleLayoutButton,
      cycleLayoutButton := retroInputBits &&& (1 <<< RETRO_DEVICE_ID_JOYPAD_R2) != 0 }
  let st5 : InputState :=
    { st4 with previousTouch := st4.touch, previousTouching := st4.touching }
  let st6 : InputState :=
    if screen_layout_data.layout = ScreenLayout.TopOnly then { st5 with touching := false }
    else
      let pointerInput := (env.pointerX, env.pointerY)
      { st5 with
        touching := env.pointerPressed,
        pointerInput := pointerInput,
        touch := env.TransformPointerInput pointerInput,
        hybridTouch := env.TransformPointerInputToHybridScreen pointerInput }
  let st7 : InputState :=
    if st6.cursorMode = CursorMode.Timeout then
      if st6.touching != st6.previousTouching || st6.touch != st6.previousTouch then
        { st6 with cursorTimeout := st6.maxCursorTimeout * 60 }
      else if st6.cursorTimeout > 0 then { st6 with cursorTimeout := st6.cursorTimeout - 1 }
      else st6
    else st6
  ({ st7 with dirty := false }, ndsInputBits)

/-- The accessor `InputState::ToggleLidPressed` of input.hpp, which is not
among the sources: the button is down and was up. -/
def InputState.ToggleLidPressed (st : InputState) : Bool :=
  st.toggleLidButton && !st.previousToggleLidButton

/-- The accessor `InputState::CycleLayoutPressed` of input.hpp, which is not
among the sources: the button is down and was up. -/
def InputState.CycleLayoutPressed (st : InputState) : Bool :=
  st.cycleLayoutButton && !st.previousCycleLayoutButton

/-- The accessor `InputState::IsTouchingScreen` of input.hpp, which is not
among the sources. -/
def InputState.IsTouchingScreen (st : InputState) : Bool :=
  st.touching

/-- The accessor `InputState::ScreenReleased` of input.hpp, which is not among
the sources: the screen is not touched and was touched. -/
def InputState.ScreenReleased (st : InputState) : Bool :=
  !st.touching && st.previousTouching

/-- The accessor `InputState::TouchPosition` of input.hpp, which is not among
the sources. -/
def InputState.TouchPosition (st : InputState) : Int × Int :=
  st.touch

/-- The accessor `InputState::HybridTouchPosition` of input.hpp, which is not
among the sources. -/
def InputState.HybridTouchPosition (st : InputState) : Int × Int :=
  st.hybridTouch

/-- The function `glm::openBounded` on one component: the value lies in the
open interval, both ends excluded. -/
def openBounded (value min max : Int) : Bool :=
  decide (min < value) && decide (value < max)

/-- The test `all(glm::openBounded(position, ivec2(0), NDS_SCREEN_SIZE<int>))`
of `HandleInput` (line 120) and of `IsInNdsScreenBounds` (lines 62 to 64). -/
def IsInNdsScreenBounds (position : Int × Int) : Bool :=
  openBounded position.1 0 NDS_SCREEN_WIDTH && openBounded position.2 0 NDS_SCREEN_HEIGHT

/-- The function `glm::clamp` on one component. -/
def clamp (value min max : Int) : Int :=
  Min.min (Max.max value min) max

/-- The expression `clamp(position, ivec2(0), NDS_SCREEN_SIZE<int> - 1)`
stored in a `uvec2`: each component is clamped and converted to
`unsigned`. -/
def clampToScreen (position : Int × Int) : Nat × Nat :=
  (((clamp position.1 0 (NDS_SCREEN_WIDTH - 1)) % 4294967296).toNat,
    ((clamp position.2 0 (NDS_SCREEN_HEIGHT - 1)) % 4294967296).toNat)

/-- The position `HandleInput` hands to `NDS::TouchScreen` (the switch of
lines 113 to 131). -/
def clampedTouch (st : InputState) (screenLayout : ScreenLayoutData) : Nat × Nat :=
  match screenLayout.layout with
  | ScreenLayout.HybridBottom =>
    if screenLayout.hybridSmallScreenLayout = HybridSideScreenDisplay.One then
      clampToScreen st.HybridTouchPosition
    else if !IsInNdsScreenBounds st.TouchPosition then clampToScreen st.HybridTouchPosition
    else clampToScreen st.TouchPosition
  | _ => clampToScreen st.TouchPosition

/-- The result of `HandleInput`: the input state, the screen layout, and the
calls made into the emulator, in order. -/
structure Handled where
  inputState : InputState
  screenLayout : ScreenLayoutData
  calls : List InputCall

/-- The function `melonds::HandleInput` (input.cpp, lines 92 to 137). -/
def HandleInput (env : InputEnv) (inputState : InputState) (screenLayout : ScreenLayoutData) :
    Handled :=
  let u := inputState.Update env screenLayout
  let inputState := u.1
  let calls := [InputCall.SetKeyMask u.2]
  let calls :=
    if inputState.ToggleLidPressed then calls ++ [InputCall.SetLidClosed (!env.lidClosed)]
    else calls
  let screenLayout :=
    if inputState.CycleLayoutPressed then { screenLayout with layout := env.nextLayout }
    else screenLayout
  let calls :=
    if inputState.IsTouchingScreen then
      let c := clampedTouch inputState screenLayout
      calls ++ [InputCall.TouchScreen c.1 c.2]
    else if inputState.ScreenReleased then calls ++ [InputCall.ReleaseScreen]
    else calls
  { inputState := inputState, screenLayout := screenLayout, calls := calls }

/-- An example input state: nothing is pressed or touched. -/
def InputState.idle : InputState :=
  { dirty := false, cursorMode := CursorMode.Never, maxCursorTimeout := 0, cursorTimeout := 0,
    toggleLidButton := false, previousToggleLidButton := false, micButton := false,
    previousMicButton := false, cycleLayoutButton := false,
    previousCycleLayoutButton := false, touching := false, previousTouching := false,
    pointerInput := (0, 0), touch := (0, 0), previousTouch := (0, 0), hybridTouch := (0, 0) }

/-- An example frame of input: no button is down and the pointer is pressed;
the layout maps the pointer to `touch` on the touch screen and to `hybrid` on
the hybrid screen. -/
def InputEnv.touchAt (touch hybrid : Int × Int) : InputEnv :=
  { supportsBitmasks := true, joypadMask := 0, joypadButton := fun _ => false,
    pointerPressed := true, pointerX := 0, pointerY := 0,
    TransformPointerInput := fun _ => touch,
    TransformPointerInputToHybridScreen := fun _ => hybrid,
    nextLayout := ScreenLayout.TopBottom, lidClosed := false }

/-- An example layout: top and bottom screen. -/
def ScreenLayoutData.topBottom : ScreenLayoutData :=
  { layout := ScreenLayout.TopBottom, hybridSmallScreenLayout := HybridSideScreenDisplay.One }

/-- An example layout: the hybrid layout with the bottom screen large and both
screens shown small. -/
def ScreenLayoutData.hybridBoth : ScreenLayoutData :=
  { layout := ScreenLayout.HybridBottom,
    hybridSmallScreenLayout := HybridSideScreenDisplay.Both }

/-- An example configuration: the microphone button toggles the microphone,
the input is the blow noise, and the button is not touched. -/
def Env.toggleBlow : Env :=
  { Env.plain with
    micButtonMode := MicButtonMode.Toggle, micInputMode := MicInputMode.BlowNoise }

/-! ## Files (platform/file.cpp) -/

/-- The hint `RETRO_VFS_FILE_ACCESS_HINT_NONE` of libretro.h. -/
def RETRO_VFS_FILE_ACCESS_HINT_NONE : Nat := 0

/-- The hint `RETRO_VFS_FILE_ACCESS_HINT_FREQUENT_ACCESS` of libretro.h,
`1 << 0`. -/
def RETRO_VFS_FILE_ACCESS_HINT_FREQUENT_ACCESS : Nat := 1 <<< 0

/-- The function `string_ends_with` of libretro-common: the string is at
least as long as the suffix and its last characters are those of the
suffix. -/
def string_ends_with (str suffix : String) : Bool :=
  suffix.toList.isSuffixOf str.toList

/-- The function `GetRetroVfsFileAccessHints` (file.cpp, lines 61 to 72). -/
def GetRetroVfsFileAccessHints (path : String) : Nat :=
  if string_ends_with path ".bin" then RETRO_VFS_FILE_ACCESS_HINT_FREQUENT_ACCESS
  else RETRO_VFS_FILE_ACCESS_HINT_NONE

/-- An object of type `Platform::FileHandle`: its address, which is the key of
the file in `flushTimers`, and its hints. -/
structure Platform.FileHandle where
  address : melonds.FileHandle
  hints : Nat
deriving DecidableEq, Repr

/-- The bits of `Platform::FileMode` that `OpenFile` tests. -/
structure FileMode where
  Read : Bool
  Write : Bool
  NoCreate : Bool

/-- What one call of `OpenFile` reads from outside: whether the path is valid,
whether `filestream_open` succeeds, and the address of the new handle. -/
structure OpenEnv where
  path_is_valid : Bool
  filestream_open : Bool
  address : FileHandle

/-- The function `Platform::OpenFile` (file.cpp, lines 89 to 116); `none` is
the null pointer. -/
def Platform.OpenFile (env : OpenEnv) (path : String) (mode : FileMode) :
    Option Platform.FileHandle :=
  if !(mode.Read || mode.Write) then none
  else
    let file_exists := env.path_is_valid
    if !file_exists && mode.NoCreate then none
    else
      let handle : Platform.FileHandle :=
        { address := env.address, hints := GetRetroVfsFileAccessHints path }
      if !env.filestream_open then none else some handle

/-- The statement `(*flushTimers)[file] = delay`: the entry of the file is
replaced, or added when there is none. -/
def setTimer (timers : List (FileHandle × Int)) (file : FileHandle) (delay : Int) :
    List (FileHandle × Int) :=
  (file, delay) :: eraseTimer timers file

/-- The function `Platform::FileWrite` (file.cpp, lines 233 to 244) on the
flush timers; `data` tells whether the data pointer is not null, `FlushDelay`
is the configured delay at the time of the call. -/
def Platform.FileWrite (data : Bool) (file : Option Platform.FileHandle) (FlushDelay : Int)
    (w : World) : World :=
  match file with
  | none => w
  | some f =>
    if !data then w
    else if f.hints &&& RETRO_VFS_FILE_ACCESS_HINT_FREQUENT_ACCESS != 0 then
      { w with flushTimers := setTimer w.flushTimers f.address FlushDelay }
    else w

/-- The function `Platform::CloseFile` (file.cpp, lines 165 to 184);
`filestream_close` tells whether closing the stream succeeds. -/
def Platform.CloseFile (filestream_close : Bool) (file : Option Platform.FileHandle)
    (w : World) : World × Bool :=
  match file with
  | none => (w, false)
  | some f => ({ w with flushTimers := eraseTimer w.flushTimers f.address }, filestream_close)

/-- One event in the life of the flush timers: a tick of `FlushTask` with the
given handle, a call of `FileWrite`, a call of `CloseFile`. -/
inductive FileOp where
  | tick (task : TaskHandle)
  | write (data : Bool) (file : Option Platform.FileHandle) (FlushDelay : Int)
  | close (filestream_close : Bool) (file : Option Platform.FileHandle)

/-- The world after one event. -/
def FileOp.apply : FileOp → World → World
  | .tick task, w => (file.FlushTask.action task w).world
  | .write data file delay, w => Platform.FileWrite data file delay w
  | .close ok file, w => (Platform.CloseFile ok file w).1

/-- The world after a sequence of events. -/
def runFileOps : List FileOp → World → World
  | [], w => w
  | op :: ops, w => runFileOps ops (op.apply w)

/-- The handle the event is called with, if any. -/
def FileOp.file : FileOp → Option Platform.FileHandle
  | .tick _ => none
  | .write _ f _ => f
  | .close _ f => f

/-- Whether the event is neither a write to nor a close of the file at the
given address. -/
def FileOp.leaves (file : FileHandle) (op : FileOp) : Bool :=
  op.file.map (fun h => h.address) != some file

/-- Whether the event is a tick of `FlushTask` that is not cancelled. -/
def FileOp.isTick : FileOp → Bool
  | .tick task => !task.cancelled
  | _ => false

/-- The number of ticks of `FlushTask` that are not cancelled. -/
def ticksIn (ops : List FileOp) : Nat :=
  ops.countP FileOp.isTick

/-- The timers `flushTimers` holds for the file at the given address. -/
def timersOf (w : World) (file : FileHandle) : List Int :=
  (w.flushTimers.filter fun p => p.1 == file).map Prod.snd

/-- How often the file at the given address has been synced to the host
disk. -/
def flushesOf (w : World) (file : FileHandle) : Nat :=
  w.fsyncs.count file

/-- An example handle: the file at address 7, opened with the frequent-access
hint. -/
def Platform.FileHandle.save : Platform.FileHandle :=
  { address := 7, hints := RETRO_VFS_FILE_ACCESS_HINT_FREQUENT_ACCESS }

/-- An example handle: the file at address 8, opened without hint. -/
def Platform.FileHandle.plain : Platform.FileHandle :=
  { address := 8, hints := RETRO_VFS_FILE_ACCESS_HINT_NONE }

/-- An example world: no file is waiting to be flushed. -/
def World.idle : World :=
  { flushTimers := [], fsyncs := [], osd := OsdState.quiet, messages := [] }

/-- An example way of opening a file: for reading and writing, at
address 7. -/
def OpenEnv.seven : OpenEnv :=
  { path_is_valid := true, filestream_open := true, address := 7 }

/-- An example file mode: reading and writing. -/
def FileMode.readWrite : FileMode :=
  { Read := true, Write := true, NoCreate := false }

/-- An example task handle: the task is not cancelled. -/
def runningHandle : TaskHandle :=
  { cancelled := false, finished := false }

/-- An example sequence of events: two ticks, a write to another file, a
close of another file, and two more ticks. -/
def fourTicks : List FileOp :=
  [FileOp.tick runningHandle, FileOp.tick runningHandle,
    FileOp.write true (some Platform.FileHandle.plain) 3,
    FileOp.close true (some Platform.FileHandle.plain),
    FileOp.tick runningHandle, FileOp.tick runningHandle]

/-! ## Save data (the first frame of `retro_run`) -/

/-- The test `Manager && Manager->SramLength() > 0` of the first frame
(libretro.cpp, lines 281 and 288) on what the frame reads of a save manager:
`none` when the pointer is null, else the length of its SRAM. -/
def hasSram (m : Option Nat) : Bool :=
  match m with
  | some length => decide (length > 0)
  | none => false

/-- A step from `s` to `t` keeps the content store, and it adds a call `c` to
the record only if `p` holds. -/
def Adds (p : Prop) (c : Call) (s t : Core) : Prop :=
  t.nds_info = s.nds_info ∧ t.gba_info = s.gba_info ∧ t.gba_save_info = s.gba_save_info ∧
    (t.calls.count c ≠ s.calls.count c → p)

end melonds

/-! ## Theorems -/

set_option maxRecDepth 100000

namespace retro.task

/-! ### The task queue -/

theorem tickTask_kept_of_cancelled {W : Type} (t : Task W) (w : W)
    (h : t.handle.cancelled = true) : (tickTask t w).kept = none := by
  simp [tickTask, h]

theorem tickAll_kept_of_cancelled {W : Type} (ts : List (Task W)) (w : W)
    (h : ∀ t ∈ ts, t.handle.cancelled = true) : (tickAll ts w).kept = [] := by
  induction ts generalizing w with
  | nil => rfl
  | cons t ts ih =>
    have ht := tickTask_kept_of_cancelled t w (h t (List.mem_cons_self _ _))
    simp [tickAll, ht, ih _ (fun x hx => h x (List.mem_cons_of_mem _ hx))]

theorem tickTask_pushed {W : Type} (t : Task W) (w : W) :
    (tickTask t w).pushed = (t.spec.action t.handle w).pushed := by
  simp only [tickTask]
  split <;> rfl

theorem tickAll_pushed_of_noPush {W : Type} (ts : List (Task W)) (w : W)
    (h : ∀ t ∈ ts, NoPush t.spec) : (tickAll ts w).pushed = [] := by
  induction ts generalizing w with
  | nil => rfl
  | cons t ts ih =>
    have ht : (tickTask t w).pushed = [] := by
      rw [tickTask_pushed]
      exact h t (List.mem_cons_self _ _) _ _
    simp [tickAll, ht, ih _ (fun x hx => h x (List.mem_cons_of_mem _ hx))]

@[simp] theorem actionIds_append (a b : List Event) :
    actionIds (a ++ b) = actionIds a ++ actionIds b := by
  induction a with
  | nil => rfl
  | cons e a ih => cases e <;> simp [actionIds, ih]

@[simp] theorem cleanupIds_append (a b : List Event) :
    cleanupIds (a ++ b) = cleanupIds a ++ cleanupIds b := by
  induction a with
  | nil => rfl
  | cons e a ih => cases e <;> simp [cleanupIds, ih]

@[simp] theorem idsOf_append (a b : List Event) : idsOf (a ++ b) = idsOf a ++ idsOf b := by
  induction a with
  | nil => rfl
  | cons e a ih => cases e <;> simp [idsOf, ih]

@[simp] theorem actionsOf_append (a b : List Event) :
    actionsOf (a ++ b) = actionsOf a ++ actionsOf b := by
  induction a with
  | nil => rfl
  | cons e a ih => cases e <;> simp [actionsOf, ih]

theorem actionIds_eq_map_actionsOf (l : List Event) :
    actionIds l = (actionsOf l).map Prod.fst := by
  induction l with
  | nil => rfl
  | cons e l ih => cases e <;> simp [actionIds, actionsOf, ih]

theorem mem_idsOf_of_mem_actionIds {i : Nat} {l : List Event} (h : i ∈ actionIds l) :
    i ∈ idsOf l := by
  induction l with
  | nil => simp [actionIds] at h
  | cons e l ih =>
    cases e <;> simp only [actionIds, idsOf, List.mem_cons] at h ⊢
    · rcases h with h | h
      · exact Or.inl h
      · exact Or.inr (ih h)
    · exact Or.inr (ih h)

theorem mem_idsOf_of_mem_cleanupIds {i : Nat} {l : List Event} (h : i ∈ cleanupIds l) :
    i ∈ idsOf l := by
  induction l with
  | nil => simp [cleanupIds] at h
  | cons e l ih =>
    cases e <;> simp only [cleanupIds, idsOf, List.mem_cons] at h ⊢
    · exact Or.inr (ih h)
    · rcases h with h | h
      · exact Or.inl h
      · exact Or.inr (ih h)

/-- What the cleanup step of one task logs. -/
theorem runCleanup_log {W : Type} (t : Task W) (w : W) :
    (runCleanup t w).2 = if hasCleanup t then [Event.cleanup t.id] else [] := by
  unfold runCleanup hasCleanup
  split <;> simp [*]

/-- What one tick of one task logs and keeps. -/
theorem tickTask_log {W : Type} (t : Task W) (w : W) :
    (tickTask t w).log
      = Event.action t.id t.handle.cancelled
        :: (if (tickTask t w).kept.isNone && hasCleanup t then [Event.cleanup t.id] else []) := by
  simp only [tickTask]
  split
  · simp [runCleanup_log]
  · simp

theorem tickTask_kept {W : Type} (t : Task W) (w : W) (k : Task W)
    (h : (tickTask t w).kept = some k) :
    k.id = t.id ∧ k.spec = t.spec ∧ k.handle.cancelled = t.handle.cancelled ∧
      t.handle.cancelled = false := by
  simp only [tickTask] at h
  split at h
  · simp at h
  · rename_i hc
    simp only [Option.some.injEq] at h
    subst h
    simp only [Bool.or_eq_true, not_or, Bool.not_eq_true] at hc
    exact ⟨rfl, rfl, rfl, hc.2⟩

theorem tickAll_append {W : Type} (a b : List (Task W)) (w : W) :
    tickAll (a ++ b) w
      = { kept := (tickAll a w).kept ++ (tickAll b (tickAll a w).world).kept,
          world := (tickAll b (tickAll a w).world).world,
          pushed := (tickAll a w).pushed ++ (tickAll b (tickAll a w).world).pushed,
          log := (tickAll a w).log ++ (tickAll b (tickAll a w).world).log } := by
  induction a generalizing w with
  | nil => simp [tickAll]
  | cons t a ih => simp [tickAll, ih, List.append_assoc]

theorem tickAll_kept {W : Type} (ts : List (Task W)) (w : W) :
    ∀ k ∈ (tickAll ts w).kept,
      ∃ t ∈ ts, k.id = t.id ∧ k.spec = t.spec ∧ k.handle.cancelled = t.handle.cancelled := by
  induction ts generalizing w with
  | nil => simp [tickAll]
  | cons t ts ih =>
    intro k hk
    simp only [tickAll, List.mem_append, Option.mem_toList, Option.mem_def] at hk
    rcases hk with hk | hk
    · obtain ⟨h1, h2, h3, _⟩ := tickTask_kept t w k hk
      exact ⟨t, List.mem_cons_self _ _, h1, h2, h3⟩
    · obtain ⟨u, hu, h⟩ := ih _ k hk
      exact ⟨u, List.mem_cons_of_mem _ hu, h⟩

theorem tickAll_kept_ids_sublist {W : Type} (ts : List (Task W)) (w : W) :
    ((tickAll ts w).kept.map Task.id).Sublist (ts.map Task.id) := by
  induction ts generalizing w with
  | nil => simp [tickAll]
  | cons t ts ih =>
    simp only [tickAll, List.map_append, List.map_cons]
    cases hk : (tickTask t w).kept with
    | none => simpa using (ih _).cons _
    | some k =>
      have := (tickTask_kept t w k hk).1
      simpa [this] using (ih (tickTask t w).world).cons₂ t.id

theorem tickAll_actionsOf {W : Type} (ts : List (Task W)) (w : W) :
    actionsOf (tickAll ts w).log = ts.map fun t => (t.id, t.handle.cancelled) := by
  induction ts generalizing w with
  | nil => rfl
  | cons t ts ih =>
    simp only [tickAll, actionsOf_append, ih, List.map_cons, tickTask_log]
    split <;> simp [actionsOf]

theorem tickAll_actionIds {W : Type} (ts : List (Task W)) (w : W) :
    actionIds (tickAll ts w).log = ts.map Task.id := by
  rw [actionIds_eq_map_actionsOf, tickAll_actionsOf]
  simp

theorem tickAll_idsOf {W : Type} (ts : List (Task W)) (w : W) :
    ∀ i ∈ idsOf (tickAll ts w).log, i ∈ ts.map Task.id := by
  induction ts generalizing w with
  | nil => simp [tickAll, idsOf]
  | cons t ts ih =>
    intro i hi
    simp only [tickAll, idsOf_append, List.mem_append, tickTask_log] at hi
    rcases hi with hi | hi
    · have : i = t.id := by
        split at hi <;> simp [idsOf] at hi <;> exact hi
      simp [this]
    · simpa using Or.inr (by simpa using ih _ i hi)

/-- In one tick, every task with a cleanup is either kept or cleaned up. -/
theorem tickAll_cleanup_count {W : Type} (i : Nat) (ts : List (Task W)) (w : W)
    (h : ∀ t ∈ ts, t.id = i → hasCleanup t = true) :
    (cleanupIds (tickAll ts w).log).count i + ((tickAll ts w).kept.map Task.id).count i
      = (ts.map Task.id).count i := by
  induction ts generalizing w with
  | nil => simp [tickAll, cleanupIds]
  | cons t ts ih =>
    have ih' := ih (tickTask t w).world (fun x hx => h x (List.mem_cons_of_mem _ hx))
    simp only [tickAll, cleanupIds_append, List.map_append, List.count_append, List.map_cons,
      tickTask_log, cleanupIds]
    cases hk : (tickTask t w).kept with
    | some k =>
      have hid := (tickTask_kept t w k hk).1
      simp only [Option.isNone_some, Bool.false_and, Bool.false_eq_true, if_false, cleanupIds,
        List.count_nil, Option.toList_some, List.map_cons, List.map_nil, hid, List.count_cons,
        zero_add]
      omega
    | none =>
      by_cases hi : t.id = i
      · simp only [Option.isNone_none, Bool.true_and, h t (List.mem_cons_self _ _) hi, if_true,
          cleanupIds, List.count_cons, List.count_nil, Option.toList_none, List.map_nil, hi,
          beq_self_eq_true, zero_add]
        omega
      · have hne : (t.id == i) = false := by simpa using hi
        simp only [Option.isNone_none, Bool.true_and, Option.toList_none, List.map_nil,
          List.count_nil, List.count_cons, hne, Bool.false_eq_true, if_false, add_zero]
        split <;> simp [cleanupIds, List.count_cons, hne] <;> omega

theorem foldl_enqueue {W : Type} (specs : List (TaskSpec W)) (q : TaskQueue W) :
    specs.foldl enqueue q
      = { q with
          tasks := q.tasks ++ freshTasks q.nextId specs,
          nextId := q.nextId + specs.length } := by
  induction specs generalizing q with
  | nil => simp [freshTasks]
  | cons sp specs ih =>
    simp only [List.foldl_cons, ih, enqueue, freshTasks, List.length_cons, List.append_assoc,
      List.singleton_append]
    congr 1
    omega

theorem freshTasks_ids {W : Type} (n : Nat) (specs : List (TaskSpec W)) :
    (freshTasks n specs).map Task.id = List.range' n specs.length := by
  induction specs generalizing n with
  | nil => rfl
  | cons sp specs ih => simp [freshTasks, fresh, ih, List.range'_succ]

theorem freshTasks_spec {W : Type} (n : Nat) (specs : List (TaskSpec W)) :
    (freshTasks n specs).map Task.spec = specs := by
  induction specs generalizing n with
  | nil => rfl
  | cons sp specs ih => simp [freshTasks, fresh, ih]

theorem steps_pushes {W : Type} (specs : List (TaskSpec W)) (s : Sys W)
    (h : s.queue.initialised = true) :
    steps (specs.map Op.push) s
      = some
          { s with
            queue :=
              { s.queue with
                tasks := s.queue.tasks ++ freshTasks s.queue.nextId specs,
                nextId := s.queue.nextId + specs.length } } := by
  induction specs generalizing s with
  | nil => simp [steps, freshTasks]
  | cons sp specs ih =>
    simp only [List.map_cons, steps, step, push, h, if_true, Option.some_bind]
    rw [ih _ (by simpa [enqueue] using h)]
    simp only [enqueue, freshTasks, List.length_cons, List.append_assoc, List.singleton_append]
    congr 3
    omega

theorem cleanupAll_log {W : Type} (ts : List (Task W)) (w : W) :
    actionIds (cleanupAll ts w).2 = [] ∧
      cleanupIds (cleanupAll ts w).2 = (ts.filter hasCleanup).map Task.id ∧
      idsOf (cleanupAll ts w).2 = (ts.filter hasCleanup).map Task.id := by
  induction ts generalizing w with
  | nil => simp [cleanupAll, actionIds, cleanupIds, idsOf]
  | cons t ts ih =>
    obtain ⟨h1, h2, h3⟩ := ih (runCleanup t w).1
    simp only [cleanupAll, actionIds_append, cleanupIds_append, idsOf_append, h1, h2, h3,
      runCleanup_log, List.filter_cons]
    cases hasCleanup t <;> simp [actionIds, cleanupIds, idsOf]

theorem deinit_deinit {W : Type} (s : Sys W) : deinit (deinit s) = deinit s := by
  simp [deinit, cleanupAll]

/-! #### Invariants of the operations -/

theorem wait_invariant {W : Type} (P : Sys W → Prop) (hcheck : ∀ s, P s → P (check s))
    (fuel : Nat) (s s' : Sys W) (hs : P s) (h : wait fuel s = some s') : P s' := by
  induction fuel generalizing s with
  | zero =>
    rw [wait] at h
    split at h
    · simp only [Option.some.injEq] at h
      exact h ▸ hs
    · simp at h
  | succ n ih =>
    rw [wait] at h
    split at h
    · simp only [Option.some.injEq] at h
      exact h ▸ hs
    · exact ih (check s) (hcheck s hs) h

theorem steps_invariant {W : Type} (P : Sys W → Prop)
    (hinit : ∀ s, P s → P { s with queue := { s.queue with initialised := true } })
    (hpush : ∀ sp s, P s → P { s with queue := enqueue s.queue sp })
    (hcheck : ∀ s, P s → P (check s))
    (hreset : ∀ s, P s → P (reset s))
    (hdeinit : ∀ s, P s → P (deinit s))
    (ops : List (Op W)) (s s' : Sys W) (hs : P s) (h : steps ops s = some s') : P s' := by
  induction ops generalizing s with
  | nil =>
    simp only [steps, Option.some.injEq] at h
    exact h ▸ hs
  | cons o ops ih =>
    simp only [steps] at h
    cases ho : step o s with
    | none => simp [ho] at h
    | some s1 =>
      rw [ho] at h
      refine ih s1 ?_ h
      cases o with
      | init =>
        simp only [step, init] at ho
        split at ho
        · simp at ho
        · simp only [Option.some.injEq] at ho
          exact ho ▸ hinit s hs
      | push sp =>
        simp only [step, push] at ho
        split at ho
        · simp only [Option.some.injEq] at ho
          exact ho ▸ hpush sp s hs
        · simp at ho
      | check =>
        simp only [step, Option.some.injEq] at ho
        exact ho ▸ hcheck s hs
      | reset =>
        simp only [step, Option.some.injEq] at ho
        exact ho ▸ hreset s hs
      | wait fuel => exact wait_invariant P hcheck fuel s s1 hs ho
      | deinit =>
        simp only [step, Option.some.injEq] at ho
        exact ho ▸ hdeinit s hs

theorem check_queue {W : Type} (s : Sys W) :
    (check s).queue.tasks
        = (tickAll s.queue.tasks s.world).kept
          ++ freshTasks s.queue.nextId (tickAll s.queue.tasks s.world).pushed ∧
      (check s).queue.nextId
        = s.queue.nextId + (tickAll s.queue.tasks s.world).pushed.length ∧
      (check s).log = s.log ++ (tickAll s.queue.tasks s.world).log := by
  simp [check, foldl_enqueue]

theorem check_liveIds {W : Type} (s : Sys W) :
    liveIds (check s).queue
      = (tickAll s.queue.tasks s.world).kept.map Task.id
        ++ List.range' s.queue.nextId (tickAll s.queue.tasks s.world).pushed.length := by
  simp [liveIds, (check_queue s).1, freshTasks_ids]

theorem reset_liveIds {W : Type} (s : Sys W) : liveIds (reset s).queue = liveIds s.queue := by
  simp [liveIds, reset, cancel, Function.comp_def]

theorem enqueue_liveIds {W : Type} (q : TaskQueue W) (sp : TaskSpec W) :
    liveIds (enqueue q sp) = liveIds q ++ [q.nextId] := by
  simp [liveIds, enqueue, fresh]

theorem good_start {W : Type} (w : W) : Good (start w) := by
  simp [Good, start, liveIds, idsOf]

theorem mem_kept_ids {W : Type} {ts : List (Task W)} {w : W} {i : Nat}
    (h : i ∈ (tickAll ts w).kept.map Task.id) : i ∈ ts.map Task.id :=
  (tickAll_kept_ids_sublist ts w).subset h

theorem good_check {W : Type} (s : Sys W) (h : Good s) : Good (check s) := by
  obtain ⟨h1, h2, h3⟩ := h
  obtain ⟨q1, q2, q3⟩ := check_queue s
  have hlt : ∀ i ∈ s.queue.tasks.map Task.id, i < s.queue.nextId := by
    intro i hi
    obtain ⟨t, ht, rfl⟩ := List.mem_map.1 hi
    exact h1 t ht
  refine ⟨?_, ?_, ?_⟩
  · intro t ht
    have : t.id ∈ liveIds (check s).queue := List.mem_map_of_mem _ ht
    rw [check_liveIds, List.mem_append] at this
    rw [q2]
    rcases this with hk | hf
    · have := hlt _ (mem_kept_ids hk)
      omega
    · have := (List.mem_range'_1.1 hf).2
      omega
  · rw [check_liveIds]
    refine List.Nodup.append ((tickAll_kept_ids_sublist _ _).nodup h2)
      (List.nodup_range' _ _) ?_
    intro i hk hf
    have := hlt _ (mem_kept_ids hk)
    have := (List.mem_range'_1.1 hf).1
    omega
  · intro i hi
    rw [q3, idsOf_append, List.mem_append] at hi
    rw [q2]
    rcases hi with hi | hi
    · have := h3 i hi
      omega
    · have := hlt _ (tickAll_idsOf _ _ i hi)
      omega

theorem good_reset {W : Type} (s : Sys W) (h : Good s) : Good (reset s) := by
  obtain ⟨h1, h2, h3⟩ := h
  refine ⟨?_, by simpa [reset_liveIds] using h2, h3⟩
  intro t ht
  simp only [reset, List.mem_map] at ht
  obtain ⟨u, hu, rfl⟩ := ht
  exact h1 u hu

theorem good_deinit {W : Type} (s : Sys W) (h : Good s) : Good (deinit s) := by
  obtain ⟨h1, h2, h3⟩ := h
  refine ⟨by simp [deinit], by simp [deinit, liveIds], ?_⟩
  intro i hi
  simp only [deinit, idsOf_append, List.mem_append, (cleanupAll_log _ _).2.2] at hi
  rcases hi with hi | hi
  · exact h3 i hi
  · obtain ⟨t, ht, rfl⟩ := List.mem_map.1 hi
    exact h1 t (List.mem_filter.1 ht).1

theorem good_enqueue {W : Type} (sp : TaskSpec W) (s : Sys W) (h : Good s) :
    Good { s with queue := enqueue s.queue sp } := by
  obtain ⟨h1, h2, h3⟩ := h
  refine ⟨?_, ?_, ?_⟩
  · intro t ht
    simp only [enqueue, List.mem_append, List.mem_singleton] at ht
    rcases ht with ht | rfl
    · have := h1 t ht
      simp only [enqueue]
      omega
    · simp [enqueue, fresh]
  · show (liveIds (enqueue s.queue sp)).Nodup
    rw [enqueue_liveIds]
    refine List.Nodup.append h2 (List.nodup_singleton _) ?_
    intro i hi hn
    obtain ⟨t, ht, rfl⟩ := List.mem_map.1 hi
    have := h1 t ht
    simp only [List.mem_singleton] at hn
    omega
  · intro i hi
    have := h3 i hi
    simp only [enqueue]
    omega

/-- Every state reached from a good state is good. -/
theorem good_steps {W : Type} (ops : List (Op W)) (s s' : Sys W) (hs : Good s)
    (h : steps ops s = some s') : Good s' :=
  steps_invariant Good (fun _ h => h) good_enqueue good_check good_reset good_deinit
    ops s s' hs h

theorem check_of_no_tasks {W : Type} (s : Sys W) (h : s.queue.tasks = []) : check s = s := by
  rcases s with ⟨⟨i, ts, n⟩, w, l⟩
  simp only at h
  subst h
  simp [check, tickAll]

theorem wait_of_no_tasks {W : Type} (fuel : Nat) (s : Sys W) (h : s.queue.tasks = []) :
    wait fuel s = some s := by
  cases fuel <;> simp [wait, h]

theorem reset_tasks_cancelled {W : Type} (s : Sys W) :
    ∀ t ∈ (reset s).queue.tasks, t.handle.cancelled = true := by
  intro t ht
  simp only [reset, List.mem_map] at ht
  obtain ⟨u, _, rfl⟩ := ht
  rfl

theorem goneSince_steps {W : Type} (i : Nat) (base : List Event) (ops : List (Op W))
    (s s' : Sys W) (hs : GoneSince i base s) (h : steps ops s = some s') :
    GoneSince i base s' := by
  refine steps_invariant (GoneSince i base) (fun _ h => h) ?_ ?_ ?_ ?_ ops s s' hs h
  · rintro sp s ⟨h1, h2, d, h3, h4⟩
    refine ⟨by simp only [enqueue]; omega, ?_, d, h3, h4⟩
    rw [enqueue_liveIds, List.mem_append, List.mem_singleton]
    rintro (hm | hm)
    · exact h2 hm
    · omega
  · rintro s ⟨h1, h2, d, h3, h4⟩
    obtain ⟨_, q2, q3⟩ := check_queue s
    refine ⟨by rw [q2]; omega, ?_, d ++ (tickAll s.queue.tasks s.world).log,
      by rw [q3, h3, List.append_assoc], ?_⟩
    · rw [check_liveIds, List.mem_append]
      rintro (hm | hm)
      · exact h2 (mem_kept_ids hm)
      · have := (List.mem_range'_1.1 hm).1
        omega
    · rw [idsOf_append, List.mem_append]
      rintro (hm | hm)
      · exact h4 hm
      · exact h2 (tickAll_idsOf _ _ i hm)
  · rintro s ⟨h1, h2, d, h3, h4⟩
    exact ⟨h1, by rwa [reset_liveIds], d, h3, h4⟩
  · rintro s ⟨h1, h2, d, h3, h4⟩
    refine ⟨h1, by simp [deinit, liveIds], d ++ (cleanupAll s.queue.tasks s.world).2,
      by simp [deinit, h3], ?_⟩
    rw [idsOf_append, List.mem_append, (cleanupAll_log _ _).2.2]
    rintro (hm | hm)
    · exact h4 hm
    · obtain ⟨t, ht, rfl⟩ := List.mem_map.1 hm
      exact h2 (List.mem_map_of_mem _ (List.mem_filter.1 ht).1)

theorem count_filter_ids {W : Type} (i : Nat) (p : Task W → Bool) (ts : List (Task W))
    (h : ∀ t ∈ ts, t.id = i → p t = true) :
    ((ts.filter p).map Task.id).count i = (ts.map Task.id).count i := by
  induction ts with
  | nil => rfl
  | cons t ts ih =>
    have ih' := ih (fun x hx => h x (List.mem_cons_of_mem _ hx))
    by_cases hi : t.id = i
    · simp [List.filter_cons, h t (List.mem_cons_self _ _) hi, hi, ih']
    · have hne : (t.id == i) = false := by simpa using hi
      cases hp : p t <;> simp [List.filter_cons, hp, List.count_cons, hne, ih']

theorem cleanedOnce_steps {W : Type} (i : Nat) (ops : List (Op W)) (s s' : Sys W)
    (hs : CleanedOnce i s) (h : steps ops s = some s') : CleanedOnce i s' := by
  refine steps_invariant (CleanedOnce i) (fun _ h => h) ?_ ?_ ?_ ?_ ops s s' hs h
  · rintro sp s ⟨h1, h2, h3⟩
    refine ⟨by simp only [enqueue]; omega, ?_, ?_⟩
    · intro t ht hid
      simp only [enqueue, List.mem_append, List.mem_singleton] at ht
      rcases ht with ht | rfl
      · exact h2 t ht hid
      · simp only [fresh] at hid
        omega
    · show (liveIds (enqueue s.queue sp)).count i + _ = 1
      have hne : (s.queue.nextId == i) = false := by
        simp only [beq_eq_false_iff_ne, ne_eq]
        omega
      rw [enqueue_liveIds, List.count_append, List.count_singleton, hne]
      simpa using h3
  · rintro s ⟨h1, h2, h3⟩
    obtain ⟨q1, q2, q3⟩ := check_queue s
    refine ⟨by rw [q2]; omega, ?_, ?_⟩
    · intro t ht hid
      rw [q1, List.mem_append] at ht
      rcases ht with ht | ht
      · obtain ⟨u, hu, e1, e2, _⟩ := tickAll_kept _ _ t ht
        have := h2 u hu (by rw [← e1, hid])
        simpa [hasCleanup, e2] using this
      · have : t.id ∈ (freshTasks s.queue.nextId
            (tickAll s.queue.tasks s.world).pushed).map Task.id := List.mem_map_of_mem _ ht
        rw [freshTasks_ids] at this
        have := (List.mem_range'_1.1 this).1
        omega
    · have hc := tickAll_cleanup_count i s.queue.tasks s.world h2
      have hr : (List.range' s.queue.nextId
          (tickAll s.queue.tasks s.world).pushed.length).count i = 0 := by
        rw [List.count_eq_zero]
        intro hm
        have := (List.mem_range'_1.1 hm).1
        omega
      rw [check_liveIds, q3, cleanupIds_append, List.count_append, List.count_append, hr]
      simp only [liveIds] at h3
      omega
  · rintro s ⟨h1, h2, h3⟩
    refine ⟨h1, ?_, by simpa [reset_liveIds] using h3⟩
    intro t ht hid
    simp only [reset, List.mem_map] at ht
    obtain ⟨u, hu, rfl⟩ := ht
    exact h2 u hu hid
  · rintro s ⟨h1, h2, h3⟩
    refine ⟨h1, by simp [deinit], ?_⟩
    have hc := count_filter_ids i hasCleanup s.queue.tasks h2
    simp only [deinit, liveIds, List.map_nil, List.count_nil, cleanupIds_append,
      List.count_append, (cleanupAll_log _ _).2.1, hc, zero_add]
    simp only [liveIds] at h3
    omega

theorem cancelledSince_steps {W : Type} (ids : List Nat) (base : List Event)
    (ops : List (Op W)) (s s' : Sys W) (hs : CancelledSince ids base s)
    (h : steps ops s = some s') : CancelledSince ids base s' := by
  refine steps_invariant (CancelledSince ids base) (fun _ h => h) ?_ ?_ ?_ ?_ ops s s' hs h
  · rintro sp s ⟨h1, h2, d, h3, h4⟩
    refine ⟨fun i hi => by have := h1 i hi; simp only [enqueue]; omega, ?_, d, h3, h4⟩
    intro t ht hid
    simp only [enqueue, List.mem_append, List.mem_singleton] at ht
    rcases ht with ht | rfl
    · exact h2 t ht hid
    · have := h1 _ hid
      simp only [fresh] at this
      omega
  · rintro s ⟨h1, h2, d, h3, h4⟩
    obtain ⟨q1, q2, q3⟩ := check_queue s
    refine ⟨fun i hi => by have := h1 i hi; rw [q2]; omega, ?_,
      d ++ (tickAll s.queue.tasks s.world).log, by rw [q3, h3, List.append_assoc], ?_⟩
    · intro t ht hid
      rw [q1, List.mem_append] at ht
      rcases ht with ht | ht
      · obtain ⟨u, hu, e1, _, e3⟩ := tickAll_kept _ _ t ht
        rw [e3]
        exact h2 u hu (by rwa [← e1])
      · have : t.id ∈ (freshTasks s.queue.nextId
            (tickAll s.queue.tasks s.world).pushed).map Task.id := List.mem_map_of_mem _ ht
        rw [freshTasks_ids] at this
        have := (List.mem_range'_1.1 this).1
        have := h1 _ hid
        omega
    · intro p hp hid
      rw [actionsOf_append, List.mem_append] at hp
      rcases hp with hp | hp
      · exact h4 p hp hid
      · rw [tickAll_actionsOf] at hp
        obtain ⟨t, ht, rfl⟩ := List.mem_map.1 hp
        exact h2 t ht hid
  · rintro s ⟨h1, h2, d, h3, h4⟩
    refine ⟨h1, ?_, d, h3, h4⟩
    intro t ht _
    exact reset_tasks_cancelled s t ht
  · rintro s ⟨h1, h2, d, h3, h4⟩
    refine ⟨h1, by simp [deinit], d ++ (cleanupAll s.queue.tasks s.world).2,
      by simp [deinit, h3], ?_⟩
    intro p hp hid
    rw [actionsOf_append, List.mem_append] at hp
    rcases hp with hp | hp
    · exact h4 p hp hid
    · have h0 := (cleanupAll_log s.queue.tasks s.world).1
      rw [actionIds_eq_map_actionsOf] at h0
      have := List.map_eq_nil_iff.1 h0
      rw [this] at hp
      simp at hp

theorem tickTask_kept_of_finish {W : Type} (t : Task W) (w : W)
    (h : (t.spec.action t.handle w).finish = true) : (tickTask t w).kept = none := by
  simp [tickTask, h]

/-- In one tick no task is both kept and cleaned up, nor cleaned up twice. -/
theorem tickAll_cleanup_count_le {W : Type} (i : Nat) (ts : List (Task W)) (w : W) :
    (cleanupIds (tickAll ts w).log).count i + ((tickAll ts w).kept.map Task.id).count i
      ≤ (ts.map Task.id).count i := by
  induction ts generalizing w with
  | nil => simp [tickAll, cleanupIds]
  | cons t ts ih =>
    have ih' := ih (tickTask t w).world
    simp only [tickAll, cleanupIds_append, List.map_append, List.count_append, List.map_cons,
      tickTask_log, cleanupIds]
    cases hk : (tickTask t w).kept with
    | some k =>
      have hid := (tickTask_kept t w k hk).1
      simp only [Option.isNone_some, Bool.false_and, Bool.false_eq_true, if_false, cleanupIds,
        List.count_nil, Option.toList_some, List.map_cons, List.map_nil, hid, List.count_cons,
        zero_add]
      omega
    | none =>
      simp only [Option.isNone_none, Bool.true_and, Option.toList_none, List.map_nil,
        List.count_nil, List.count_cons, add_zero]
      split <;> simp only [cleanupIds, List.count_cons, List.count_nil] <;> omega

theorem good_uncleaned_steps {W : Type} (ops : List (Op W)) (s s' : Sys W)
    (hs : Good s ∧ Uncleaned s) (h : steps ops s = some s') : Good s' ∧ Uncleaned s' := by
  refine steps_invariant (fun s => Good s ∧ Uncleaned s) (fun _ h => h) ?_ ?_ ?_ ?_
    ops s s' hs h
  · rintro sp s ⟨hg, hu⟩
    refine ⟨good_enqueue sp s hg, ?_⟩
    intro i hi hc
    change i ∈ liveIds (enqueue s.queue sp) at hi
    rw [enqueue_liveIds, List.mem_append, List.mem_singleton] at hi
    rcases hi with hi | rfl
    · exact hu i hi hc
    · have := hg.2.2 _ (mem_idsOf_of_mem_cleanupIds hc)
      omega
  · rintro s ⟨hg, hu⟩
    refine ⟨good_check s hg, ?_⟩
    obtain ⟨_, _, q3⟩ := check_queue s
    have hlt : ∀ i ∈ s.queue.tasks.map Task.id, i < s.queue.nextId := by
      intro i hi
      obtain ⟨t, ht, rfl⟩ := List.mem_map.1 hi
      exact hg.1 t ht
    intro i hi hc
    rw [check_liveIds, List.mem_append] at hi
    rw [q3, cleanupIds_append, List.mem_append] at hc
    rcases hi with hi | hi
    · rcases hc with hc | hc
      · exact hu i (mem_kept_ids hi) hc
      · have h1 := tickAll_cleanup_count_le i s.queue.tasks s.world
        have h2 : (s.queue.tasks.map Task.id).count i ≤ 1 :=
          List.nodup_iff_count_le_one.1 hg.2.1 i
        have h3 := List.count_pos_iff.2 hi
        have h4 := List.count_pos_iff.2 hc
        omega
    · have hge := (List.mem_range'_1.1 hi).1
      rcases hc with hc | hc
      · have := hg.2.2 _ (mem_idsOf_of_mem_cleanupIds hc)
        omega
      · have := hlt _ (tickAll_idsOf _ _ i (mem_idsOf_of_mem_cleanupIds hc))
        omega
  · rintro s ⟨hg, hu⟩
    refine ⟨good_reset s hg, ?_⟩
    intro i hi
    rw [reset_liveIds] at hi
    exact hu i hi
  · rintro s ⟨hg, hu⟩
    refine ⟨good_deinit s hg, ?_⟩
    intro i hi
    simp [deinit, liveIds] at hi

/-- Every state reached from the start is good and has cleaned up no live
task. -/
theorem reachable_good {W : Type} (w0 : W) (ops : List (Op W)) (s : Sys W)
    (h : steps ops (start w0) = some s) : Good s ∧ Uncleaned s :=
  good_uncleaned_steps ops (start w0) s
    ⟨good_start w0, by simp [Uncleaned, start, liveIds]⟩ h

theorem cleanedOnce_of_live {W : Type} (s : Sys W) (hg : Good s) (hu : Uncleaned s)
    (t : Task W) (ht : t ∈ s.queue.tasks) (hc : hasCleanup t = true) :
    CleanedOnce t.id s := by
  have hm : t.id ∈ liveIds s.queue := List.mem_map_of_mem _ ht
  refine ⟨hg.1 t ht, ?_, ?_⟩
  · intro u hu' hid
    have : u = t := by
      have hinj := List.inj_on_of_nodup_map hg.2.1
      exact hinj hu' ht hid
    rw [this]
    exact hc
  · have h1 : (liveIds s.queue).count t.id = 1 :=
      List.count_eq_one_of_mem hg.2.1 hm
    have h2 : (cleanupIds s.log).count t.id = 0 := List.count_eq_zero.2 (hu _ hm)
    omega

theorem check_tasks_of_cancelled {W : Type} (s : Sys W)
    (hc : ∀ t ∈ s.queue.tasks, t.handle.cancelled = true)
    (hn : ∀ t ∈ s.queue.tasks, NoPush t.spec) : (check s).queue.tasks = [] := by
  simp [check, tickAll_kept_of_cancelled _ _ hc, tickAll_pushed_of_noPush _ _ hn]

theorem wait_of_cancelled {W : Type} (fuel : Nat) (s : Sys W)
    (hc : ∀ t ∈ s.queue.tasks, t.handle.cancelled = true)
    (hn : ∀ t ∈ s.queue.tasks, NoPush t.spec) :
    wait (fuel + 1) s = some (check s) := by
  by_cases h : s.queue.tasks = []
  · rw [wait_of_no_tasks _ _ h, check_of_no_tasks _ h]
  · have he : s.queue.tasks.isEmpty = false := by
      cases hts : s.queue.tasks with
      | nil => exact absurd hts h
      | cons _ _ => rfl
    rw [wait]
    simp only [he, Bool.false_eq_true, if_false]
    exact wait_of_no_tasks _ _ (check_tasks_of_cancelled s hc hn)

theorem tickTask_kept_of_raised {W : Type} (t : Task W) (w : W)
    (h : (t.spec.action t.handle w).raised = true) : (tickTask t w).kept = none := by
  simp [tickTask, h]

theorem tickAll_pushed_mem {W : Type} (pre : List (Task W)) (t : Task W) (post : List (Task W))
    (w : W) (sp : TaskSpec W)
    (h : sp ∈ (t.spec.action t.handle (tickAll pre w).world).pushed) :
    sp ∈ (tickAll (pre ++ t :: post) w).pushed := by
  rw [tickAll_append]
  simp only [tickAll, List.mem_append, tickTask_pushed]
  exact Or.inr (Or.inl h)

theorem tickAll_kept_split {W : Type} (pre : List (Task W)) (t : Task W) (post : List (Task W))
    (w : W) (h : (tickTask t (tickAll pre w).world).kept = none) (i : Nat)
    (hi : i ∈ (tickAll (pre ++ t :: post) w).kept.map Task.id) :
    i ∈ pre.map Task.id ∨ i ∈ post.map Task.id := by
  rw [tickAll_append] at hi
  simp only [tickAll, h, Option.toList_none, List.nil_append, List.map_append,
    List.mem_append] at hi
  rcases hi with hi | hi
  · exact Or.inl (mem_kept_ids hi)
  · exact Or.inr (mem_kept_ids hi)

/-- In one tick no cleanup is logged for a task that has none. -/
theorem tickAll_cleanup_count_zero {W : Type} (i : Nat) (ts : List (Task W)) (w : W)
    (h : ∀ t ∈ ts, t.id = i → hasCleanup t = false) :
    (cleanupIds (tickAll ts w).log).count i = 0 := by
  induction ts generalizing w with
  | nil => simp [tickAll, cleanupIds]
  | cons t ts ih =>
    have ih' := ih (tickTask t w).world (fun x hx => h x (List.mem_cons_of_mem _ hx))
    simp only [tickAll, cleanupIds_append, List.count_append, tickTask_log, cleanupIds, ih',
      add_zero]
    split
    · rename_i hc
      simp only [Bool.and_eq_true] at hc
      by_cases hi : t.id = i
      · have := h t (List.mem_cons_self _ _) hi
        simp [this] at hc
      · have hne : (t.id == i) = false := by simpa using hi
        simp [cleanupIds, List.count_cons, hne]
    · simp [cleanupIds]

/-- In a good state the ids of the tasks around a live task differ from its
id. -/
theorem good_split {W : Type} (s : Sys W) (hg : Good s) (pre : List (Task W)) (t : Task W)
    (post : List (Task W)) (hsplit : s.queue.tasks = pre ++ t :: post) :
    t.id ∉ pre.map Task.id ∧ t.id ∉ post.map Task.id := by
  have hnd : (pre.map Task.id ++ t.id :: post.map Task.id).Nodup := by
    have := hg.2.1
    simpa [liveIds, hsplit] using this
  refine ⟨?_, (List.nodup_cons.1 (List.nodup_append.1 hnd).2.1).1⟩
  intro hm
  exact (List.nodup_append.1 hnd).2.2 hm (List.mem_cons_self _ _)

/-- A live task that one tick does not keep is gone after the `check`. -/
theorem gone_of_not_kept {W : Type} (s : Sys W) (hg : Good s) (pre : List (Task W))
    (t : Task W) (post : List (Task W)) (hsplit : s.queue.tasks = pre ++ t :: post)
    (h : (tickTask t (tickAll pre s.world).world).kept = none) :
    t.id ∉ liveIds (check s).queue := by
  obtain ⟨hpre, hpost⟩ := good_split s hg pre t post hsplit
  have ht : t ∈ s.queue.tasks := by simp [hsplit]
  rw [check_liveIds, List.mem_append]
  rintro (hm | hm)
  · rw [hsplit] at hm
    rcases tickAll_kept_split pre t post s.world h _ hm with h1 | h1
    · exact hpre h1
    · exact hpost h1
  · have := (List.mem_range'_1.1 hm).1
    have := hg.1 t ht
    omega

theorem neverCleaned_steps {W : Type} (i : Nat) (ops : List (Op W)) (s s' : Sys W)
    (hs : NeverCleaned i s) (h : steps ops s = some s') : NeverCleaned i s' := by
  refine steps_invariant (NeverCleaned i) (fun _ h => h) ?_ ?_ ?_ ?_ ops s s' hs h
  · rintro sp s ⟨h1, h2, h3⟩
    refine ⟨by simp only [enqueue]; omega, ?_, h3⟩
    intro t ht hid
    simp only [enqueue, List.mem_append, List.mem_singleton] at ht
    rcases ht with ht | rfl
    · exact h2 t ht hid
    · simp only [fresh] at hid
      omega
  · rintro s ⟨h1, h2, h3⟩
    obtain ⟨q1, q2, q3⟩ := check_queue s
    refine ⟨by rw [q2]; omega, ?_, ?_⟩
    · intro t ht hid
      rw [q1, List.mem_append] at ht
      rcases ht with ht | ht
      · obtain ⟨u, hu, e1, e2, _⟩ := tickAll_kept _ _ t ht
        have := h2 u hu (by rw [← e1, hid])
        simpa [hasCleanup, e2] using this
      · have : t.id ∈ (freshTasks s.queue.nextId
            (tickAll s.queue.tasks s.world).pushed).map Task.id := List.mem_map_of_mem _ ht
        rw [freshTasks_ids] at this
        have := (List.mem_range'_1.1 this).1
        omega
    · rw [q3, cleanupIds_append, List.count_append, h3,
        tickAll_cleanup_count_zero i s.queue.tasks s.world h2]
  · rintro s ⟨h1, h2, h3⟩
    refine ⟨h1, ?_, h3⟩
    intro t ht hid
    simp only [reset, List.mem_map] at ht
    obtain ⟨u, hu, rfl⟩ := ht
    exact h2 u hu hid
  · rintro s ⟨h1, h2, h3⟩
    refine ⟨h1, by simp [deinit], ?_⟩
    have hz : ((s.queue.tasks.filter hasCleanup).map Task.id).count i = 0 := by
      rw [List.count_eq_zero]
      intro hm
      obtain ⟨t, ht, hid⟩ := List.mem_map.1 hm
      obtain ⟨ht1, ht2⟩ := List.mem_filter.1 ht
      have := h2 t ht1 hid
      rw [this] at ht2
      exact Bool.noConfusion ht2
    simp only [deinit, cleanupIds_append, List.count_append, (cleanupAll_log _ _).2.1, hz, h3]

theorem neverCleaned_of_live {W : Type} (s : Sys W) (hg : Good s) (hu : Uncleaned s)
    (t : Task W) (ht : t ∈ s.queue.tasks) (hc : hasCleanup t = false) :
    NeverCleaned t.id s := by
  have hm : t.id ∈ liveIds s.queue := List.mem_map_of_mem _ ht
  refine ⟨hg.1 t ht, ?_, List.count_eq_zero.2 (hu _ hm)⟩
  intro u hu' hid
  have : u = t := by
    have hinj := List.inj_on_of_nodup_map hg.2.1
    exact hinj hu' ht hid
  rw [this]
  exact hc

end retro.task

namespace melonds

open retro.task

/-! ### The record of calls under the host functions -/

@[simp] theorem emit_calls (c : Call) (s : Core) : (emit c s).calls = s.calls ++ [c] := rfl

@[simp] theorem emit_loaded_nds_cart (c : Call) (s : Core) :
    (emit c s).loaded_nds_cart = s.loaded_nds_cart := rfl

@[simp] theorem emit_loaded_gba_cart (c : Call) (s : Core) :
    (emit c s).loaded_gba_cart = s.loaded_gba_cart := rfl

@[simp] theorem emit_nds_info (c : Call) (s : Core) : (emit c s).nds_info = s.nds_info := rfl

@[simp] theorem emit_gba_info (c : Call) (s : Core) : (emit c s).gba_info = s.gba_info := rfl

@[simp] theorem emit_gba_save_info (c : Call) (s : Core) :
    (emit c s).gba_save_info = s.gba_save_info := rfl

@[simp] theorem emit_NDSCart_Cart (c : Call) (s : Core) :
    (emit c s).NDSCart_Cart = s.NDSCart_Cart := rfl

@[simp] theorem emit_GBACart_Cart (c : Call) (s : Core) :
    (emit c s).GBACart_Cart = s.GBACart_Cart := rfl

@[simp] theorem emit_NDS_Running (c : Call) (s : Core) :
    (emit c s).NDS_Running = s.NDS_Running := rfl

@[simp] theorem emit_first_frame_run (c : Call) (s : Core) :
    (emit c s).first_frame_run = s.first_frame_run := rfl

@[simp] theorem emit_deferred_pending (c : Call) (s : Core) :
    (emit c s).deferred_initialization_pending = s.deferred_initialization_pending := rfl

@[simp] theorem emit_mic_state_toggled (c : Call) (s : Core) :
    (emit c s).mic_state_toggled = s.mic_state_toggled := rfl

@[simp] theorem emit_assertFailed (c : Call) (s : Core) :
    (emit c s).assertFailed = s.assertFailed := rfl

@[simp] theorem retro_assert_calls (b : Bool) (s : Core) : (retro_assert b s).calls = s.calls := by
  cases b <;> rfl

@[simp] theorem retro_assert_loaded_nds_cart (b : Bool) (s : Core) :
    (retro_assert b s).loaded_nds_cart = s.loaded_nds_cart := by
  cases b <;> rfl

@[simp] theorem retro_assert_loaded_gba_cart (b : Bool) (s : Core) :
    (retro_assert b s).loaded_gba_cart = s.loaded_gba_cart := by
  cases b <;> rfl

@[simp] theorem retro_assert_nds_info (b : Bool) (s : Core) :
    (retro_assert b s).nds_info = s.nds_info := by
  cases b <;> rfl

@[simp] theorem retro_assert_gba_info (b : Bool) (s : Core) :
    (retro_assert b s).gba_info = s.gba_info := by
  cases b <;> rfl

@[simp] theorem retro_assert_gba_save_info (b : Bool) (s : Core) :
    (retro_assert b s).gba_save_info = s.gba_save_info := by
  cases b <;> rfl

@[simp] theorem retro_assert_NDSCart_Cart (b : Bool) (s : Core) :
    (retro_assert b s).NDSCart_Cart = s.NDSCart_Cart := by
  cases b <;> rfl

@[simp] theorem retro_assert_GBACart_Cart (b : Bool) (s : Core) :
    (retro_assert b s).GBACart_Cart = s.GBACart_Cart := by
  cases b <;> rfl

@[simp] theorem retro_assert_NDS_Running (b : Bool) (s : Core) :
    (retro_assert b s).NDS_Running = s.NDS_Running := by
  cases b <;> rfl

@[simp] theorem retro_assert_first_frame_run (b : Bool) (s : Core) :
    (retro_assert b s).first_frame_run = s.first_frame_run := by
  cases b <;> rfl

@[simp] theorem retro_assert_deferred_pending (b : Bool) (s : Core) :
    (retro_assert b s).deferred_initialization_pending = s.deferred_initialization_pending := by
  cases b <;> rfl

@[simp] theorem retro_assert_mic_state_toggled (b : Bool) (s : Core) :
    (retro_assert b s).mic_state_toggled = s.mic_state_toggled := by
  cases b <;> rfl

@[simp] theorem taskCalls_nil : taskCalls [] = [] := rfl

@[simp] theorem taskCalls_append (a b : List Call) :
    taskCalls (a ++ b) = taskCalls a ++ taskCalls b := by
  simp [taskCalls]

theorem taskCalls_cons (c : Call) (cs : List Call) :
    taskCalls (c :: cs) = if isTaskCall c then c :: taskCalls cs else taskCalls cs := by
  simp [taskCalls, List.filter_cons]

@[simp] theorem andThen_of_false (s : Core) (f : Core → Core × Bool) :
    andThen (s, false) f = f s := rfl

@[simp] theorem andThen_of_true (s : Core) (f : Core → Core × Bool) :
    andThen (s, true) f = (s, true) := rfl

theorem andThen_taskCalls (r : Core × Bool) (f : Core → Core × Bool) (d : Core → List Call)
    (hf : ∀ s, taskCalls (f s).1.calls = taskCalls s.calls ++ d s) :
    taskCalls (andThen r f).1.calls
      = taskCalls r.1.calls ++ (if r.2 then [] else d r.1) := by
  unfold andThen
  split <;> simp [*]

theorem set_up_direct_boot_taskCalls (e : Env) (s : Core) :
    taskCalls (set_up_direct_boot e s).calls = taskCalls s.calls := by
  unfold set_up_direct_boot
  split <;> simp [taskCalls_cons, isTaskCall]

theorem insert_nds_cart_taskCalls (e : Env) (s : Core) :
    taskCalls (insert_nds_cart e s).1.calls = taskCalls s.calls := by
  simp only [insert_nds_cart]
  repeat' split
  all_goals simp [taskCalls_cons, isTaskCall]

theorem insert_gba_cart_taskCalls (e : Env) (g : Option retro_game_info) (s : Core) :
    taskCalls (insert_gba_cart e g s).1.calls = taskCalls s.calls := by
  simp only [insert_gba_cart]
  repeat' split
  all_goals simp [taskCalls_cons, isTaskCall]

theorem boot_and_start_taskCalls (e : Env) (n : Option retro_game_info) (s : Core) :
    taskCalls (boot_and_start e n s).1.calls = taskCalls s.calls := by
  simp only [boot_and_start]
  repeat' split
  all_goals simp [taskCalls_cons, isTaskCall, set_up_direct_boot_taskCalls]

theorem load_games_deferred_taskCalls (e : Env) (n g : Option retro_game_info) (s : Core) :
    taskCalls (load_games_deferred e n g s).1.calls = taskCalls s.calls := by
  unfold load_games_deferred
  rw [andThen_taskCalls _ _ (fun _ => []) (by simp [boot_and_start_taskCalls]),
    andThen_taskCalls _ _ (fun _ => []) (by simp [insert_gba_cart_taskCalls]),
    insert_nds_cart_taskCalls]
  simp [taskCalls_cons, isTaskCall]

theorem andThen_ok (r : Core × Bool) (f : Core → Core × Bool) (h : (andThen r f).2 = false) :
    r.2 = false ∧ andThen r f = f r.1 := by
  unfold andThen at h ⊢
  split at h
  · simp_all
  · simp_all

theorem parse_nds_stage_taskCalls (e : Env) (n : Option retro_game_info) (s : Core) :
    taskCalls (parse_nds_stage e n s).1.calls = taskCalls s.calls := by
  simp only [parse_nds_stage]
  repeat' split
  all_goals simp [taskCalls_cons, isTaskCall]

theorem parse_gba_stage_taskCalls (e : Env) (g sv : Option retro_game_info) (s : Core) :
    taskCalls (parse_gba_stage e g sv s).1.calls = taskCalls s.calls := by
  simp only [parse_gba_stage]
  repeat' split
  all_goals simp [taskCalls_cons, isTaskCall]

theorem init_stage_taskCalls (e : Env) (s : Core) :
    taskCalls (init_stage e s).1.calls
      = taskCalls s.calls
        ++ (((if usesFatFilesystem e s then [TaskKind.FileFlush] else [])
              ++ [TaskKind.FlushFirmware]).map Call.task_push) := by
  simp only [init_stage]
  repeat' split
  all_goals simp [taskCalls_cons, isTaskCall]

theorem deferred_stage_taskCalls (e : Env) (n g : Option retro_game_info) (s : Core) :
    taskCalls (deferred_stage e n g s).1.calls = taskCalls s.calls := by
  simp only [deferred_stage]
  split
  · rfl
  · exact load_games_deferred_taskCalls e n g s

/-- The kinds of tasks `load_games` pushes when the configuration is read:
the first two always, the last two when the ROMs parse. -/
theorem load_games_taskCalls (e : Env) (n g sv : Option retro_game_info) (s : Core) :
    ∃ ps : List TaskKind,
      taskCalls (load_games e n g sv s).1.calls = taskCalls s.calls ++ ps.map Call.task_push ∧
        ((load_games e n g sv s).2 = false →
          ∃ flush : Bool,
            ps = (if e.supports_power_status then [TaskKind.PowerStatusUpdate] else [])
                  ++ [TaskKind.OnScreenDisplay]
                  ++ (if flush then [TaskKind.FileFlush] else [])
                  ++ [TaskKind.FlushFirmware]) := by
  simp only [load_games]
  split
  · exact ⟨[], by simp [taskCalls_cons, isTaskCall], by simp⟩
  · generalize hs1 : retro_assert _ (retro_assert _ (emit (Call.task_push TaskKind.OnScreenDisplay)
        (if e.supports_power_status = true then _ else _))) = s1
    have h1 : taskCalls s1.calls
        = taskCalls s.calls
          ++ ((if e.supports_power_status then [TaskKind.PowerStatusUpdate] else [])
              ++ [TaskKind.OnScreenDisplay]).map Call.task_push := by
      subst hs1
      split <;> simp [taskCalls_cons, isTaskCall]
    generalize hp : andThen (parse_nds_stage e n s1) (parse_gba_stage e g sv) = p
    have h2 : taskCalls p.1.calls = taskCalls s1.calls := by
      subst hp
      rw [andThen_taskCalls _ _ (fun _ => []) (by simp [parse_gba_stage_taskCalls]),
        parse_nds_stage_taskCalls]
      simp
    rw [andThen_taskCalls _ _ (fun _ => []) (by simp [deferred_stage_taskCalls]),
      andThen_taskCalls _ _ _ (init_stage_taskCalls e), h2, h1]
    by_cases hp2 : p.2 = true
    · refine ⟨(if e.supports_power_status then [TaskKind.PowerStatusUpdate] else [])
          ++ [TaskKind.OnScreenDisplay], by simp [hp2], ?_⟩
      intro h
      have := (andThen_ok _ _ (andThen_ok _ _ h).1).1
      simp [hp2] at this
    · refine ⟨(if e.supports_power_status then [TaskKind.PowerStatusUpdate] else [])
          ++ [TaskKind.OnScreenDisplay]
          ++ (if usesFatFilesystem e p.1 then [TaskKind.FileFlush] else [])
          ++ [TaskKind.FlushFirmware], ?_, fun _ => ⟨usesFatFilesystem e p.1, rfl⟩⟩
      simp [hp2]

theorem select_content_taskCalls (type : GameType) (info : List retro_game_info) (num : Nat)
    (s : Core) : taskCalls (select_content type info num s).1.calls = taskCalls s.calls := by
  simp only [select_content]
  repeat' split
  all_goals simp [taskCalls_cons, isTaskCall]

/-- The calls `handle_load_game` makes into the task queue are pushes; when it
returns `true` they are, in this order, the power status task (if the frontend
supports it), the on-screen display task, the file flush task (if a FAT
filesystem is in use) and the firmware flush task. -/
theorem handle_load_game_taskCalls (e : Env) (type : GameType) (info : List retro_game_info)
    (num : Nat) (s : Core) :
    ∃ ps : List TaskKind,
      taskCalls (handle_load_game e type info num s).1.calls
          = taskCalls s.calls ++ ps.map Call.task_push ∧
        ((handle_load_game e type info num s).2 = true →
          ∃ flush : Bool,
            ps = (if e.supports_power_status then [TaskKind.PowerStatusUpdate] else [])
                  ++ [TaskKind.OnScreenDisplay]
                  ++ (if flush then [TaskKind.FileFlush] else [])
                  ++ [TaskKind.FlushFirmware]) := by
  simp only [handle_load_game]
  generalize hs0 : retro_assert _ (retro_assert _ (retro_assert _ (retro_assert _
    (retro_assert _ s)))) = s0
  have h0 : taskCalls s0.calls = taskCalls s.calls := by
    subst hs0
    simp
  have hc := select_content_taskCalls type info num s0
  generalize select_content type info num s0 = c at hc ⊢
  split
  · exact ⟨[], by simp [hc, h0], by simp⟩
  · obtain ⟨ps, hps, hok⟩ := load_games_taskCalls e c.1.nds_info c.1.gba_info c.1.gba_save_info c.1
    refine ⟨ps, ?_, ?_⟩
    · split
      · simp [taskCalls_cons, isTaskCall, hps, hc, h0]
      · simp [hps, hc, h0]
    · split
      · simp
      · intro _
        exact hok (by simp_all)

theorem retro_init_taskCalls (s : Core) :
    taskCalls (retro_init s).calls = taskCalls s.calls ++ [Call.task_init] := by
  simp [retro_init, taskCalls_cons, isTaskCall]

theorem retro_unload_game_taskCalls (s : Core) :
    taskCalls (retro_unload_game s).calls
      = taskCalls s.calls ++ [Call.task_reset, Call.task_wait, Call.task_deinit] := by
  simp only [retro_unload_game]
  repeat' split
  all_goals simp [taskCalls_cons, isTaskCall]

theorem retro_deinit_taskCalls (s : Core) :
    taskCalls (retro_deinit s).calls = taskCalls s.calls ++ [Call.task_deinit] := by
  simp [retro_deinit, taskCalls_cons, isTaskCall]

theorem retro_reset_taskCalls (e : Env) (s : Core) :
    taskCalls (retro_reset e s).calls = taskCalls s.calls := by
  simp only [retro_reset]
  repeat' split
  all_goals simp [taskCalls_cons, isTaskCall, set_up_direct_boot_taskCalls]

theorem first_frame_taskCalls (e : Env) (s : Core) :
    taskCalls (first_frame e s).calls = taskCalls s.calls := by
  simp only [first_frame]
  repeat' split
  all_goals simp [taskCalls_cons, isTaskCall]

theorem read_microphone_taskCalls (e : Env) (s : Core) :
    taskCalls (read_microphone e s).calls = taskCalls s.calls := by
  simp only [read_microphone]
  repeat' split
  all_goals simp [taskCalls_cons, isTaskCall]

theorem run_deferred_init_taskCalls (e : Env) (s : Core) :
    taskCalls (run_deferred_init e s).1.calls = taskCalls s.calls := by
  simp only [run_deferred_init]
  repeat' split
  all_goals simp [taskCalls_cons, isTaskCall, load_games_deferred_taskCalls]

theorem run_frame_taskCalls (e : Env) (s : Core) :
    taskCalls (run_frame e s).calls = taskCalls s.calls ++ [Call.task_check] := by
  simp only [run_frame]
  repeat' split
  all_goals simp [taskCalls_cons, isTaskCall, read_microphone_taskCalls]

theorem retro_run_taskCalls (e : Env) (s : Core) :
    taskCalls (retro_run e s).calls
      = taskCalls s.calls
        ++ (if (run_deferred_init e s).2 = false ∧ e.readyToRender = true then [Call.task_check]
            else []) := by
  simp only [retro_run]
  have hd := run_deferred_init_taskCalls e s
  generalize run_deferred_init e s = d at hd ⊢
  repeat' split
  all_goals
    simp_all [taskCalls_cons, isTaskCall, run_frame_taskCalls, first_frame_taskCalls]

/-! ### Frames run by `retro_run` -/

theorem andThen_count (c : Call) (r : Core × Bool) (f : Core → Core × Bool)
    (hf : ∀ s, (f s).1.calls.count c = s.calls.count c) :
    (andThen r f).1.calls.count c = r.1.calls.count c := by
  unfold andThen
  split <;> simp [*]

theorem load_games_deferred_frames (e : Env) (n g : Option retro_game_info) (s : Core) :
    (load_games_deferred e n g s).1.calls.count Call.NDS_RunFrame
      = s.calls.count Call.NDS_RunFrame := by
  have h1 : ∀ s, (insert_nds_cart e s).1.calls.count Call.NDS_RunFrame
      = s.calls.count Call.NDS_RunFrame := by
    intro s
    simp only [insert_nds_cart]
    repeat' split
    all_goals simp
  have h2 : ∀ s, (insert_gba_cart e g s).1.calls.count Call.NDS_RunFrame
      = s.calls.count Call.NDS_RunFrame := by
    intro s
    simp only [insert_gba_cart]
    repeat' split
    all_goals simp
  have h3 : ∀ s, (boot_and_start e n s).1.calls.count Call.NDS_RunFrame
      = s.calls.count Call.NDS_RunFrame := by
    intro s
    simp only [boot_and_start, set_up_direct_boot]
    repeat' split
    all_goals simp
  unfold load_games_deferred
  rw [andThen_count _ _ _ h3, andThen_count _ _ _ h2, h1]
  simp

theorem run_deferred_init_frames (e : Env) (s : Core) :
    (run_deferred_init e s).1.calls.count Call.NDS_RunFrame
      = s.calls.count Call.NDS_RunFrame := by
  simp only [run_deferred_init]
  repeat' split
  all_goals simp [load_games_deferred_frames]

theorem first_frame_frames (e : Env) (s : Core) :
    (first_frame e s).calls.count Call.NDS_RunFrame = s.calls.count Call.NDS_RunFrame := by
  simp only [first_frame]
  repeat' split
  all_goals simp

theorem read_microphone_frames (e : Env) (s : Core) :
    (read_microphone e s).calls.count Call.NDS_RunFrame = s.calls.count Call.NDS_RunFrame := by
  simp only [read_microphone]
  repeat' split
  all_goals simp

theorem run_frame_frames (e : Env) (s : Core) :
    (run_frame e s).calls.count Call.NDS_RunFrame = s.calls.count Call.NDS_RunFrame + 1 := by
  simp only [run_frame]
  repeat' split
  all_goals simp [read_microphone_frames]

theorem retro_run_frames (e : Env) (s : Core) :
    (retro_run e s).calls.count Call.NDS_RunFrame
      = s.calls.count Call.NDS_RunFrame
        + (if (run_deferred_init e s).2 = false ∧ e.readyToRender = true then 1 else 0) := by
  simp only [retro_run]
  have hd := run_deferred_init_frames e s
  generalize run_deferred_init e s = d at hd ⊢
  repeat' split
  all_goals simp_all [run_frame_frames, first_frame_frames]

theorem count_eq_count_taskCalls (c : Call) (h : isTaskCall c = true) (l : List Call) :
    l.count c = (taskCalls l).count c := by
  induction l with
  | nil => rfl
  | cons a l ih =>
    rw [taskCalls_cons]
    by_cases hac : a = c
    · subst hac
      simp [h, ih]
    · have hne : (a == c) = false := by simpa using hac
      split <;> simp [List.count_cons, hne, ih]

/-! ### Sequences of calls of the frontend -/

theorem runApi_append (a b : List Api) (s : Core) :
    runApi (a ++ b) s = runApi b (runApi a s) := by
  induction a generalizing s with
  | nil => rfl
  | cons x a ih => simp [runApi, ih]

theorem frames_taskCalls (frames : List Env) (s : Core) :
    ∃ k : Nat,
      taskCalls (runApi (frames.map Api.retro_run) s).calls
        = taskCalls s.calls ++ List.replicate k Call.task_check := by
  induction frames generalizing s with
  | nil => exact ⟨0, by simp [runApi]⟩
  | cons e frames ih =>
    obtain ⟨k, hk⟩ := ih (retro_run e s)
    simp only [List.map_cons, runApi, Api.apply]
    rw [hk, retro_run_taskCalls]
    split
    · exact ⟨k + 1, by simp [List.replicate_succ]⟩
    · exact ⟨k, by simp⟩

theorem round_taskCalls (r : Round) (s : Core) :
    ∃ (ps : List TaskKind) (k : Nat),
      taskCalls (runApi r.calls s).calls
        = taskCalls s.calls ++ ps.map Call.task_push ++ List.replicate k Call.task_check
          ++ [Call.task_reset, Call.task_wait, Call.task_deinit] := by
  obtain ⟨ps, hps, _⟩ := handle_load_game_taskCalls r.load GameType.NDS r.info.toList 1 s
  obtain ⟨k, hk⟩ := frames_taskCalls r.frames (retro_load_game r.load r.info s).1
  refine ⟨ps, k, ?_⟩
  simp only [Round.calls, runApi, Api.apply, runApi_append]
  rw [retro_unload_game_taskCalls, hk]
  simp only [retro_load_game]
  rw [hps]

theorem runApi_lifecycle_one (r : Round) (s : Core) :
    runApi (lifecycle [r]) s = retro_deinit (runApi r.calls (retro_init s)) := by
  show runApi (r.calls ++ [] ++ [Api.retro_deinit]) (retro_init s) = _
  rw [List.append_nil, runApi_append]
  rfl

theorem lifecycle_one_taskCalls (r : Round) :
    ∃ (ps : List TaskKind) (k : Nat),
      taskCalls (runApi (lifecycle [r]) Core.boot).calls
        = [Call.task_init] ++ ps.map Call.task_push ++ List.replicate k Call.task_check
          ++ [Call.task_reset, Call.task_wait, Call.task_deinit] ++ [Call.task_deinit] := by
  obtain ⟨ps, k, hr⟩ := round_taskCalls r (retro_init Core.boot)
  refine ⟨ps, k, ?_⟩
  rw [runApi_lifecycle_one, retro_deinit_taskCalls, hr, retro_init_taskCalls]
  rfl

theorem pushesGuarded_taskCalls (b : Bool) (l : List Call) :
    pushesGuarded b l = pushesGuarded b (taskCalls l) := by
  induction l generalizing b with
  | nil => rfl
  | cons c l ih =>
    rw [taskCalls_cons]
    cases c <;> simp [pushesGuarded, isTaskCall, ih]

theorem pushesGuarded_pushes (ps : List TaskKind) (l : List Call) :
    pushesGuarded true (ps.map Call.task_push ++ l) = pushesGuarded true l := by
  induction ps with
  | nil => rfl
  | cons k ps ih => simp [pushesGuarded, ih]

theorem pushesGuarded_checks (b : Bool) (k : Nat) (l : List Call) :
    pushesGuarded b (List.replicate k Call.task_check ++ l) = pushesGuarded b l := by
  induction k with
  | zero => rfl
  | succ k ih => simp [List.replicate_succ, pushesGuarded, ih]

theorem count_pushes (c : Call) (ps : List TaskKind) (h : ∀ k, Call.task_push k ≠ c) :
    (ps.map Call.task_push).count c = 0 := by
  induction ps with
  | nil => rfl
  | cons k ps ih => simp [List.count_cons, ih, h k]

/-- C1: from every state, the calls `retro_unload_game` makes into the task
queue are `reset`, `wait`, `deinit`, in that order and once each, and they come
before everything else it calls: the rest of its calls holds no call into the
task queue and holds `NDS::Stop` (when the emulator is running), `NDS::DeInit`
and the release of the two loaded carts. -/
theorem unload_game_task_calls_order (s : Core) :
    ∃ rest : List Call,
      (retro_unload_game s).calls
          = s.calls ++ [Call.task_reset, Call.task_wait, Call.task_deinit] ++ rest ∧
        taskCalls rest = [] ∧
        (s.NDS_Running = false ∨ Call.NDS_Stop ∈ rest) ∧
        Call.NDS_DeInit ∈ rest ∧
        Call.reset_loaded_nds_cart ∈ rest ∧
        Call.reset_loaded_gba_cart ∈ rest := by
  refine ⟨(if s.NDS_Running then [Call.NDS_Stop] else []) ++ [Call.NDS_DeInit]
      ++ (match s.loaded_nds_cart with
          | some header =>
            if s.nds_info.isSome && header.IsDSiWare then [Call.uninstall_dsiware] else []
          | none => [])
      ++ [Call.reset_loaded_nds_cart, Call.reset_loaded_gba_cart], ?_, ?_, ?_, ?_, ?_, ?_⟩
  · cases hr : s.NDS_Running <;> cases hc : s.loaded_nds_cart <;>
      simp [retro_unload_game, emit, hr, hc]
    all_goals split <;> simp
  · repeat' split
    all_goals simp [taskCalls_cons, isTaskCall]
  · cases hr : s.NDS_Running <;> simp
  · simp
  · simp
  · simp

/-- C2: one call of `retro_run` adds to the record of calls as many
`task::check` as `NDS::RunFrame`, namely one of each when the call gets to the
frame block and none otherwise; it gets there exactly when deferred
initialisation, if pending, does not fail and rendering is ready. -/
theorem retro_run_check_with_frame (e : Env) (s : Core) :
    (retro_run e s).calls.count Call.task_check
        = s.calls.count Call.task_check
          + (if (!(s.deferred_initialization_pending
                    && (load_games_deferred e s.nds_info s.gba_info s).2)
                && e.readyToRender) = true then 1 else 0) ∧
      (retro_run e s).calls.count Call.NDS_RunFrame
        = s.calls.count Call.NDS_RunFrame
          + (if (!(s.deferred_initialization_pending
                    && (load_games_deferred e s.nds_info s.gba_info s).2)
                && e.readyToRender) = true then 1 else 0) := by
  have hd : (run_deferred_init e s).2
      = (s.deferred_initialization_pending
          && (load_games_deferred e s.nds_info s.gba_info s).2) := by
    simp only [run_deferred_init]
    repeat' split
    all_goals simp_all
  have hc := count_eq_count_taskCalls Call.task_check rfl
  constructor
  · rw [hc, retro_run_taskCalls, List.count_append, ← hc, hd]
    cases s.deferred_initialization_pending <;>
      cases (load_games_deferred e s.nds_info s.gba_info s).2 <;>
      cases e.readyToRender <;> simp
  · rw [retro_run_frames, hd]
    cases s.deferred_initialization_pending <;>
      cases (load_games_deferred e s.nds_info s.gba_info s).2 <;>
      cases e.readyToRender <;> simp

/-- C3, counterexample: in one lifecycle with two rounds (each boots without
content, runs one frame and unloads) both loads return `true` and no
`retro_assert` fails, yet the tasks of the second load are pushed after the
`task::deinit` of the first `retro_unload_game` with no `task::init` in
between; on the task queue that push is the fatal assertion. -/
theorem second_round_pushes_after_deinit :
    loadsSucceed twoRounds Core.boot = true ∧
      (runApi twoRounds Core.boot).assertFailed = false ∧
      pushesGuarded false (runApi twoRounds Core.boot).calls = false ∧
      (interp idleTask idleTask 1 (runApi twoRounds Core.boot).calls
        (start ⟨[], [], OsdState.quiet, []⟩)).isNone = true := by
  decide!

/-- C3, amended: along every call sequence `retro_init`, at most one round
(a load, any number of `retro_run`, `retro_unload_game`), `retro_deinit`,
every `task::push` comes after a `task::init` with no `task::deinit` in
between. -/
theorem pushes_guarded_within_one_round (rounds : List Round) (h : rounds.length ≤ 1) :
    pushesGuarded false (runApi (lifecycle rounds) Core.boot).calls = true := by
  have h0 : taskCalls Core.boot.calls = [] := rfl
  rcases rounds with _ | ⟨r, _ | ⟨r2, rs⟩⟩
  · rw [pushesGuarded_taskCalls]
    simp only [lifecycle, roundCalls, runApi, Api.apply, List.nil_append]
    rw [retro_deinit_taskCalls, retro_init_taskCalls, h0]
    rfl
  · obtain ⟨ps, k, hr⟩ := lifecycle_one_taskCalls r
    have hi : ∀ l, pushesGuarded false (Call.task_init :: l) = pushesGuarded true l :=
      fun _ => rfl
    rw [pushesGuarded_taskCalls, hr]
    simp only [List.singleton_append, List.cons_append, List.nil_append, List.append_assoc, hi]
    rw [pushesGuarded_pushes, pushesGuarded_checks]
    rfl
  · simp at h

/-- Witness for C3: a lifecycle with one round. -/
theorem pushes_guarded_within_one_round_witness :
    [Round.withoutContent].length ≤ 1 ∧
      pushesGuarded false (runApi (lifecycle [Round.withoutContent]) Core.boot).calls = true :=
  ⟨by decide, pushes_guarded_within_one_round [Round.withoutContent] (by decide)⟩

/-- C4, at the failing input: the core starts, boots a DSi without content
(so the file flush task is in the queue) and unloads while the file with
handle 7 still has 3 frames left on its flush timer. The reset, wait, deinit
sequence of `retro_unload_game` completes with every task ticked once as
cancelled and the queue empty, but no file has been synced and the timer of
file 7 is still pending. The flush task has no cleanup handler, and on a
cancelled handle its action only calls `Finish`, whatever the timers are. -/
theorem unload_leaves_pending_file_unflushed :
    (interp idleTask idleTask 1 (runApi unloadOnDsi Core.boot).calls (start World.pending)).map
        (fun s => (s.world.fsyncs, s.world.flushTimers, s.queue.tasks.length, s.log))
      = some ([], [(7, 3)], 0,
          [Event.action 0 true, Event.action 1 true, Event.action 2 true, Event.action 3 true]) ∧
      (TaskSpec.cleanup file.FlushTask).isNone = true ∧
      ∀ (h : TaskHandle) (w : World), h.cancelled = true →
        (file.FlushTask.action h w).world = w ∧ (file.FlushTask.action h w).finish = true := by
  refine ⟨by decide!, rfl, ?_⟩
  intro h w hc
  simp [file.FlushTask.action, hc]

/-- C5: for every queue built from the host's tasks (the power status task,
the on-screen display task, the file flush task and the firmware flush task,
in any number and state, where the two tasks taken as parameters push no
task), after `reset` the loop of `wait` comes back as soon as it is given
fuel for one tick: that tick removes every task. The file flush task, run on a
cancelled handle, calls `Finish` and touches nothing. -/
theorem wait_after_reset_terminates (power firmware : TaskSpec World)
    (hp : NoPush power) (hf : NoPush firmware) (s : Sys World)
    (hs : ∀ t ∈ s.queue.tasks, ∃ k, t.spec = taskSpecOf power firmware k) (fuel : Nat) :
    wait (fuel + 1) (reset s) = some (check (reset s)) ∧
      (check (reset s)).queue.tasks = [] ∧
      ∀ (h : TaskHandle) (w : World), h.cancelled = true →
        (file.FlushTask.action h w).finish = true ∧ (file.FlushTask.action h w).world = w := by
  have hn : ∀ t ∈ (reset s).queue.tasks, NoPush t.spec := by
    intro t ht
    simp only [reset, List.mem_map] at ht
    obtain ⟨u, hu, rfl⟩ := ht
    obtain ⟨k, hk⟩ := hs u hu
    show NoPush u.spec
    rw [hk]
    cases k
    · exact hp
    · intro h w
      rfl
    · intro h w
      simp only [taskSpecOf, file.FlushTask, TaskSpec.action, file.FlushTask.action]
      split <;> rfl
    · exact hf
  refine ⟨wait_of_cancelled fuel _ (reset_tasks_cancelled s) hn,
    check_tasks_of_cancelled _ (reset_tasks_cancelled s) hn, ?_⟩
  intro h w hc
  simp [file.FlushTask.action, hc]

/-- Witness for C5: the queue `load_games` builds on a DSi. -/
theorem wait_after_reset_terminates_witness :
    NoPush idleTask ∧
      (∀ t ∈ Sys.loaded.queue.tasks, ∃ k, t.spec = taskSpecOf idleTask idleTask k) ∧
      wait (0 + 1) (reset Sys.loaded) = some (check (reset Sys.loaded)) ∧
      (check (reset Sys.loaded)).queue.tasks = [] :=
  have hi : NoPush idleTask := fun _ _ => rfl
  have hs : ∀ t ∈ Sys.loaded.queue.tasks, ∃ k, t.spec = taskSpecOf idleTask idleTask k := by
    intro t ht
    simp only [Sys.loaded, List.mem_cons, List.mem_singleton, List.not_mem_nil, or_false] at ht
    rcases ht with rfl | rfl | rfl | rfl
    · exact ⟨TaskKind.PowerStatusUpdate, rfl⟩
    · exact ⟨TaskKind.OnScreenDisplay, rfl⟩
    · exact ⟨TaskKind.FileFlush, rfl⟩
    · exact ⟨TaskKind.FlushFirmware, rfl⟩
  ⟨hi, hs, (wait_after_reset_terminates idleTask idleTask hi hi Sys.loaded hs 0).1,
    (wait_after_reset_terminates idleTask idleTask hi hi Sys.loaded hs 0).2.1⟩

/-- C6, counterexample: in a lifecycle with one round (boot without content,
one frame, unload) the host calls `task::init` once and `task::deinit`
twice. -/
theorem one_round_deinit_twice :
    (runApi oneRound Core.boot).calls.count Call.task_init = 1 ∧
      (runApi oneRound Core.boot).calls.count Call.task_deinit = 2 ∧
      ¬ (runApi oneRound Core.boot).calls.count Call.task_deinit = 1 := by
  decide!

/-- C6, amended: over every lifecycle with one round the calls into the task
queue are `init`, then the pushes of the load, then one `check` for each frame
run, then `reset`, `wait`, `deinit`, then a second `deinit`. So `task::init`
is called exactly once and `task::deinit` exactly twice; `retro_init` makes the
`init`, `retro_unload_game` makes the first `deinit` and `retro_deinit` the
second. -/
theorem one_round_init_once_deinit_twice (r : Round) :
    (∃ (ps : List TaskKind) (k : Nat),
        taskCalls (runApi (lifecycle [r]) Core.boot).calls
          = [Call.task_init] ++ ps.map Call.task_push ++ List.replicate k Call.task_check
            ++ [Call.task_reset, Call.task_wait, Call.task_deinit] ++ [Call.task_deinit]) ∧
      (runApi (lifecycle [r]) Core.boot).calls.count Call.task_init = 1 ∧
      (runApi (lifecycle [r]) Core.boot).calls.count Call.task_deinit = 2 ∧
      (∀ s, taskCalls (retro_init s).calls = taskCalls s.calls ++ [Call.task_init]) ∧
      (∀ s, taskCalls (retro_unload_game s).calls
          = taskCalls s.calls ++ [Call.task_reset, Call.task_wait, Call.task_deinit]) ∧
      (∀ s, taskCalls (retro_deinit s).calls = taskCalls s.calls ++ [Call.task_deinit]) := by
  obtain ⟨ps, k, h⟩ := lifecycle_one_taskCalls r
  refine ⟨⟨ps, k, h⟩, ?_, ?_, retro_init_taskCalls, retro_unload_game_taskCalls,
    retro_deinit_taskCalls⟩
  · rw [count_eq_count_taskCalls Call.task_init rfl, h]
    simp [List.count_append, count_pushes, List.count_replicate]
  · rw [count_eq_count_taskCalls Call.task_deinit rfl, h]
    simp [List.count_append, count_pushes, List.count_replicate]

/-- C7: on an initialised queue reached from the start, a sequence of pushes
goes through, runs no code and appends the pushed tasks behind the tasks
already there, with ids that count up from the next id of the queue. The
`check` that follows invokes the action of every live task exactly once, in
queue order, so the actions of the pushed tasks are invoked once each in the
order of the pushes. On the host side the pushes of `handle_load_game` are, in
this order, the power status task, the on-screen display task, the file flush
task and the firmware flush task (the first and the third only under their
conditions). -/
theorem check_runs_pushed_tasks_in_order {W : Type} (w0 : W) (ops0 : List (Op W))
    (s0 : Sys W) (hreach : steps ops0 (start w0) = some s0)
    (hinit : s0.queue.initialised = true) (specs : List (TaskSpec W)) :
    (∃ s, steps (specs.map Op.push) s0 = some s ∧
        s.log = s0.log ∧ s.world = s0.world ∧
        s.queue.tasks.map Task.spec = s0.queue.tasks.map Task.spec ++ specs ∧
        liveIds s.queue = liveIds s0.queue ++ List.range' s0.queue.nextId specs.length ∧
        (liveIds s.queue).Nodup ∧
        ∃ d, (check s).log = s.log ++ d ∧ actionIds d = liveIds s.queue) ∧
      ∀ (e : Env) (type : GameType) (info : List retro_game_info) (num : Nat) (c : Core),
        ∃ ps : List TaskKind,
          taskCalls (handle_load_game e type info num c).1.calls
              = taskCalls c.calls ++ ps.map Call.task_push ∧
            ((handle_load_game e type info num c).2 = true →
              ∃ flush : Bool,
                ps = (if e.supports_power_status then [TaskKind.PowerStatusUpdate] else [])
                      ++ [TaskKind.OnScreenDisplay]
                      ++ (if flush then [TaskKind.FileFlush] else [])
                      ++ [TaskKind.FlushFirmware]) := by
  refine ⟨⟨_, steps_pushes specs s0 hinit, rfl, rfl, ?_, ?_, ?_, _, (check_queue _).2.2, ?_⟩,
    handle_load_game_taskCalls⟩
  · simp [freshTasks_spec]
  · simp [liveIds, freshTasks_ids]
  · have hg := (reachable_good w0 ops0 s0 hreach).1
    have hg' := good_steps (specs.map Op.push) s0 _ hg (steps_pushes specs s0 hinit)
    exact hg'.2.1
  · rw [tickAll_actionIds]
    rfl

/-- Witness for C7: the four tasks of the host pushed onto a queue that has
just been initialised. -/
theorem check_runs_pushed_tasks_in_order_witness :
    steps [Op.init] (start World.pending) = some Sys.ready ∧
      Sys.ready.queue.initialised = true ∧
      ∃ s, steps ([idleTask, OnScreenDisplayTask, file.FlushTask, idleTask].map Op.push)
            Sys.ready = some s ∧
        liveIds s.queue = [0, 1, 2, 3] ∧
        ∃ d, (check s).log = s.log ++ d ∧ actionIds d = [0, 1, 2, 3] := by
  have h := (check_runs_pushed_tasks_in_order World.pending [Op.init] Sys.ready rfl rfl
    [idleTask, OnScreenDisplayTask, file.FlushTask, idleTask]).1
  obtain ⟨s, h1, _, _, _, h5, _, d, h7, h8⟩ := h
  have h5' : liveIds s.queue = [0, 1, 2, 3] := by
    rw [h5]
    rfl
  exact ⟨rfl, rfl, s, h1, h5', d, h7, by rw [h8, h5']⟩

/-- C8, amended: in every state reached from the start and for every live
task, (1) if the action of the task calls `Finish` when its turn comes in a
`check`, then after that `check` the task is no longer in the queue, its
cleanup has been invoked exactly once if it has one and not at all if it has
none, and whatever operations follow invoke neither its action nor its cleanup
again; (2) if the task has a cleanup, then in every state reached afterwards,
by whatever operations (a `check` after `Finish` or after `reset`, a `wait`, a
`deinit`), the cleanup has been invoked not at all while the task is in the
queue and exactly once when it has left; (3) if the task has no cleanup, then
no cleanup of it is ever invoked. -/
theorem cleanup_runs_exactly_once {W : Type} (w0 : W) (ops0 : List (Op W)) (s : Sys W)
    (hreach : steps ops0 (start w0) = some s) (t : retro.task.Task W)
    (ht : t ∈ s.queue.tasks) :
    (∀ pre post, s.queue.tasks = pre ++ t :: post →
        (t.spec.action t.handle (tickAll pre s.world).world).finish = true →
        t.id ∉ liveIds (check s).queue ∧
          (cleanupIds (check s).log).count t.id = (if hasCleanup t = true then 1 else 0) ∧
          ∀ ops s2, steps ops (check s) = some s2 →
            ∃ d, s2.log = (check s).log ++ d ∧ t.id ∉ actionIds d ∧ t.id ∉ cleanupIds d) ∧
      (hasCleanup t = true →
        ∀ ops s2, steps ops s = some s2 →
          (cleanupIds s2.log).count t.id = if t.id ∈ liveIds s2.queue then 0 else 1) ∧
      (hasCleanup t = false →
        ∀ ops s2, steps ops s = some s2 → (cleanupIds s2.log).count t.id = 0) := by
  obtain ⟨hg, hu⟩ := reachable_good w0 ops0 s hreach
  have hnever : hasCleanup t = false →
      ∀ ops s2, steps ops s = some s2 → (cleanupIds s2.log).count t.id = 0 := by
    intro hc ops s2 h2
    exact (neverCleaned_steps t.id ops s s2 (neverCleaned_of_live s hg hu t ht hc) h2).2.2
  have hlife : hasCleanup t = true →
      ∀ ops s2, steps ops s = some s2 →
        (cleanupIds s2.log).count t.id = if t.id ∈ liveIds s2.queue then 0 else 1 := by
    intro hc ops s2 h2
    obtain ⟨_, _, h3⟩ := cleanedOnce_steps t.id ops s s2 (cleanedOnce_of_live s hg hu t ht hc) h2
    split
    · rename_i hm
      have := List.count_pos_iff.2 hm
      omega
    · rename_i hm
      have := List.count_eq_zero.2 hm
      omega
  refine ⟨?_, hlife, hnever⟩
  intro pre post hsplit hfin
  have hgone : t.id ∉ liveIds (check s).queue := by
    have hnd : (pre.map Task.id ++ t.id :: post.map Task.id).Nodup := by
      have := hg.2.1
      simpa [liveIds, hsplit] using this
    have hpre : t.id ∉ pre.map Task.id := by
      intro hm
      exact (List.nodup_append.1 hnd).2.2 hm (List.mem_cons_self _ _)
    have hpost : t.id ∉ post.map Task.id :=
      (List.nodup_cons.1 (List.nodup_append.1 hnd).2.1).1
    rw [check_liveIds, hsplit, tickAll_append, List.mem_append]
    rintro (hm | hm)
    · simp only [List.map_append, List.mem_append] at hm
      rcases hm with hm | hm
      · exact hpre (mem_kept_ids hm)
      · simp only [tickAll, tickTask_kept_of_finish t _ hfin, Option.toList_none,
          List.nil_append] at hm
        exact hpost (mem_kept_ids hm)
    · have := (List.mem_range'_1.1 hm).1
      have := hg.1 t ht
      omega
  refine ⟨hgone, ?_, ?_⟩
  · cases hc : hasCleanup t
    · simpa using hnever hc [Op.check] (check s) rfl
    · have := hlife hc [Op.check] (check s) rfl
      simpa [hgone] using this
  · intro ops s2 h2
    have hlt : t.id < (check s).queue.nextId := by
      have := hg.1 t ht
      rw [(check_queue s).2.1]
      omega
    obtain ⟨_, _, d, hd, hn⟩ := goneSince_steps t.id (check s).log ops (check s) s2
      ⟨hlt, hgone, [], by simp, by simp [idsOf]⟩ h2
    exact ⟨d, hd, fun hm => hn (mem_idsOf_of_mem_actionIds hm),
      fun hm => hn (mem_idsOf_of_mem_cleanupIds hm)⟩

/-- Witness for C8: a queue holding one task that finishes at its first tick
and has a cleanup. -/
theorem cleanup_runs_exactly_once_witness :
    steps [Op.init, Op.push farewellTask] (start World.pending) = some Sys.farewell ∧
      fresh 0 farewellTask ∈ Sys.farewell.queue.tasks ∧
      (0 ∉ liveIds (check Sys.farewell).queue ∧
        (cleanupIds (check Sys.farewell).log).count 0 = 1) ∧
      (cleanupIds (deinit Sys.farewell).log).count 0 = 1 := by
  have hm : fresh 0 farewellTask ∈ Sys.farewell.queue.tasks := List.mem_cons_self _ _
  have h := cleanup_runs_exactly_once World.pending [Op.init, Op.push farewellTask]
    Sys.farewell rfl (fresh 0 farewellTask) hm
  have h1 := h.1 [] [] rfl rfl
  have h2 := h.2.1 rfl [Op.deinit] (deinit Sys.farewell) rfl
  exact ⟨rfl, hm, ⟨h1.1, h1.2.1⟩, by simpa [deinit, liveIds] using h2⟩

/-- C8, counterexample: the queue `load_games` builds on a DSi holds
`file::FlushTask`, a task built without a cleanup action, with id 2. After a
`reset` its action finds the handle cancelled and calls `Finish`; the `check`
removes it and no cleanup of it is invoked. It also leaves by `deinit`, and
again no cleanup of it is invoked: the count is 0, not 1. -/
theorem flush_task_leaves_without_cleanup :
    steps [Op.init, Op.push idleTask, Op.push OnScreenDisplayTask, Op.push file.FlushTask,
        Op.push idleTask] (start World.pending) = some Sys.loaded ∧
      (TaskSpec.cleanup file.FlushTask).isNone = true ∧
      fresh 2 file.FlushTask ∈ Sys.loaded.queue.tasks ∧
      (file.FlushTask.action (cancel (fresh 2 file.FlushTask)).handle World.pending).finish
        = true ∧
      2 ∉ liveIds (check (reset Sys.loaded)).queue ∧
      (cleanupIds (check (reset Sys.loaded)).log).count 2 = 0 ∧
      2 ∉ liveIds (deinit Sys.loaded).queue ∧
      (cleanupIds (deinit Sys.loaded).log).count 2 = 0 :=
  ⟨rfl, rfl, List.mem_cons_of_mem _ (List.mem_cons_of_mem _ (List.mem_cons_self _ _)), rfl,
    by decide!, by decide!, by decide!, by decide!⟩

/-- C9: in every state reached from the start, `reset` leaves the log, the
world, the ids, the specs and the finished flags of the live tasks as they
are (it invokes no action and no cleanup and removes nothing) and sets the
cancelled flag of every live task. The next `check` invokes every one of these
tasks, each finding `IsCancelled()` true, and whatever operations follow the
`reset`, every action of such a task that is invoked finds `IsCancelled()`
true. -/
theorem reset_cancels_every_task {W : Type} (w0 : W) (ops0 : List (Op W)) (s : Sys W)
    (hreach : steps ops0 (start w0) = some s) :
    (reset s).log = s.log ∧ (reset s).world = s.world ∧
      liveIds (reset s).queue = liveIds s.queue ∧
      (reset s).queue.tasks.map Task.spec = s.queue.tasks.map Task.spec ∧
      (reset s).queue.tasks.map (fun t => t.handle.finished)
        = s.queue.tasks.map (fun t => t.handle.finished) ∧
      (∀ t ∈ (reset s).queue.tasks, t.handle.cancelled = true) ∧
      (∃ d, (check (reset s)).log = s.log ++ d ∧
        actionsOf d = (liveIds s.queue).map fun i => (i, true)) ∧
      ∀ ops s2, steps ops (reset s) = some s2 →
        ∃ d, s2.log = s.log ++ d ∧ ∀ p ∈ actionsOf d, p.1 ∈ liveIds s.queue → p.2 = true := by
  obtain ⟨hg, _⟩ := reachable_good w0 ops0 s hreach
  refine ⟨rfl, rfl, reset_liveIds s, ?_, ?_, reset_tasks_cancelled s, ?_, ?_⟩
  · simp [reset, cancel, Function.comp_def]
  · simp [reset, cancel, Function.comp_def]
  · refine ⟨_, (check_queue (reset s)).2.2, ?_⟩
    rw [tickAll_actionsOf]
    simp [reset, cancel, liveIds, Function.comp_def]
  · intro ops s2 h2
    have hc : CancelledSince (liveIds s.queue) s.log (reset s) := by
      refine ⟨?_, fun t ht _ => reset_tasks_cancelled s t ht, [], by simp [reset],
        by simp [actionsOf]⟩
      intro i hi
      obtain ⟨t, ht, rfl⟩ := List.mem_map.1 hi
      exact hg.1 t ht
    exact (cancelledSince_steps _ _ ops (reset s) s2 hc h2).2.2

/-- Witness for C9: the queue `load_games` builds on a DSi. -/
theorem reset_cancels_every_task_witness :
    steps [Op.init, Op.push idleTask, Op.push OnScreenDisplayTask, Op.push file.FlushTask,
        Op.push idleTask] (start World.pending) = some Sys.loaded ∧
      (reset Sys.loaded).log = Sys.loaded.log ∧
      ∃ d, (check (reset Sys.loaded)).log = Sys.loaded.log ++ d ∧
        actionsOf d = [(0, true), (1, true), (2, true), (3, true)] := by
  have h := reset_cancels_every_task World.pending
    [Op.init, Op.push idleTask, Op.push OnScreenDisplayTask, Op.push file.FlushTask,
      Op.push idleTask] Sys.loaded rfl
  obtain ⟨h1, _, _, _, _, _, ⟨d, hd, ha⟩, _⟩ := h
  exact ⟨rfl, h1, d, hd, by rw [ha]; rfl⟩

/-- C10, counterexample: the core starts and a load fails on an invalid ROM
after `load_games` has pushed the on-screen display task, which has no cleanup
handler; the frontend then calls `retro_deinit`. The `deinit` finds one task
in the queue and invokes no cleanup. -/
theorem deinit_without_cleanup_handler :
    (retro_load_game Env.withoutPower (some ⟨"game.nds", 0⟩) (retro_init Core.boot)).2 = false ∧
      (interp idleTask idleTask 1 (runApi failedLoad Core.boot).calls
          (start World.pending)).map (fun s => (s.queue.tasks.length, s.log)) = some (1, []) ∧
      (interp idleTask idleTask 1 (runApi failedLoadThenDeinit Core.boot).calls
          (start World.pending)).map (fun s => (s.queue.tasks.length, s.log)) = some (0, []) ∧
      (TaskSpec.cleanup OnScreenDisplayTask).isNone = true := by
  decide!

/-- C10, amended: `deinit` invokes no action; it invokes the cleanup of every
task that is still in the queue and has one, once each and in queue order, so
with N tasks that all have a cleanup it invokes exactly N cleanups; it leaves
the queue empty. A second `deinit` changes nothing: no cleanup, same queue,
same world, same log. The host issues such a second `deinit`: the calls of
`retro_unload_game` followed by `retro_deinit` into the task queue are `reset`,
`wait`, `deinit`, `deinit`. -/
theorem deinit_cleans_remaining_tasks {W : Type} (s : Sys W) :
    (∃ d, (deinit s).log = s.log ++ d ∧ actionIds d = [] ∧
        cleanupIds d = (s.queue.tasks.filter hasCleanup).map Task.id ∧
        ((s.queue.tasks.all hasCleanup) = true →
          cleanupIds d = liveIds s.queue ∧ (cleanupIds d).length = s.queue.tasks.length)) ∧
      (deinit s).queue.tasks = [] ∧
      deinit (deinit s) = deinit s ∧
      ∀ c : Core,
        taskCalls (retro_deinit (retro_unload_game c)).calls
          = taskCalls c.calls
            ++ [Call.task_reset, Call.task_wait, Call.task_deinit, Call.task_deinit] := by
  refine ⟨⟨(cleanupAll s.queue.tasks s.world).2, rfl, (cleanupAll_log _ _).1,
    (cleanupAll_log _ _).2.1, ?_⟩, rfl, deinit_deinit s, ?_⟩
  · intro hall
    have hf : s.queue.tasks.filter hasCleanup = s.queue.tasks := by
      rw [List.filter_eq_self]
      intro t ht
      exact List.all_eq_true.1 hall t ht
    rw [(cleanupAll_log _ _).2.1, hf]
    exact ⟨rfl, by simp⟩
  · intro c
    rw [retro_deinit_taskCalls, retro_unload_game_taskCalls]
    simp

/-- C11: in every state reached from the start, one `check` invokes the action
of every task that was live at its start exactly once, in queue order,
whatever the actions push; the tasks pushed by the actions during the tick
(every spec an action pushes is among them) are appended behind the tasks the
tick keeps, with fresh ids, and nothing of them is invoked in that `check`;
the next `check` invokes the action of each of them exactly once. -/
theorem pushed_task_waits_for_next_check {W : Type} (w0 : W) (ops0 : List (Op W))
    (s : Sys W) (hreach : steps ops0 (start w0) = some s) :
    (liveIds s.queue).Nodup ∧
      (∃ d, (check s).log = s.log ++ d ∧ actionIds d = liveIds s.queue ∧
        ∀ i ∈ List.range' s.queue.nextId (tickAll s.queue.tasks s.world).pushed.length,
          i ∉ idsOf d) ∧
      (∀ (pre : List (retro.task.Task W)) (t : retro.task.Task W)
          (post : List (retro.task.Task W)),
        s.queue.tasks = pre ++ t :: post →
          ∀ sp ∈ (t.spec.action t.handle (tickAll pre s.world).world).pushed,
            sp ∈ (tickAll s.queue.tasks s.world).pushed) ∧
      (check s).queue.tasks
        = (tickAll s.queue.tasks s.world).kept
          ++ freshTasks s.queue.nextId (tickAll s.queue.tasks s.world).pushed ∧
      ∃ d2, (check (check s)).log = (check s).log ++ d2 ∧
        actionIds d2 = liveIds (check s).queue ∧
        ∀ i ∈ List.range' s.queue.nextId (tickAll s.queue.tasks s.world).pushed.length,
          (actionIds d2).count i = 1 := by
  obtain ⟨hg, _⟩ := reachable_good w0 ops0 s hreach
  have hg2 := good_check s hg
  refine ⟨hg.2.1, ⟨_, (check_queue s).2.2, tickAll_actionIds _ _, ?_⟩, ?_, (check_queue s).1,
    _, (check_queue (check s)).2.2, tickAll_actionIds _ _, ?_⟩
  · intro i hi hm
    have h1 := tickAll_idsOf _ _ i hm
    obtain ⟨t, ht, rfl⟩ := List.mem_map.1 h1
    have := hg.1 t ht
    have := (List.mem_range'_1.1 hi).1
    omega
  · intro pre t post hsplit sp hsp
    rw [hsplit]
    exact tickAll_pushed_mem pre t post s.world sp hsp
  · intro i hi
    rw [tickAll_actionIds]
    refine List.count_eq_one_of_mem hg2.2.1 ?_
    show i ∈ liveIds (check s).queue
    rw [check_liveIds, List.mem_append]
    exact Or.inr hi

/-- Witness for C11: a queue holding one task that pushes an idle task at
every tick. -/
theorem pushed_task_waits_for_next_check_witness :
    steps [Op.init, Op.push spawningTask] (start World.pending) = some Sys.spawning ∧
      liveIds (check Sys.spawning).queue = [0, 1] ∧
      (∃ d, (check Sys.spawning).log = Sys.spawning.log ++ d ∧ actionIds d = [0]) ∧
      ∃ d2, (check (check Sys.spawning)).log = (check Sys.spawning).log ++ d2 ∧
        actionIds d2 = [0, 1] := by
  have h := pushed_task_waits_for_next_check World.pending [Op.init, Op.push spawningTask]
    Sys.spawning rfl
  obtain ⟨_, ⟨d, hd, ha, _⟩, _, _, d2, hd2, ha2, _⟩ := h
  have hl : liveIds (check Sys.spawning).queue = [0, 1] := rfl
  exact ⟨rfl, hl, ⟨d, hd, ha⟩, d2, hd2, by rw [ha2, hl]⟩

/-- C12: in every state reached from the start and for every live task, a
`check` always comes back with a state, and it invokes the action of every
live task exactly once, in queue order, whatever any action or cleanup
raises. If the action of the task raises when its turn comes, the task is
gone after that `check`, treated as finished: its cleanup has been invoked
once if it has one, and not at all if it has none. Whenever the cleanup of the
task is invoked in that `check`, the task is gone after it, whether the
cleanup raises or not. -/
theorem raising_task_is_dropped {W : Type} (w0 : W) (ops0 : List (Op W)) (s : Sys W)
    (hreach : steps ops0 (start w0) = some s) (pre : List (retro.task.Task W))
    (t : retro.task.Task W) (post : List (retro.task.Task W))
    (hsplit : s.queue.tasks = pre ++ t :: post) :
    step Op.check s = some (check s) ∧
      (liveIds s.queue).Nodup ∧
      (∃ d, (check s).log = s.log ++ d ∧ actionIds d = liveIds s.queue ∧
        (t.id ∈ cleanupIds d → t.id ∉ liveIds (check s).queue)) ∧
      ((t.spec.action t.handle (tickAll pre s.world).world).raised = true →
        t.id ∉ liveIds (check s).queue ∧
          (cleanupIds (check s).log).count t.id = if hasCleanup t then 1 else 0) := by
  obtain ⟨hg, hu⟩ := reachable_good w0 ops0 s hreach
  have ht : t ∈ s.queue.tasks := by simp [hsplit]
  have hm : t.id ∈ liveIds s.queue := List.mem_map_of_mem _ ht
  have hone : (s.queue.tasks.map Task.id).count t.id ≤ 1 :=
    List.nodup_iff_count_le_one.1 hg.2.1 t.id
  refine ⟨rfl, hg.2.1, ⟨_, (check_queue s).2.2, tickAll_actionIds _ _, ?_⟩, ?_⟩
  · intro hc hl
    rw [check_liveIds, List.mem_append] at hl
    rcases hl with hl | hl
    · have h1 := tickAll_cleanup_count_le t.id s.queue.tasks s.world
      have h3 := List.count_pos_iff.2 hl
      have h4 := List.count_pos_iff.2 hc
      omega
    · have := (List.mem_range'_1.1 hl).1
      have := hg.1 t ht
      omega
  · intro hr
    have hgone := gone_of_not_kept s hg pre t post hsplit (tickTask_kept_of_raised t _ hr)
    refine ⟨hgone, ?_⟩
    have hold : (cleanupIds s.log).count t.id = 0 := List.count_eq_zero.2 (hu _ hm)
    have hsame : ∀ u ∈ s.queue.tasks, u.id = t.id → u = t := fun u hu' hid =>
      List.inj_on_of_nodup_map hg.2.1 hu' ht hid
    rw [(check_queue s).2.2, cleanupIds_append, List.count_append, hold, zero_add]
    cases hc : hasCleanup t with
    | true =>
      have h1 := tickAll_cleanup_count t.id s.queue.tasks s.world
        (fun u hu' hid => by rw [hsame u hu' hid]; exact hc)
      have h2 : ((tickAll s.queue.tasks s.world).kept.map Task.id).count t.id = 0 := by
        rw [List.count_eq_zero]
        intro hk
        apply hgone
        rw [check_liveIds, List.mem_append]
        exact Or.inl hk
      have h3 : (s.queue.tasks.map Task.id).count t.id = 1 :=
        List.count_eq_one_of_mem hg.2.1 hm
      simp only [if_true]
      omega
    | false =>
      have h1 := tickAll_cleanup_count_zero t.id s.queue.tasks s.world
        (fun u hu' hid => by rw [hsame u hu' hid]; exact hc)
      simpa using h1

/-- Witness for C12: a queue holding a task whose action and cleanup raise,
followed by an idle task. -/
theorem raising_task_is_dropped_witness :
    steps [Op.init, Op.push faultyTask, Op.push idleTask] (start World.pending)
        = some Sys.faulty ∧
      Sys.faulty.queue.tasks = [] ++ fresh 0 faultyTask :: [fresh 1 idleTask] ∧
      (∃ d, (check Sys.faulty).log = Sys.faulty.log ++ d ∧ actionIds d = [0, 1]) ∧
      0 ∉ liveIds (check Sys.faulty).queue ∧
      (cleanupIds (check Sys.faulty).log).count 0 = 1 := by
  have h := raising_task_is_dropped World.pending
    [Op.init, Op.push faultyTask, Op.push idleTask] Sys.faulty rfl
    [] (fresh 0 faultyTask) [fresh 1 idleTask] rfl
  obtain ⟨_, _, ⟨d, hd, ha, _⟩, h4⟩ := h
  have h5 := h4 rfl
  exact ⟨rfl, rfl, ⟨d, hd, by rw [ha]; rfl⟩, h5.1, h5.2⟩

/-! ### Direct boot and the number of ROMs -/

theorem load_games_deferred_no_boot_without_content (e : Env) (g : Option retro_game_info)
    (s : Core) :
    (load_games_deferred e none g s).1.calls.count Call.NDS_SetupDirectBoot
      = s.calls.count Call.NDS_SetupDirectBoot := by
  have h3 : ∀ s, (boot_and_start e none s).1.calls.count Call.NDS_SetupDirectBoot
      = s.calls.count Call.NDS_SetupDirectBoot := by
    intro s
    simp only [boot_and_start]
    repeat' split
    all_goals simp_all
  have h2 : ∀ s, (insert_gba_cart e g s).1.calls.count Call.NDS_SetupDirectBoot
      = s.calls.count Call.NDS_SetupDirectBoot := by
    intro s
    simp only [insert_gba_cart]
    repeat' split
    all_goals simp
  have h1 : ∀ s, (insert_nds_cart e s).1.calls.count Call.NDS_SetupDirectBoot
      = s.calls.count Call.NDS_SetupDirectBoot := by
    intro s
    simp only [insert_nds_cart]
    repeat' split
    all_goals simp
  unfold load_games_deferred
  rw [andThen_count _ _ _ h3, andThen_count _ _ _ h2, h1]
  simp

theorem load_games_deferred_no_boot_for_dsiware (e : Env) (n g : Option retro_game_info)
    (s : Core) (header : NDSHeader) (hl : s.loaded_nds_cart = some header)
    (hd : header.IsDSiWare = true) (hc : s.NDSCart_Cart = none) :
    (load_games_deferred e n g s).1.calls.count Call.NDS_SetupDirectBoot
      = s.calls.count Call.NDS_SetupDirectBoot := by
  simp only [load_games_deferred, insert_nds_cart, emit_loaded_nds_cart,
    retro_assert_loaded_nds_cart, hl, hd, Bool.not_true, Bool.false_eq_true, if_false]
  by_cases hn : e.loadNandOk = true
  · simp only [hn, Bool.not_true, Bool.false_eq_true, if_false, andThen_of_false,
      insert_gba_cart]
    repeat' split
    all_goals
      simp only [andThen_of_true, andThen_of_false, boot_and_start, emit_NDSCart_Cart,
        retro_assert_NDSCart_Cart, hc]
      simp
  · simp [hn]

theorem retro_reset_calls (e : Env) (s : Core) :
    (retro_reset e s).calls
      = s.calls ++ [Call.NDS_Reset]
        ++ (match s.loaded_nds_cart with
            | some header =>
              if (s.nds_info.isSome && !header.IsDSiWare && (e.directBoot || e.needsDirectBoot))
                  = true
              then [Call.NDS_SetupDirectBoot] else []
            | none => []) := by
  simp only [retro_reset, set_up_direct_boot]
  cases hl : s.loaded_nds_cart with
  | none => simp [emit, hl]
  | some header =>
    simp only [emit, hl]
    cases s.nds_info.isSome <;> cases header.IsDSiWare <;> cases e.directBoot <;>
      cases e.needsDirectBoot <;> simp

/-- C13, at the failing input: the core starts, loads a cartridge that is not
DSiWare with direct boot enabled, and runs a frame. The load has inserted the
cartridge (`NDSCart::Cart` is set, `_loaded_nds_cart` is null, as the load
asserts) and has set up direct boot once. A `retro_reset` in that state calls
`NDS::Reset` and nothing else: `NDS::SetupDirectBoot` is not called. In every
state in which `_loaded_nds_cart` is null, `retro_reset` calls `NDS::Reset`
alone. -/
theorem reset_skips_direct_boot :
    loadsSucceed cartridgeLoaded Core.boot = true ∧
      (runApi cartridgeLoaded Core.boot).assertFailed = false ∧
      (runApi cartridgeLoaded Core.boot).NDSCart_Cart
        = some { IsDSiWare := false, IsHomebrew := false } ∧
      (runApi cartridgeLoaded Core.boot).loaded_nds_cart = none ∧
      (runApi cartridgeLoaded Core.boot).calls.count Call.NDS_SetupDirectBoot = 1 ∧
      (retro_reset Env.cartridge (runApi cartridgeLoaded Core.boot)).calls
        = (runApi cartridgeLoaded Core.boot).calls ++ [Call.NDS_Reset] ∧
      ∀ (e : Env) (s : Core), s.loaded_nds_cart = none →
        (retro_reset e s).calls = s.calls ++ [Call.NDS_Reset] := by
  refine ⟨by decide!, by decide!, by decide!, by decide!, by decide!, by decide!, ?_⟩
  intro e s h
  rw [retro_reset_calls, h]
  simp

/-- C14: in every state in which no Nintendo DS content is loaded, or in which
the loaded cartridge is DSiWare, and in which nothing is inserted in slot 1
(as `load_games_deferred` asserts), neither `load_games_deferred` nor
`retro_reset` calls `NDS::SetupDirectBoot`, whatever the configuration. -/
theorem direct_boot_ignored_without_cartridge (e : Env) (g : Option retro_game_info)
    (s : Core)
    (h : s.nds_info = none ∨
      ∃ header, s.loaded_nds_cart = some header ∧ header.IsDSiWare = true)
    (hcart : s.NDSCart_Cart = none) :
    (load_games_deferred e s.nds_info g s).1.calls.count Call.NDS_SetupDirectBoot
        = s.calls.count Call.NDS_SetupDirectBoot ∧
      (retro_reset e s).calls.count Call.NDS_SetupDirectBoot
        = s.calls.count Call.NDS_SetupDirectBoot := by
  constructor
  · rcases h with h | ⟨header, hl, hd⟩
    · rw [h]
      exact load_games_deferred_no_boot_without_content e g s
    · exact load_games_deferred_no_boot_for_dsiware e s.nds_info g s header hl hd hcart
  · rw [retro_reset_calls]
    rcases h with h | ⟨header, hl, hd⟩
    · cases hl : s.loaded_nds_cart <;> simp [h]
    · simp [hl, hd]

/-- Witness for C14: a state in which a DSiWare title is loaded. -/
theorem direct_boot_ignored_without_cartridge_witness :
    (Core.withDsiWare.nds_info = none ∨
        ∃ header, Core.withDsiWare.loaded_nds_cart = some header ∧ header.IsDSiWare = true) ∧
      Core.withDsiWare.NDSCart_Cart = none ∧
      (load_games_deferred Env.plain Core.withDsiWare.nds_info none
          Core.withDsiWare).1.calls.count Call.NDS_SetupDirectBoot
        = Core.withDsiWare.calls.count Call.NDS_SetupDirectBoot ∧
      (retro_reset Env.plain Core.withDsiWare).calls.count Call.NDS_SetupDirectBoot
        = Core.withDsiWare.calls.count Call.NDS_SetupDirectBoot :=
  have h : Core.withDsiWare.nds_info = none ∨
      ∃ header, Core.withDsiWare.loaded_nds_cart = some header ∧ header.IsDSiWare = true :=
    Or.inr ⟨_, rfl, rfl⟩
  ⟨h, rfl, direct_boot_ignored_without_cartridge Env.plain none Core.withDsiWare h rfl⟩

/-- C15, at the failing input: after `retro_init`, `retro_load_game_special`
with the slot-1/2 boot type and one ROM reports the invalid number of ROMs
(`set_error_message` is called) but does not return: it goes on to
`load_games`, which initialises the console and starts it, and it returns
`true`. For every unknown game type `handle_load_game` returns `false` after
the error message, without loading. -/
theorem invalid_rom_count_still_loads :
    (retro_load_game_special Env.plain GameType.SLOT_1_2_BOOT [exampleRom] 1
        (retro_init Core.boot)).2 = true ∧
      (retro_load_game_special Env.plain GameType.SLOT_1_2_BOOT [exampleRom] 1
        (retro_init Core.boot)).1.calls
        = [Call.sram_init, Call.file_init, Call.task_init, Call.set_error_message,
            Call.clear_memory_config, Call.InitConfig, Call.Platform_Init,
            Call.task_push TaskKind.PowerStatusUpdate, Call.task_push TaskKind.OnScreenDisplay,
            Call.task_push TaskKind.FlushFirmware, Call.render_Initialize, Call.NDS_Init,
            Call.GPU_InitRenderer, Call.GPU_SetRenderSettings, Call.NDS_Reset,
            Call.NDS_Start] ∧
      ∀ (e : Env) (type : Nat) (info : List retro_game_info) (num : Nat) (s : Core),
        (handle_load_game e (GameType.unknown type) info num s).2 = false ∧
          (handle_load_game e (GameType.unknown type) info num s).1.calls
            = s.calls ++ [Call.set_error_message] := by
  refine ⟨by decide!, by decide!, ?_⟩
  intro e type info num s
  simp [handle_load_game, select_content]

/-! ### Input -/

theorem and_one_shiftLeft_ne_zero (bits key : Nat) :
    (bits &&& (1 <<< key) != 0) = bits.testBit key := by
  rw [Nat.one_shiftLeft]
  cases h : bits.testBit key
  · have : bits &&& 2 ^ key = 0 := by
      apply Nat.eq_of_testBit_eq
      intro j
      rw [Nat.testBit_and, Nat.testBit_two_pow, Nat.zero_testBit]
      by_cases hj : key = j
      · subst hj; simp [h]
      · simp [hj]
    simp [this]
  · have : (bits &&& 2 ^ key).testBit key = true := by
      rw [Nat.testBit_and, Nat.testBit_two_pow]; simp [h]
    have hne : bits &&& 2 ^ key ≠ 0 := by
      intro h0; rw [h0, Nat.zero_testBit] at this; exact Bool.noConfusion this
    simp [hne]

theorem ADD_KEY_TO_MASK_testBit (key i bits nds j : Nat) (hi : i < 32)
    (hn : ∀ k, 32 ≤ k → nds.testBit k = false) :
    (ADD_KEY_TO_MASK key i bits nds).testBit j =
      if j = i then !bits.testBit key else nds.testBit j := by
  unfold ADD_KEY_TO_MASK
  rw [and_one_shiftLeft_ne_zero, Nat.one_shiftLeft]
  have hM : (4294967295 : Nat) = 2 ^ 32 - 1 := by norm_num
  cases hb : bits.testBit key
  · simp only [Bool.false_eq_true, if_false, Nat.testBit_or, Nat.testBit_two_pow]
    by_cases hj : j = i
    · subst hj; simp
    · have : ¬ i = j := fun h => hj h.symm
      simp [hj, this]
  · simp only [if_true, Nat.testBit_and, Nat.testBit_xor, Nat.testBit_two_pow, hM,
      Nat.testBit_two_pow_sub_one]
    by_cases hj : j = i
    · subst hj; simp [hi]
    · have hij : ¬ i = j := fun h => hj h.symm
      by_cases hlt : j < 32
      · simp [hj, hij, hlt]
      · simp [hj, hij, hlt, hn j (by omega)]

theorem ADD_KEY_TO_MASK_high (key i bits nds : Nat) (hi : i < 32)
    (hn : ∀ k, 32 ≤ k → nds.testBit k = false) :
    ∀ k, 32 ≤ k → (ADD_KEY_TO_MASK key i bits nds).testBit k = false := by
  intro k hk
  rw [ADD_KEY_TO_MASK_testBit key i bits nds k hi hn, if_neg (by omega)]
  exact hn k hk

theorem ndsKeyMask_testBit (bits j : Nat) :
    (ndsKeyMask bits).testBit j =
      (decide (j < 12) && !bits.testBit (buttonOfMaskBit j)) := by
  have h0 : ∀ k, 32 ≤ k → (0xFFF : Nat).testBit k = false := by
    intro k hk
    apply Nat.testBit_lt_two_pow
    calc (0xFFF : Nat) < 2 ^ 32 := by norm_num
      _ ≤ 2 ^ k := Nat.pow_le_pow_right (by norm_num) hk
  have h1 := ADD_KEY_TO_MASK_high RETRO_DEVICE_ID_JOYPAD_A 0 bits _ (by norm_num) h0
  have h2 := ADD_KEY_TO_MASK_high RETRO_DEVICE_ID_JOYPAD_B 1 bits _ (by norm_num) h1
  have h3 := ADD_KEY_TO_MASK_high RETRO_DEVICE_ID_JOYPAD_SELECT 2 bits _ (by norm_num) h2
  have h4 := ADD_KEY_TO_MASK_high RETRO_DEVICE_ID_JOYPAD_START 3 bits _ (by norm_num) h3
  have h5 := ADD_KEY_TO_MASK_high RETRO_DEVICE_ID_JOYPAD_RIGHT 4 bits _ (by norm_num) h4
  have h6 := ADD_KEY_TO_MASK_high RETRO_DEVICE_ID_JOYPAD_LEFT 5 bits _ (by norm_num) h5
  have h7 := ADD_KEY_TO_MASK_high RETRO_DEVICE_ID_JOYPAD_UP 6 bits _ (by norm_num) h6
  have h8 := ADD_KEY_TO_MASK_high RETRO_DEVICE_ID_JOYPAD_DOWN 7 bits _ (by norm_num) h7
  have h9 := ADD_KEY_TO_MASK_high RETRO_DEVICE_ID_JOYPAD_R 8 bits _ (by norm_num) h8
  have h10 := ADD_KEY_TO_MASK_high RETRO_DEVICE_ID_JOYPAD_L 9 bits _ (by norm_num) h9
  have h11 := ADD_KEY_TO_MASK_high RETRO_DEVICE_ID_JOYPAD_X 10 bits _ (by norm_num) h10
  simp only [ndsKeyMask]
  rw [ADD_KEY_TO_MASK_testBit _ _ _ _ _ (by norm_num) h11,
    ADD_KEY_TO_MASK_testBit _ _ _ _ _ (by norm_num) h10,
    ADD_KEY_TO_MASK_testBit _ _ _ _ _ (by norm_num) h9,
    ADD_KEY_TO_MASK_testBit _ _ _ _ _ (by norm_num) h8,
    ADD_KEY_TO_MASK_testBit _ _ _ _ _ (by norm_num) h7,
    ADD_KEY_TO_MASK_testBit _ _ _ _ _ (by norm_num) h6,
    ADD_KEY_TO_MASK_testBit _ _ _ _ _ (by norm_num) h5,
    ADD_KEY_TO_MASK_testBit _ _ _ _ _ (by norm_num) h4,
    ADD_KEY_TO_MASK_testBit _ _ _ _ _ (by norm_num) h3,
    ADD_KEY_TO_MASK_testBit _ _ _ _ _ (by norm_num) h2,
    ADD_KEY_TO_MASK_testBit _ _ _ _ _ (by norm_num) h1,
    ADD_KEY_TO_MASK_testBit _ _ _ _ _ (by norm_num) h0]
  by_cases hj : j < 12
  · interval_cases j <;> simp [buttonOfMaskBit]
  · have hf : (0xFFF : Nat).testBit j = false := by
      apply Nat.testBit_lt_two_pow
      calc (0xFFF : Nat) < 2 ^ 12 := by norm_num
        _ ≤ 2 ^ j := Nat.pow_le_pow_right (by norm_num) (by omega)
    have e : ∀ n : Nat, n < 12 → ¬ j = n := by intro n hn; omega
    simp [hj, hf, e]

theorem ndsKeyMask_congr (bits bits2 : Nat)
    (h : ∀ k, k < 12 → bits.testBit k = bits2.testBit k) :
    ndsKeyMask bits = ndsKeyMask bits2 := by
  apply Nat.eq_of_testBit_eq
  intro j
  rw [ndsKeyMask_testBit, ndsKeyMask_testBit]
  by_cases hj : j < 12
  · have hb : buttonOfMaskBit j < 12 := by
      interval_cases j <;> decide
    rw [h _ hb]
  · simp [hj]

theorem foldl_or_testBit (f : Nat → Bool) (l : List Nat) (k : Nat) :
    ∀ acc : Nat,
      (l.foldl (fun bits i => bits ||| (if f i then 1 <<< i else 0)) acc).testBit k =
        (acc.testBit k || (decide (k ∈ l) && f k)) := by
  induction l with
  | nil => intro acc; simp
  | cons i l ih =>
    intro acc
    rw [List.foldl_cons, ih, Nat.testBit_or]
    have hterm : (if f i then 1 <<< i else 0).testBit k = (f i && decide (i = k)) := by
      cases f i
      · simp
      · simp [Nat.one_shiftLeft, Nat.testBit_two_pow]
    rw [hterm]
    by_cases hik : i = k
    · subst hik
      cases acc.testBit i <;> cases f i <;> simp
    · have hki : ¬ k = i := fun h => hik h.symm
      cases acc.testBit k <;> cases f i <;> simp [hik, hki]

theorem pollJoypad_testBit (env : InputEnv) (k : Nat) :
    (pollJoypad env).testBit k =
      if env.supportsBitmasks then (decide (k < 32) && env.joypadMask.testBit k)
      else (decide (k < 16) && env.joypadButton k) := by
  unfold pollJoypad
  split
  · have h : (4294967296 : Nat) = 2 ^ 32 := by norm_num
    rw [h, Nat.testBit_mod_two_pow]
  · rw [foldl_or_testBit]
    simp [RETRO_DEVICE_ID_JOYPAD_R3]

theorem pollJoypad_pressed (env : InputEnv) (k : Nat) (hk : k < 16) :
    (pollJoypad env).testBit k = env.pressed k := by
  rw [pollJoypad_testBit, InputEnv.pressed]
  have h32 : k < 32 := by omega
  split <;> simp [hk, h32]

/-- C16: the key mask `InputState::Update` passes to `NDS::SetKeyMask` is the
first call of `HandleInput` and is computed from the joypad bits alone. The
joypad bits are what the frontend reports: bit `k` is bit `k` of the bitmask
(for `k < 32`) where the frontend supports bitmasks, else the answer to the
query for button `k` (for `k < 16`, and clear above). So bit `i` of the mask
`HandleInput` sets is clear exactly when the frontend reports the button
paired with `i` as pressed (A 0, B 1, Select 2, Start 3, Right 4, Left 5,
Up 6, Down 7, R 8, L 9, X 10, Y 11), the mask is below 2^12, it is 0xFFF when
none of the twelve buttons is pressed, and two frames that agree on the twelve
buttons give the same mask whatever L2, R2, L3 and R3 are. For every value of
the joypad bits the mask is below 2^12, bit `i` of the mask is clear exactly
when the bit of the libretro button paired with `i` is set, the mask is 0xFFF
when no bit is set, and two values of the joypad bits that agree on the bits 0
to 11 (so differ at most in L2, R2, L3, R3 and the bits above) give the same
mask; flipping the bit of L2, R2, L3 or R3 does not change the mask. -/
theorem key_mask_is_active_low_twelve_bits :
    (∀ (env : InputEnv) (screenLayout : ScreenLayoutData) (st : InputState),
      (st.Update env screenLayout).2 = ndsKeyMask (pollJoypad env) ∧
      (HandleInput env st screenLayout).calls.head? =
        some (InputCall.SetKeyMask (ndsKeyMask (pollJoypad env)))) ∧
    (∀ bits : Nat,
      ndsKeyMask bits < 4096 ∧
      (∀ j, 12 ≤ j → (ndsKeyMask bits).testBit j = false) ∧
      (ndsKeyMask bits).testBit 0 = !bits.testBit RETRO_DEVICE_ID_JOYPAD_A ∧
      (ndsKeyMask bits).testBit 1 = !bits.testBit RETRO_DEVICE_ID_JOYPAD_B ∧
      (ndsKeyMask bits).testBit 2 = !bits.testBit RETRO_DEVICE_ID_JOYPAD_SELECT ∧
      (ndsKeyMask bits).testBit 3 = !bits.testBit RETRO_DEVICE_ID_JOYPAD_START ∧
      (ndsKeyMask bits).testBit 4 = !bits.testBit RETRO_DEVICE_ID_JOYPAD_RIGHT ∧
      (ndsKeyMask bits).testBit 5 = !bits.testBit RETRO_DEVICE_ID_JOYPAD_LEFT ∧
      (ndsKeyMask bits).testBit 6 = !bits.testBit RETRO_DEVICE_ID_JOYPAD_UP ∧
      (ndsKeyMask bits).testBit 7 = !bits.testBit RETRO_DEVICE_ID_JOYPAD_DOWN ∧
      (ndsKeyMask bits).testBit 8 = !bits.testBit RETRO_DEVICE_ID_JOYPAD_R ∧
      (ndsKeyMask bits).testBit 9 = !bits.testBit RETRO_DEVICE_ID_JOYPAD_L ∧
      (ndsKeyMask bits).testBit 10 = !bits.testBit RETRO_DEVICE_ID_JOYPAD_X ∧
      (ndsKeyMask bits).testBit 11 = !bits.testBit RETRO_DEVICE_ID_JOYPAD_Y) ∧
    ndsKeyMask 0 = 0xFFF ∧
    (∀ bits bits2 : Nat, (∀ k, k < 12 → bits.testBit k = bits2.testBit k) →
      ndsKeyMask bits = ndsKeyMask bits2) ∧
    (∀ bits : Nat,
      ndsKeyMask (bits ^^^ (1 <<< RETRO_DEVICE_ID_JOYPAD_L2)) = ndsKeyMask bits ∧
      ndsKeyMask (bits ^^^ (1 <<< RETRO_DEVICE_ID_JOYPAD_R2)) = ndsKeyMask bits ∧
      ndsKeyMask (bits ^^^ (1 <<< RETRO_DEVICE_ID_JOYPAD_L3)) = ndsKeyMask bits ∧
      ndsKeyMask (bits ^^^ (1 <<< RETRO_DEVICE_ID_JOYPAD_R3)) = ndsKeyMask bits) ∧
    (∀ (env : InputEnv) (k : Nat),
      (pollJoypad env).testBit k =
        if env.supportsBitmasks then (decide (k < 32) && env.joypadMask.testBit k)
        else (decide (k < 16) && env.joypadButton k)) ∧
    (∀ (env : InputEnv) (screenLayout : ScreenLayoutData) (st : InputState),
      ∃ mask : Nat,
        (HandleInput env st screenLayout).calls.head? = some (InputCall.SetKeyMask mask) ∧
        mask < 4096 ∧
        mask.testBit 0 = !env.pressed RETRO_DEVICE_ID_JOYPAD_A ∧
        mask.testBit 1 = !env.pressed RETRO_DEVICE_ID_JOYPAD_B ∧
        mask.testBit 2 = !env.pressed RETRO_DEVICE_ID_JOYPAD_SELECT ∧
        mask.testBit 3 = !env.pressed RETRO_DEVICE_ID_JOYPAD_START ∧
        mask.testBit 4 = !env.pressed RETRO_DEVICE_ID_JOYPAD_RIGHT ∧
        mask.testBit 5 = !env.pressed RETRO_DEVICE_ID_JOYPAD_LEFT ∧
        mask.testBit 6 = !env.pressed RETRO_DEVICE_ID_JOYPAD_UP ∧
        mask.testBit 7 = !env.pressed RETRO_DEVICE_ID_JOYPAD_DOWN ∧
        mask.testBit 8 = !env.pressed RETRO_DEVICE_ID_JOYPAD_R ∧
        mask.testBit 9 = !env.pressed RETRO_DEVICE_ID_JOYPAD_L ∧
        mask.testBit 10 = !env.pressed RETRO_DEVICE_ID_JOYPAD_X ∧
        mask.testBit 11 = !env.pressed RETRO_DEVICE_ID_JOYPAD_Y ∧
        ((∀ k, k < 12 → env.pressed k = false) → mask = 0xFFF)) ∧
    (∀ (env env2 : InputEnv) (screenLayout screenLayout2 : ScreenLayoutData)
        (st st2 : InputState),
      (∀ k, k < 12 → env.pressed k = env2.pressed k) →
      (HandleInput env st screenLayout).calls.head? =
        (HandleInput env2 st2 screenLayout2).calls.head?) := by
  have hhead : ∀ (env : InputEnv) (screenLayout : ScreenLayoutData) (st : InputState),
      (HandleInput env st screenLayout).calls.head? =
        some (InputCall.SetKeyMask (ndsKeyMask (pollJoypad env))) := by
    intro env screenLayout st
    simp only [HandleInput]
    repeat' split
    all_goals rfl
  have hbit : ∀ (env : InputEnv) (i : Nat), i < 12 →
      (ndsKeyMask (pollJoypad env)).testBit i = !env.pressed (buttonOfMaskBit i) := by
    intro env i hi
    have hb : buttonOfMaskBit i < 16 := by
      interval_cases i <;> decide
    rw [ndsKeyMask_testBit, pollJoypad_pressed env _ hb]
    simp [hi]
  have hlt : ∀ bits : Nat, ndsKeyMask bits < 4096 := by
    intro bits
    show ndsKeyMask bits < 2 ^ 12
    apply Nat.lt_pow_two_of_testBit
    intro j hj
    rw [ndsKeyMask_testBit]
    have : ¬ j < 12 := by
      intro hlt
      have := Nat.pow_lt_pow_right (a := 2) (by norm_num) hlt
      omega
    simp [this]
  have hsame : ∀ env env2 : InputEnv, (∀ k, k < 12 → env.pressed k = env2.pressed k) →
      ndsKeyMask (pollJoypad env) = ndsKeyMask (pollJoypad env2) := by
    intro env env2 h
    apply ndsKeyMask_congr
    intro k hk
    rw [pollJoypad_pressed env k (by omega), pollJoypad_pressed env2 k (by omega), h k hk]
  have hflip : ∀ bits n : Nat, 12 ≤ n → ndsKeyMask (bits ^^^ (1 <<< n)) = ndsKeyMask bits := by
    intro bits n hn
    apply ndsKeyMask_congr
    intro k hk
    rw [Nat.testBit_xor, Nat.one_shiftLeft, Nat.testBit_two_pow]
    have : ¬ n = k := by omega
    simp [this]
  refine ⟨?_, ?_, ?_, ndsKeyMask_congr, ?_, pollJoypad_testBit, ?_, ?_⟩
  · intro env screenLayout st
    exact ⟨rfl, hhead env screenLayout st⟩
  · intro bits
    refine ⟨?_, ?_, ?_⟩
    · show ndsKeyMask bits < 2 ^ 12
      apply Nat.lt_pow_two_of_testBit
      intro j hj
      rw [ndsKeyMask_testBit]
      have : ¬ j < 12 := by
        intro hlt
        have := Nat.pow_lt_pow_right (a := 2) (by norm_num) hlt
        omega
      simp [this]
    · intro j hj
      rw [ndsKeyMask_testBit]
      have : ¬ j < 12 := by omega
      simp [this]
    · refine ⟨?_, ?_, ?_, ?_, ?_, ?_, ?_, ?_, ?_, ?_, ?_, ?_⟩ <;>
        (rw [ndsKeyMask_testBit]; rfl)
  · decide
  · intro bits
    exact ⟨hflip bits _ (by decide), hflip bits _ (by decide), hflip bits _ (by decide),
      hflip bits _ (by decide)⟩
  · intro env screenLayout st
    refine ⟨_, hhead env screenLayout st, hlt _, hbit env 0 (by decide), hbit env 1 (by decide),
      hbit env 2 (by decide), hbit env 3 (by decide), hbit env 4 (by decide),
      hbit env 5 (by decide), hbit env 6 (by decide), hbit env 7 (by decide),
      hbit env 8 (by decide), hbit env 9 (by decide), hbit env 10 (by decide),
      hbit env 11 (by decide), ?_⟩
    intro hnone
    have h0 : ndsKeyMask (pollJoypad env) = ndsKeyMask 0 := by
      apply ndsKeyMask_congr
      intro k hk
      rw [pollJoypad_pressed env k (by omega), hnone k hk, Nat.zero_testBit]
    rw [h0]
    decide
  · intro env env2 screenLayout screenLayout2 st st2 h
    rw [hhead, hhead, hsame env env2 h]

theorem clampToScreen_bounds (p : Int × Int) :
    (clampToScreen p).1 ≤ 255 ∧ (clampToScreen p).2 ≤ 191 ∧
    ((clampToScreen p).1 : Int) = clamp p.1 0 255 ∧
    ((clampToScreen p).2 : Int) = clamp p.2 0 191 := by
  simp only [clampToScreen, clamp, NDS_SCREEN_WIDTH, NDS_SCREEN_HEIGHT]
  omega

theorem clampedTouch_eq (st : InputState) (screenLayout : ScreenLayoutData) :
    ∃ p : Int × Int, clampedTouch st screenLayout = clampToScreen p := by
  simp only [clampedTouch]
  repeat' split
  all_goals exact ⟨_, rfl⟩

/-- C17: whenever `HandleInput` calls `NDS::TouchScreen x y`, for every
layout, input state and frame of input, the coordinates satisfy
`0 ≤ x ≤ 255` and `0 ≤ y ≤ 191`, and they are the clamped components of a
position, unchanged by the conversion to `unsigned`. -/
theorem touch_screen_coordinates_in_bounds (env : InputEnv) (st : InputState)
    (screenLayout : ScreenLayoutData) (x y : Nat)
    (h : InputCall.TouchScreen x y ∈ (HandleInput env st screenLayout).calls) :
    (0 : Int) ≤ x ∧ x ≤ 255 ∧ (0 : Int) ≤ y ∧ y ≤ 191 ∧
    ∃ p : Int × Int, (x : Int) = clamp p.1 0 255 ∧ (y : Int) = clamp p.2 0 191 := by
  have key : ∃ p : Int × Int, (x, y) = clampToScreen p := by
    simp only [HandleInput] at h
    repeat' split at h
    all_goals simp at h
    all_goals
      obtain ⟨p, hp⟩ := clampedTouch_eq _ _
      exact ⟨p, by rw [← hp, h.1, h.2]⟩
  obtain ⟨p, hp⟩ := key
  have hb := clampToScreen_bounds p
  rw [← hp] at hb
  exact ⟨Int.ofNat_nonneg _, hb.1, Int.ofNat_nonneg _, hb.2.1, p, hb.2.2.1, hb.2.2.2⟩

/-- Witness of `touch_screen_coordinates_in_bounds`: a touch far outside the
screen, left of it and below it, is reported at the corner (0, 191). -/
theorem touch_screen_coordinates_in_bounds_witness :
    InputCall.TouchScreen 0 191 ∈
      (HandleInput (InputEnv.touchAt (-1000, 5000) (0, 0)) InputState.idle
        ScreenLayoutData.topBottom).calls ∧
    ((0 : Int) ≤ (0 : Nat) ∧ 0 ≤ 255 ∧ (0 : Int) ≤ (191 : Nat) ∧ 191 ≤ 191 ∧
      ∃ p : Int × Int, ((0 : Nat) : Int) = clamp p.1 0 255 ∧
        ((191 : Nat) : Int) = clamp p.2 0 191) :=
  ⟨by decide!,
    touch_screen_coordinates_in_bounds (InputEnv.touchAt (-1000, 5000) (0, 0)) InputState.idle
      ScreenLayoutData.topBottom 0 191 (by decide!)⟩

/-- C18: in the layout HybridBottom with the touch screen shown in both
positions, `HandleInput` uses the hybrid touch position for a touch on the
left edge of the touch screen: with the touch at (0, 100) and the hybrid
position (50, 60) it calls `NDS::TouchScreen 50 60`. In general, in that
layout the hybrid position is used when the touch screen is shown only in the
hybrid position or the touch is not strictly inside the screen
(`0 < x < 256` and `0 < y < 192` fails), and the touch position otherwise. -/
theorem hybrid_position_used_on_screen_edge :
    (HandleInput (InputEnv.touchAt (0, 100) (50, 60)) InputState.idle
        ScreenLayoutData.hybridBoth).calls =
      [InputCall.SetKeyMask 0xFFF, InputCall.TouchScreen 50 60] ∧
    (∀ (st : InputState) (screenLayout : ScreenLayoutData),
      screenLayout.layout = ScreenLayout.HybridBottom →
      clampedTouch st screenLayout =
        if screenLayout.hybridSmallScreenLayout = HybridSideScreenDisplay.One ∨
            ¬ (0 < st.touch.1 ∧ st.touch.1 < 256 ∧ 0 < st.touch.2 ∧ st.touch.2 < 192) then
          clampToScreen st.hybridTouch
        else clampToScreen st.touch) := by
  refine ⟨by decide!, ?_⟩
  intro st screenLayout hl
  simp only [clampedTouch, hl, IsInNdsScreenBounds, openBounded, NDS_SCREEN_WIDTH,
    NDS_SCREEN_HEIGHT, InputState.TouchPosition, InputState.HybridTouchPosition]
  by_cases h1 : screenLayout.hybridSmallScreenLayout = HybridSideScreenDisplay.One
  · simp [h1]
  · by_cases h2 : 0 < st.touch.1 ∧ st.touch.1 < 256 ∧ 0 < st.touch.2 ∧ st.touch.2 < 192
    · simp [h1, h2]
    · simp only [h1, false_or, if_false, h2, not_false_eq_true, if_true]
      rw [if_pos]
      simp only [Bool.not_eq_true', Bool.and_eq_false_iff, decide_eq_false_iff_not]
      by_contra hc
      apply h2
      simp only [not_or, not_not] at hc
      exact ⟨hc.1.1, hc.1.2, hc.2.1, hc.2.2⟩

/-- C19: in Toggle mode with the toggled state off and the button not
pressed, `read_microphone` feeds the configured noise, not silence: with the
blow noise configured, from the state after startup, the only call is
`Frontend::Mic_FeedNoise`; the same holds for every state with the toggled
state off. In Hold mode with the button not held, and with the host microphone
selected while it is unavailable or off, the last call is
`Frontend::Mic_FeedSilence` and no noise or host samples are fed. -/
theorem toggled_off_microphone_feeds_noise :
    (read_microphone Env.toggleBlow Core.boot).calls = [Call.Mic_FeedNoise] ∧
    (∀ (e : Env) (s : Core), e.micButtonMode = MicButtonMode.Toggle →
      e.micButtonPressed = false → s.mic_state_toggled = false →
      e.micInputMode = MicInputMode.BlowNoise →
      (read_microphone e s).calls =
        (if e.micOpen then s.calls ++ [Call.microphone_set_state false] else s.calls) ++
          [Call.Mic_FeedNoise]) ∧
    (∀ (e : Env) (s : Core), e.micButtonMode = MicButtonMode.Hold →
      e.micButtonDown = false →
      (read_microphone e s).calls =
        (if e.micOpen then s.calls ++ [Call.microphone_set_state false] else s.calls) ++
          [Call.Mic_FeedSilence]) ∧
    (∀ (e : Env) (s : Core), e.micInputMode = MicInputMode.HostMic →
      e.micState ≠ some true →
      ∃ state : Bool, (read_microphone e s).calls =
        (if e.micOpen then s.calls ++ [Call.microphone_set_state state] else s.calls) ++
          [Call.Mic_FeedSilence]) := by
  refine ⟨by decide!, ?_, ?_, ?_⟩
  · intro e s hm hp ht hi
    simp only [read_microphone, hm, hp, ht, hi]
    cases e.micOpen <;> simp [emit]
  · intro e s hm hd
    simp only [read_microphone, hm, hd]
    cases e.micOpen <;> simp [emit]
  · intro e s hi hs
    simp only [read_microphone, hi]
    cases hmode : e.micButtonMode <;> cases hd : e.micButtonDown <;>
      cases hp : e.micButtonPressed <;> cases ht : s.mic_state_toggled <;>
      cases ho : e.micOpen <;> simp [emit, hs]

/-! ### Flush timers -/

theorem filter_eraseTimer (l : List (FileHandle × Int)) (g a : FileHandle) :
    (eraseTimer l g).filter (fun p => p.1 == a) =
      if g = a then [] else l.filter (fun p => p.1 == a) := by
  unfold eraseTimer
  rw [List.filter_filter]
  split
  · rename_i h
    subst h
    apply List.filter_eq_nil_iff.2
    intro p _
    simp
  · rename_i h
    apply List.filter_congr
    intro p _
    by_cases hp : p.1 = a
    · simp [hp, Ne.symm h]
    · simp [hp]

theorem filter_foldl_eraseTimer (ts : List FileHandle) (a : FileHandle) :
    ∀ l : List (FileHandle × Int),
      (ts.foldl eraseTimer l).filter (fun p => p.1 == a) =
        if a ∈ ts then [] else l.filter (fun p => p.1 == a) := by
  induction ts with
  | nil => intro l; simp
  | cons t ts ih =>
    intro l
    rw [List.foldl_cons, ih, filter_eraseTimer]
    by_cases h1 : a ∈ ts
    · simp [h1]
    · by_cases h2 : t = a
      · simp [h2]
      · simp [h1, h2, Ne.symm h2]

theorem count_map_fst (l : List (FileHandle × Int)) (a : FileHandle) :
    (l.map Prod.fst).count a = (l.filter (fun p => p.1 == a)).length := by
  induction l with
  | nil => rfl
  | cons p l ih =>
    rw [List.map_cons, List.count_cons, ih, List.filter_cons]
    by_cases hp : p.1 = a
    · simp [hp]
    · simp [hp]

/-- One tick of `FlushTask` on the entries of one file. -/
theorem flushTick_entries (w : World) (a : FileHandle) :
    let E := (w.flushTimers.filter (fun p => p.1 == a)).map (fun p => (p.1, p.2 - 1))
    (flushTick w).flushTimers.filter (fun p => p.1 == a) =
        (if (E.filter (fun p => p.2 == 0)).length = 0 then E else []) ∧
      flushesOf (flushTick w) a = flushesOf w a + (E.filter (fun p => p.2 == 0)).length := by
  intro E
  have hE : (w.flushTimers.map (fun p => (p.1, p.2 - 1))).filter (fun p => p.1 == a) = E := by
    rw [List.filter_map]
    rfl
  have hcount : (((w.flushTimers.map (fun p => (p.1, p.2 - 1))).filter
      (fun p => p.2 == 0)).map Prod.fst).count a = (E.filter (fun p => p.2 == 0)).length := by
    rw [count_map_fst, List.filter_comm, hE]
  have hmem : a ∈ ((w.flushTimers.map (fun p => (p.1, p.2 - 1))).filter
      (fun p => p.2 == 0)).map Prod.fst ↔ ¬ (E.filter (fun p => p.2 == 0)).length = 0 := by
    rw [← hcount, ← List.count_pos_iff]
    omega
  constructor
  · simp only [flushTick]
    rw [filter_foldl_eraseTimer, hE]
    by_cases h0 : (E.filter (fun p => p.2 == 0)).length = 0
    · rw [if_neg (fun hm => hmem.1 hm h0), if_pos h0]
    · rw [if_pos (hmem.2 h0), if_neg h0]
  · simp only [flushesOf, flushTick]
    rw [List.count_append, hcount]

theorem timersOf_eq_nil (w : World) (a : FileHandle) :
    timersOf w a = [] ↔ w.flushTimers.filter (fun p => p.1 == a) = [] := by
  simp [timersOf]

theorem timersOf_eq_single (w : World) (a : FileHandle) (v : Int) :
    timersOf w a = [v] ↔ w.flushTimers.filter (fun p => p.1 == a) = [(a, v)] := by
  unfold timersOf
  constructor
  · intro h
    have hall : ∀ p ∈ w.flushTimers.filter (fun p => p.1 == a), p.1 = a := by
      intro p hp
      simpa using (List.mem_filter.1 hp).2
    generalize w.flushTimers.filter (fun p => p.1 == a) = L at h hall
    cases L with
    | nil => simp at h
    | cons p t =>
      cases t with
      | nil =>
        have hp := hall p (List.mem_cons_self _ _)
        simp only [List.map_cons, List.map_nil, List.cons.injEq, and_true] at h
        cases p
        simp_all
      | cons q t => simp at h
  · intro h
    rw [h]
    rfl

/-- A tick of `FlushTask` that is not cancelled, on a file with one timer. -/
theorem tick_single (w : World) (a : FileHandle) (v : Int) (h : timersOf w a = [v]) :
    timersOf (flushTick w) a = (if v - 1 = 0 then [] else [v - 1]) ∧
      flushesOf (flushTick w) a = flushesOf w a + (if v - 1 = 0 then 1 else 0) := by
  have hE := (timersOf_eq_single w a v).1 h
  have ht := flushTick_entries w a
  simp only [hE, List.map_cons, List.map_nil] at ht
  obtain ⟨ht1, ht2⟩ := ht
  unfold timersOf
  rw [ht1, ht2]
  by_cases hv : v - 1 = 0
  · simp [hv, List.filter_cons]
  · simp [hv, List.filter_cons]

/-- A tick of `FlushTask` on a file without timer. -/
theorem tick_none (w : World) (a : FileHandle) (h : timersOf w a = []) :
    timersOf (flushTick w) a = [] ∧ flushesOf (flushTick w) a = flushesOf w a := by
  have hE := (timersOf_eq_nil w a).1 h
  have ht := flushTick_entries w a
  simp only [hE, List.map_nil] at ht
  obtain ⟨ht1, ht2⟩ := ht
  unfold timersOf
  rw [ht1, ht2]
  simp

/-- An event that is not a tick and does not touch the file leaves its timers
and its flushes as they are. -/
theorem apply_leaves (op : FileOp) (w : World) (a : FileHandle) (hl : op.leaves a = true)
    (ht : op.isTick = false) :
    timersOf (op.apply w) a = timersOf w a ∧ flushesOf (op.apply w) a = flushesOf w a := by
  cases op with
  | tick task =>
    have hc : task.cancelled = true := by simpa [FileOp.isTick] using ht
    simp [FileOp.apply, file.FlushTask.action, hc]
  | write data f delay =>
    cases f with
    | none => simp [FileOp.apply, Platform.FileWrite]
    | some h =>
      have hne : ¬ h.address = a := by simpa [FileOp.leaves, FileOp.file] using hl
      simp only [FileOp.apply, Platform.FileWrite]
      repeat' split
      all_goals simp [timersOf, flushesOf, setTimer, List.filter_cons, hne, filter_eraseTimer]
  | close ok f =>
    cases f with
    | none => simp [FileOp.apply, Platform.CloseFile]
    | some h =>
      have hne : ¬ h.address = a := by simpa [FileOp.leaves, FileOp.file] using hl
      simp [FileOp.apply, Platform.CloseFile, timersOf, flushesOf, filter_eraseTimer, hne]

/-- An event that uses no handle with the frequent-access hint at the address
of a file without timer leaves the file without timer and does not flush
it. -/
theorem apply_none (op : FileOp) (w : World) (a : FileHandle)
    (hop : ∀ h, op.file = some h → h.address = a →
      h.hints &&& RETRO_VFS_FILE_ACCESS_HINT_FREQUENT_ACCESS = 0)
    (hw : timersOf w a = []) :
    timersOf (op.apply w) a = [] ∧ flushesOf (op.apply w) a = flushesOf w a := by
  cases op with
  | tick task =>
    cases hc : task.cancelled
    · have := tick_none w a hw
      simpa [FileOp.apply, file.FlushTask.action, hc] using this
    · simp [FileOp.apply, file.FlushTask.action, hc, hw]
  | write data f delay =>
    cases f with
    | none => simp [FileOp.apply, Platform.FileWrite, hw]
    | some h =>
      simp only [FileOp.apply, Platform.FileWrite]
      by_cases hd : data = true
      · by_cases hh : h.hints &&& RETRO_VFS_FILE_ACCESS_HINT_FREQUENT_ACCESS = 0
        · simp [hd, hh, hw]
        · have hne : ¬ h.address = a := fun e => hh (hop h rfl e)
          have hw2 := (timersOf_eq_nil w a).1 hw
          simp [hd, hh, timersOf, flushesOf, setTimer, List.filter_cons, hne,
            filter_eraseTimer, hw2]
      · simp [hd, hw]
  | close ok f =>
    cases f with
    | none => simp [FileOp.apply, Platform.CloseFile, hw]
    | some h =>
      have hw2 := (timersOf_eq_nil w a).1 hw
      by_cases hne : h.address = a
      · simp [FileOp.apply, Platform.CloseFile, timersOf, flushesOf, filter_eraseTimer, hne]
      · simp [FileOp.apply, Platform.CloseFile, timersOf, flushesOf, filter_eraseTimer, hne,
          hw2]

theorem runFileOps_none (a : FileHandle) :
    ∀ (ops : List FileOp) (w : World),
      (∀ op ∈ ops, ∀ h, op.file = some h → h.address = a →
        h.hints &&& RETRO_VFS_FILE_ACCESS_HINT_FREQUENT_ACCESS = 0) →
      timersOf w a = [] →
      timersOf (runFileOps ops w) a = [] ∧ flushesOf (runFileOps ops w) a = flushesOf w a := by
  intro ops
  induction ops with
  | nil => intro w _ hw; exact ⟨hw, rfl⟩
  | cons op ops ih =>
    intro w hops hw
    have h1 := apply_none op w a (hops op (List.mem_cons_self _ _)) hw
    have h2 := ih (op.apply w) (fun o ho => hops o (List.mem_cons_of_mem _ ho)) h1.1
    exact ⟨h2.1, h2.2.trans h1.2⟩

theorem leaves_no_hint (a : FileHandle) (op : FileOp) (hl : op.leaves a = true) :
    ∀ h, op.file = some h → h.address = a →
      h.hints &&& RETRO_VFS_FILE_ACCESS_HINT_FREQUENT_ACCESS = 0 := by
  intro h hf ha
  simp [FileOp.leaves, hf, ha] at hl

theorem runFileOps_countdown (a : FileHandle) :
    ∀ (ops : List FileOp) (w : World) (v : Int), 1 ≤ v →
      (∀ op ∈ ops, op.leaves a = true) → timersOf w a = [v] →
      timersOf (runFileOps ops w) a =
          (if (ticksIn ops : Int) < v then [v - ticksIn ops] else []) ∧
        flushesOf (runFileOps ops w) a =
          flushesOf w a + (if (ticksIn ops : Int) < v then 0 else 1) := by
  intro ops
  induction ops with
  | nil =>
    intro w v hv _ hw
    have : (0 : Int) < v := by omega
    simp [runFileOps, ticksIn, hw, this]
  | cons op ops ih =>
    intro w v hv hops hw
    have hl := hops op (List.mem_cons_self _ _)
    have hrest : ∀ o ∈ ops, o.leaves a = true := fun o ho => hops o (List.mem_cons_of_mem _ ho)
    cases ht : op.isTick
    · have h1 := apply_leaves op w a hl ht
      have h2 := ih (op.apply w) v hv hrest (h1.1.trans hw)
      have hk : ticksIn (op :: ops) = ticksIn ops := by simp [ticksIn, List.countP_cons, ht]
      rw [hk]
      exact ⟨h2.1, h2.2.trans (by rw [h1.2])⟩
    · have hk : ticksIn (op :: ops) = ticksIn ops + 1 := by
        simp [ticksIn, List.countP_cons, ht]
      obtain ⟨task, rfl, hc⟩ : ∃ task, op = FileOp.tick task ∧ task.cancelled = false := by
        cases op with
        | tick task => exact ⟨task, rfl, by simpa [FileOp.isTick] using ht⟩
        | write _ _ _ => simp [FileOp.isTick] at ht
        | close _ _ => simp [FileOp.isTick] at ht
      have happ : (FileOp.tick task).apply w = flushTick w := by
        simp [FileOp.apply, file.FlushTask.action, hc]
      have h1 := tick_single w a v hw
      rw [hk]
      show timersOf (runFileOps ops ((FileOp.tick task).apply w)) a = _ ∧
        flushesOf (runFileOps ops ((FileOp.tick task).apply w)) a = _
      rw [happ]
      by_cases hv1 : v - 1 = 0
      · rw [if_pos hv1] at h1
        rw [if_pos hv1] at h1
        have h2 := runFileOps_none a ops (flushTick w)
          (fun o ho => leaves_no_hint a o (hrest o ho)) h1.1
        have hn : ¬ ((ticksIn ops + 1 : Nat) : Int) < v := by omega
        rw [if_neg hn, if_neg hn]
        exact ⟨h2.1, h2.2.trans h1.2⟩
      · rw [if_neg hv1] at h1
        rw [if_neg hv1] at h1
        have h2 := ih (flushTick w) (v - 1) (by omega) hrest h1.1
        rw [h2.1, h2.2, h1.2]
        by_cases hlt : (ticksIn ops : Int) < v - 1
        · have hlt2 : ((ticksIn ops + 1 : Nat) : Int) < v := by omega
          rw [if_pos hlt, if_pos hlt, if_pos hlt2, if_pos hlt2]
          refine ⟨?_, rfl⟩
          congr 1
          omega
        · have hlt2 : ¬ ((ticksIn ops + 1 : Nat) : Int) < v := by omega
          rw [if_neg hlt, if_neg hlt, if_neg hlt2, if_neg hlt2]
          exact ⟨rfl, rfl⟩

theorem OpenFile_hints (env : OpenEnv) (path : String) (mode : FileMode)
    (f : Platform.FileHandle) (h : Platform.OpenFile env path mode = some f) :
    f.hints = GetRetroVfsFileAccessHints path := by
  simp only [Platform.OpenFile] at h
  repeat' split at h
  all_goals simp at h
  rw [← h]

/-- C20: for a file opened from a path that ends in `.bin`, and a flush delay
`d ≥ 1`, a `FileWrite` sets the timer of the file to `d`. After any later
events that neither write to nor close that file, of which `k` are ticks of
`FlushTask` that are not cancelled: while `k < d` the timer of the file is
`d - k` and the file has not been flushed since the write; from `k = d` on the
file has no timer and has been flushed exactly once since the write.
`CloseFile` leaves the closed file without timer. A file opened from a path
that does not end in `.bin` carries no hint, a `FileWrite` to it leaves the
world as it is, and while it has no timer no sequence of events that uses its
address only with its own hints gives it one. -/
theorem flush_timer_counts_down_from_last_write (env : OpenEnv) (path : String)
    (mode : FileMode) (f : Platform.FileHandle) (d : Int) (ops : List FileOp) (w : World)
    (hopen : Platform.OpenFile env path mode = some f)
    (hbin : string_ends_with path ".bin" = true) (hd : 1 ≤ d)
    (hops : ∀ op ∈ ops, op.leaves f.address = true) :
    timersOf (Platform.FileWrite true (some f) d w) f.address = [d] ∧
    timersOf (runFileOps ops (Platform.FileWrite true (some f) d w)) f.address =
      (if (ticksIn ops : Int) < d then [d - ticksIn ops] else []) ∧
    flushesOf (runFileOps ops (Platform.FileWrite true (some f) d w)) f.address =
      flushesOf w f.address + (if (ticksIn ops : Int) < d then 0 else 1) ∧
    (∀ (ok : Bool) (w2 : World),
      timersOf (Platform.CloseFile ok (some f) w2).1 f.address = []) ∧
    (∀ (env2 : OpenEnv) (path2 : String) (mode2 : FileMode) (g : Platform.FileHandle),
      Platform.OpenFile env2 path2 mode2 = some g → string_ends_with path2 ".bin" = false →
      g.hints = RETRO_VFS_FILE_ACCESS_HINT_NONE ∧
      (∀ (data : Bool) (delay : Int) (w2 : World),
        Platform.FileWrite data (some g) delay w2 = w2) ∧
      (∀ (ops2 : List FileOp) (w2 : World), timersOf w2 g.address = [] →
        (∀ op ∈ ops2, ∀ h, op.file = some h → h.address = g.address → h.hints = g.hints) →
        timersOf (runFileOps ops2 w2) g.address = [])) := by
  have hh : f.hints = RETRO_VFS_FILE_ACCESS_HINT_FREQUENT_ACCESS := by
    rw [OpenFile_hints env path mode f hopen, GetRetroVfsFileAccessHints, if_pos hbin]
  have hw1 : timersOf (Platform.FileWrite true (some f) d w) f.address = [d] := by
    simp [Platform.FileWrite, hh, RETRO_VFS_FILE_ACCESS_HINT_FREQUENT_ACCESS, timersOf,
      setTimer, filter_eraseTimer]
  have hf1 : flushesOf (Platform.FileWrite true (some f) d w) f.address =
      flushesOf w f.address := by
    simp [Platform.FileWrite, hh, RETRO_VFS_FILE_ACCESS_HINT_FREQUENT_ACCESS, flushesOf]
  have hc := runFileOps_countdown f.address ops _ d hd hops hw1
  refine ⟨hw1, hc.1, by rw [hc.2, hf1], ?_, ?_⟩
  · intro ok w2
    simp [Platform.CloseFile, timersOf, filter_eraseTimer]
  · intro env2 path2 mode2 g hopen2 hbin2
    have hg : g.hints = RETRO_VFS_FILE_ACCESS_HINT_NONE := by
      rw [OpenFile_hints env2 path2 mode2 g hopen2, GetRetroVfsFileAccessHints, hbin2]
      rfl
    refine ⟨hg, ?_, ?_⟩
    · intro data delay w2
      simp [Platform.FileWrite, hg, RETRO_VFS_FILE_ACCESS_HINT_NONE]
    · intro ops2 w2 hw2 hops2
      refine (runFileOps_none g.address ops2 w2 ?_ hw2).1
      intro op hop h hfile haddr
      rw [hops2 op hop h hfile haddr, hg]
      rfl

/-- Witness of `flush_timer_counts_down_from_last_write`: the file `save.bin`
is written with a delay of 3 frames; four ticks later, with a write to and a
close of another file in between, it has no timer and has been flushed
once. -/
theorem flush_timer_counts_down_from_last_write_witness :
    timersOf (runFileOps fourTicks
        (Platform.FileWrite true (some Platform.FileHandle.save) 3 World.idle)) 7 = [] ∧
    flushesOf (runFileOps fourTicks
        (Platform.FileWrite true (some Platform.FileHandle.save) 3 World.idle)) 7 = 1 :=
  have h := flush_timer_counts_down_from_last_write OpenEnv.seven "save.bin"
    FileMode.readWrite Platform.FileHandle.save 3 fourTicks World.idle (by decide)
    (by decide) (by decide) (by decide)
  ⟨h.2.1, h.2.2.1⟩

/-! ### Save data -/

theorem adds_refl (p : Prop) (c : Call) (s : Core) : Adds p c s s :=
  ⟨rfl, rfl, rfl, fun h => absurd rfl h⟩

theorem adds_mono (p q : Prop) (c : Call) (s t : Core) (hpq : p → q) (h : Adds p c s t) :
    Adds q c s t :=
  ⟨h.1, h.2.1, h.2.2.1, fun hc => hpq (h.2.2.2 hc)⟩

end melonds
